import Mathlib

set_option maxRecDepth 100000

/-!
Verification development for the InfraNest DSL-to-backend generator core:
`dsl_parser.py` (Validator / Normalizer), `base_generator.py` (security gate,
integrity hashing) and the three framework generators (`django_generator.py`,
`go_generator.py`, `rails_generator.py`).

The Python code is shallowly embedded: decoded YAML/JSON documents become the
inductive `PyVal` (string-keyed mappings, insertion order preserved, as in
Python 3.7+ dicts); fallible Python operations (subscripting, `.items()`,
attribute access) return `Except PyExc`; f-string interpolation becomes
explicit string concatenation with Python's `str()` conversion modelled by
`pyStrOf`.
-/

/-- A decoded Python value (the shapes a YAML/JSON document decodes to,
with string keys). Dict entry order is insertion order. -/
inductive PyVal where
  | pstr (s : String)
  | pint (n : Int)
  | pbool (b : Bool)
  | pnone
  | plist (xs : List PyVal)
  | pdict (xs : List (String × PyVal))

/-- A Python exception raised by an embedded operation. -/
inductive PyExc where
  | typeError (msg : String)
  | attributeError (msg : String)
  | keyError (key : String)
  deriving DecidableEq, Repr

namespace PyVal

mutual

/-- Structural equality test on Python values. -/
def beqVal : PyVal → PyVal → Bool
  | pstr a, pstr b => a == b
  | pint a, pint b => a == b
  | pbool a, pbool b => a == b
  | pnone, pnone => true
  | plist a, plist b => beqValList a b
  | pdict a, pdict b => beqValEnts a b
  | _, _ => false

/-- Elementwise equality test on value lists. -/
def beqValList : List PyVal → List PyVal → Bool
  | [], [] => true
  | a :: as_, b :: bs => beqVal a b && beqValList as_ bs
  | _, _ => false

/-- Elementwise equality test on dict entry lists. -/
def beqValEnts : List (String × PyVal) → List (String × PyVal) → Bool
  | [], [] => true
  | (ka, va) :: as_, (kb, vb) :: bs =>
      ka == kb && beqVal va vb && beqValEnts as_ bs
  | _, _ => false

end

instance : BEq PyVal := ⟨beqVal⟩

/-- First-match lookup in a dict entry list. -/
def entLookup (xs : List (String × PyVal)) (k : String) : Option PyVal :=
  match xs with
  | [] => none
  | (k', v) :: rest => if k' = k then some v else entLookup rest k

/-- Python dict assignment `d[k] = v`: update in place if the key exists
(keeping its position), otherwise append at the end. -/
def entSet (xs : List (String × PyVal)) (k : String) (v : PyVal) :
    List (String × PyVal) :=
  match xs with
  | [] => [(k, v)]
  | (k', v') :: rest =>
      if k' = k then (k, v) :: rest else (k', v') :: entSet rest k v

/-- Does the character list `pat` occur as a contiguous sublist starting at
the head of `s`? -/
def headMatch : List Char → List Char → Bool
  | [], _ => true
  | _ :: _, [] => false
  | p :: ps, c :: cs => p == c && headMatch ps cs

/-- Substring test on character lists (`pat` occurs somewhere in `s`). -/
def subMatch (pat : List Char) (s : List Char) : Bool :=
  match s with
  | [] => headMatch pat []
  | _ :: rest => headMatch pat s || subMatch pat rest

/-- Python `pat in s` for strings: substring containment. -/
def strIn (pat s : String) : Bool := subMatch pat.toList s.toList

/-- Python `k in v` (membership); raises `TypeError` for non-container values. -/
def pyIn (k : String) (v : PyVal) : Except PyExc Bool :=
  match v with
  | pdict xs => .ok (xs.any (fun p => p.1 == k))
  | plist xs => .ok (xs.any (fun x => beqVal x (pstr k)))
  | pstr s => .ok (strIn k s)
  | _ => .error (.typeError "argument is not iterable")

/-- Python subscript `v[k]` with a string key. -/
def pyGetItem (v : PyVal) (k : String) : Except PyExc PyVal :=
  match v with
  | pdict xs =>
      match entLookup xs k with
      | some r => .ok r
      | none => .error (.keyError k)
  | pstr _ => .error (.typeError "string indices must be integers")
  | plist _ => .error (.typeError "list indices must be integers")
  | _ => .error (.typeError "object is not subscriptable")

/-- Python `v.get(k, default)`: only dicts have `.get`. -/
def dictGet (v : PyVal) (k : String) (dflt : PyVal) : Except PyExc PyVal :=
  match v with
  | pdict xs =>
      match entLookup xs k with
      | some r => .ok r
      | none => .ok dflt
  | _ => .error (.attributeError "object has no attribute get")

/-- Python `v.items()`: only dicts have `.items`. -/
def dictItems (v : PyVal) : Except PyExc (List (String × PyVal)) :=
  match v with
  | pdict xs => .ok xs
  | _ => .error (.attributeError "object has no attribute items")

/-- Python `v.keys()` as a list of keys. -/
def dictKeysE (v : PyVal) : Except PyExc (List String) :=
  match v with
  | pdict xs => .ok (xs.map Prod.fst)
  | _ => .error (.attributeError "object has no attribute keys")

/-- Python `v.values()` as a list of values. -/
def dictValuesE (v : PyVal) : Except PyExc (List PyVal) :=
  match v with
  | pdict xs => .ok (xs.map Prod.snd)
  | _ => .error (.attributeError "object has no attribute values")

/-- Python truthiness. -/
def pyTruthy : PyVal → Bool
  | pstr s => s != ""
  | pint n => n != 0
  | pbool b => b
  | pnone => false
  | plist xs => !xs.isEmpty
  | pdict xs => !xs.isEmpty

/-- Python `repr()` of a string: quote preference and escaping as CPython
prints it (single quotes unless the string holds a `'` but no `"`). -/
def pyReprStr (s : String) : String :=
  let useDouble := strIn "'" s && !strIn "\"" s
  let q : Char := if useDouble then '"' else '\''
  let esc : Char → String := fun c =>
    if c = '\\' then "\\\\"
    else if c = q then "\\" ++ String.singleton q
    else if c = '\n' then "\\n"
    else if c = '\r' then "\\r"
    else if c = '\t' then "\\t"
    else if c.toNat < 32 then
      "\\x" ++ String.singleton (Nat.digitChar (c.toNat / 16)) ++
        String.singleton (Nat.digitChar (c.toNat % 16))
    else String.singleton c
  String.singleton q ++ String.join (s.toList.map esc) ++ String.singleton q

mutual

/-- Python `repr()` of a value. -/
def pyReprOf : PyVal → String
  | pstr s => pyReprStr s
  | pint n => toString n
  | pbool b => if b then "True" else "False"
  | pnone => "None"
  | plist xs => "[" ++ String.intercalate ", " (pyReprListAux xs) ++ "]"
  | pdict xs => "\x7b" ++ String.intercalate ", " (pyReprPairsAux xs) ++ "\x7d"

/-- `repr()` of each element of a list. -/
def pyReprListAux : List PyVal → List String
  | [] => []
  | x :: xs => pyReprOf x :: pyReprListAux xs

/-- `repr(key): repr(value)` for each dict entry. -/
def pyReprPairsAux : List (String × PyVal) → List String
  | [] => []
  | (k, v) :: xs => (pyReprStr k ++ ": " ++ pyReprOf v) :: pyReprPairsAux xs

end

/-- Python `str()` of a value (as used by f-string interpolation): identity
on strings, `repr` otherwise. -/
def pyStrOf : PyVal → String
  | pstr s => s
  | v => pyReprOf v

end PyVal

namespace DSLParser

open PyVal

/-- `DSLParser.required_sections`. -/
def requiredSections : List String := ["meta", "models"]

/-- `DSLParser.field_types`: the fixed field-type enumeration. -/
def fieldTypes : List String :=
  ["string", "text", "integer", "float", "boolean", "datetime",
   "date", "uuid", "url", "email", "json", "foreign_key",
   "many_to_many", "choice"]

/-- Character class `[a-z0-9-_]` of the project-name regex. -/
def lowerNameChar (c : Char) : Bool :=
  ('a' ≤ c && c ≤ 'z') || ('0' ≤ c && c ≤ '9') || c = '-' || c = '_'

/-- `re.match(r'^[a-z0-9-_]+$', s)` as a Boolean: a non-empty run of class
characters spanning the string; Python's `$` also matches just before one
trailing newline. -/
def matchProjectName (s : String) : Bool :=
  let cs := s.toList
  (decide (cs ≠ []) && cs.all lowerNameChar) ||
    (decide (cs.getLast? = some '\n') && decide (cs.dropLast ≠ []) &&
      cs.dropLast.all lowerNameChar)

/-- ASCII letter or digit (class `[a-zA-Z0-9]`). -/
def alnumChar (c : Char) : Bool :=
  ('a' ≤ c && c ≤ 'z') || ('A' ≤ c && c ≤ 'Z') || ('0' ≤ c && c ≤ '9')

/-- Body of the model-name regex `^[A-Z][a-zA-Z0-9]*$` on a char list. -/
def modelNameBody : List Char → Bool
  | [] => false
  | c :: rest => ('A' ≤ c && c ≤ 'Z') && rest.all alnumChar

/-- `re.match(r'^[A-Z][a-zA-Z0-9]*$', s)` as a Boolean (with the trailing
newline nuance of `$`). -/
def matchModelName (s : String) : Bool :=
  let cs := s.toList
  modelNameBody cs ||
    (decide (cs.getLast? = some '\n') && modelNameBody cs.dropLast)

/-- Result dict of `DSLParser.validate`. -/
structure VResult where
  valid : Bool
  errors : List String
  warnings : List String
  deriving DecidableEq, Repr

/-- `DSLParser._validate_meta` (the loop over the literal
`required_fields = ['name', 'version', 'framework']` is unrolled). -/
def validateMeta (meta : PyVal) : Except PyExc (List String) := do
  let mut errors : List String := []
  if !(← pyIn "name" meta) then
    errors := errors ++ ["Missing required field in meta: " ++ "name"]
  if !(← pyIn "version" meta) then
    errors := errors ++ ["Missing required field in meta: " ++ "version"]
  if !(← pyIn "framework" meta) then
    errors := errors ++ ["Missing required field in meta: " ++ "framework"]
  -- Validate framework
  if (← pyIn "framework" meta) then
    let supportedFrameworks := ["django", "go-fiber", "rails"]
    let fw ← pyGetItem meta "framework"
    if !(supportedFrameworks.any (fun f => beqVal (pstr f) fw)) then
      errors := errors ++
        ["Unsupported framework: " ++ pyStrOf fw ++ ". Supported: " ++
          pyReprOf (plist (supportedFrameworks.map pstr))]
  -- Validate name format
  if (← pyIn "name" meta) then
    let nameVal ← pyGetItem meta "name"
    match nameVal with
    | pstr s =>
        if !matchProjectName s then
          errors := errors ++
            ["Project name must contain only lowercase letters, numbers, hyphens, and underscores"]
    | _ => throw (.typeError "expected string or bytes-like object")
  return errors

/-- The per-field body of `DSLParser._validate_models`' inner loop: the
errors it appends for one field and that field's contribution to the
primary-key count. -/
def validateField (modelName fieldName : String) (fieldDef : PyVal) :
    Except PyExc (List String × Nat) := do
  -- Validate field type
  if !(← pyIn "type" fieldDef) then
    return (["Field '" ++ fieldName ++ "' in model '" ++ modelName ++
      "' must have a 'type'"], 0)
  let mut errors : List String := []
  let tval ← pyGetItem fieldDef "type"
  if !(fieldTypes.any (fun t => beqVal (pstr t) tval)) then
    errors := errors ++
      ["Invalid field type '" ++ pyStrOf tval ++ "' for field '" ++
        fieldName ++ "' in model '" ++ modelName ++ "'"]
  -- Count primary keys
  let pk ← dictGet fieldDef "primary_key" (pbool false)
  return (errors, if pyTruthy pk then 1 else 0)

/-- The field loop of `_validate_models`: accumulated errors and the
primary-key count over the field entries, in order. -/
def validateFieldsList (modelName : String) :
    List (String × PyVal) → Except PyExc (List String × Nat)
  | [] => .ok ([], 0)
  | fe :: rest => do
      let (fieldErrors, pk) ← validateField modelName fe.1 fe.2
      let (restErrors, restPk) ← validateFieldsList modelName rest
      return (fieldErrors ++ restErrors, pk + restPk)

/-- The per-model body of `DSLParser._validate_models`' outer loop. -/
def validateModel (modelName : String) (modelDef : PyVal) :
    Except PyExc (List String × List String) := do
  let mut errors : List String := []
  let mut warnings : List String := []
  -- Validate model name
  if !matchModelName modelName then
    errors := errors ++
      ["Model name '" ++ modelName ++
        "' must start with uppercase letter and contain only letters and numbers"]
  -- Validate fields
  if !(← pyIn "fields" modelDef) then
    errors := errors ++ ["Model '" ++ modelName ++ "' must have a 'fields' section"]
    return (errors, warnings)
  let fields ← pyGetItem modelDef "fields"
  let fieldEntries ← dictItems fields
  let (fieldErrors, primaryKeyCount) ← validateFieldsList modelName fieldEntries
  errors := errors ++ fieldErrors
  -- Validate primary key
  if primaryKeyCount = 0 then
    warnings := warnings ++
      ["Model '" ++ modelName ++
        "' has no primary key. An 'id' field will be auto-generated."]
  else if primaryKeyCount > 1 then
    errors := errors ++ ["Model '" ++ modelName ++ "' has multiple primary keys"]
  return (errors, warnings)

/-- The model loop of `_validate_models`. -/
def validateModelsList :
    List (String × PyVal) → Except PyExc (List String × List String)
  | [] => .ok ([], [])
  | e :: rest => do
      let (modelErrors, modelWarnings) ← validateModel e.1 e.2
      let (restErrors, restWarnings) ← validateModelsList rest
      return (modelErrors ++ restErrors, modelWarnings ++ restWarnings)

/-- `DSLParser._validate_models`. -/
def validateModels (models : PyVal) : Except PyExc (List String × List String) := do
  validateModelsList (← dictItems models)

/-- `DSLParser._validate_auth`. -/
def validateAuth (auth : PyVal) : Except PyExc (List String) := do
  let mut errors : List String := []
  if !(← pyIn "provider" auth) then
    errors := errors ++ ["Auth section must specify a 'provider'"]
  let supportedProviders := ["jwt", "oauth2", "custom"]
  let provider ← dictGet auth "provider" pnone
  if !(supportedProviders.any (fun p => beqVal (pstr p) provider)) then
    errors := errors ++
      ["Unsupported auth provider: " ++ pyStrOf provider ++ ". Supported: " ++
        pyReprOf (plist (supportedProviders.map pstr))]
  return errors

/-- The endpoint loop of `_validate_api` over a list of endpoints. -/
def validateEndpointsList : List PyVal → Except PyExc (List String)
  | [] => .ok []
  | endpoint :: rest => do
      let mut errors : List String := []
      if !(← pyIn "path" endpoint) then
        errors := errors ++ ["API endpoint must have a 'path'"]
      if !(← pyIn "method" endpoint) then
        errors := errors ++ ["API endpoint must have a 'method'"]
      return errors ++ (← validateEndpointsList rest)

/-- The endpoint loop when iterating a dict (its keys) or a string (its
characters): each iterate is a string, so the membership tests are
substring tests and never raise. -/
def validateEndpointStrs : List String → List String
  | [] => []
  | e :: rest =>
      (if !strIn "path" e then ["API endpoint must have a 'path'"] else []) ++
      (if !strIn "method" e then ["API endpoint must have a 'method'"] else []) ++
      validateEndpointStrs rest

/-- `DSLParser._validate_api`. -/
def validateApi (api : PyVal) : Except PyExc (List String) := do
  let mut errors : List String := []
  if (← pyIn "endpoints" api) then
    let eps ← pyGetItem api "endpoints"
    match eps with
    | .plist items =>
        errors := errors ++ (← validateEndpointsList items)
    | .pdict entries =>
        -- iterating a dict yields its keys
        errors := errors ++ validateEndpointStrs (entries.map Prod.fst)
    | .pstr s =>
        -- iterating a string yields its characters
        errors := errors ++ validateEndpointStrs (s.toList.map String.singleton)
    | _ => throw (.typeError "object is not iterable")
  return errors

/-- The `if 'meta' in dsl_spec: … _validate_meta(dsl_spec['meta'])` block:
the meta section's error contribution. -/
def metaSectionErrors (dslSpec : PyVal) : Except PyExc (List String) := do
  if (← pyIn "meta" dslSpec) then
    validateMeta (← pyGetItem dslSpec "meta")
  else
    return []

/-- The `if 'models' in dsl_spec: …` block: the models section's error and
warning contributions. -/
def modelsSectionChecks (dslSpec : PyVal) :
    Except PyExc (List String × List String) := do
  if (← pyIn "models" dslSpec) then
    validateModels (← pyGetItem dslSpec "models")
  else
    return ([], [])

/-- The `if 'auth' in dsl_spec: …` block. -/
def authSectionErrors (dslSpec : PyVal) : Except PyExc (List String) := do
  if (← pyIn "auth" dslSpec) then
    validateAuth (← pyGetItem dslSpec "auth")
  else
    return []

/-- The `if 'api' in dsl_spec: …` block. -/
def apiSectionErrors (dslSpec : PyVal) : Except PyExc (List String) := do
  if (← pyIn "api" dslSpec) then
    validateApi (← pyGetItem dslSpec "api")
  else
    return []

/-- `DSLParser.validate`: the required-section checks (the loop over the
literal `required_sections = ['meta', 'models']` is unrolled), then the
per-section checks in source order, accumulating errors and warnings. -/
def validate (dslSpec : PyVal) : Except PyExc VResult := do
  let mut errors : List String := []
  let mut warnings : List String := []
  if !(← pyIn "meta" dslSpec) then
    errors := errors ++ ["Missing required section: " ++ "meta"]
  if !(← pyIn "models" dslSpec) then
    errors := errors ++ ["Missing required section: " ++ "models"]
  errors := errors ++ (← metaSectionErrors dslSpec)
  let (modelErrors, modelWarnings) ← modelsSectionChecks dslSpec
  errors := errors ++ modelErrors
  warnings := warnings ++ modelWarnings
  errors := errors ++ (← authSectionErrors dslSpec)
  errors := errors ++ (← apiSectionErrors dslSpec)
  return { valid := errors.length = 0, errors := errors, warnings := warnings }

/-- The synthetic primary-key field injected by `_normalize_spec`. -/
def idFieldDef : PyVal :=
  .pdict [("type", .pstr "uuid"), ("primary_key", .pbool true),
          ("auto_generated", .pbool true)]

/-- Python `v.copy()`: a new top-level container sharing the same nested
values (only dicts and lists have `.copy`). -/
def pyCopy (v : PyVal) : Except PyExc PyVal :=
  match v with
  | .pdict xs => .ok (.pdict xs)
  | .plist xs => .ok (.plist xs)
  | _ => .error (.attributeError "object has no attribute copy")

/-- Python `v[k] = x` on the value level. -/
def pySetItem (v : PyVal) (k : String) (x : PyVal) : Except PyExc PyVal :=
  match v with
  | .pdict xs => .ok (.pdict (entSet xs k x))
  | .plist _ => .error (.typeError "list indices must be integers")
  | _ => .error (.typeError "object does not support item assignment")

/-- Python `any(field.get('primary_key', False) for field in values)`:
short-circuits at the first truthy flag, so later elements are not touched. -/
def anyPrimaryKey : List PyVal → Except PyExc Bool
  | [] => .ok false
  | f :: fs => do
      let pk ← dictGet f "primary_key" (.pbool false)
      if pyTruthy pk then return true else anyPrimaryKey fs

/-- One iteration of `_normalize_spec`'s model loop, as the resulting value
of the model definition: if the model has `fields`, no truthy
`primary_key` flag, and no field named `id`, the synthetic `id` field is
assigned into the fields dict (a new key, hence appended last). -/
def normalizeModelDef (modelDef : PyVal) : Except PyExc PyVal := do
  if !(← pyIn "fields" modelDef) then return modelDef
  let fields ← pyGetItem modelDef "fields"
  let hasPrimaryKey ← anyPrimaryKey (← dictValuesE fields)
  if hasPrimaryKey then return modelDef
  if (← pyIn "id" fields) then return modelDef
  let fieldEntries ← dictItems fields
  pySetItem modelDef "fields" (.pdict (entSet fieldEntries "id" idFieldDef))

/-- The model loop of `_normalize_spec`, as the resulting models entries. -/
def normalizeModelsList :
    List (String × PyVal) → Except PyExc (List (String × PyVal))
  | [] => .ok []
  | e :: rest => do
      let md ← normalizeModelDef e.2
      return (e.1, md) :: (← normalizeModelsList rest)

/-- `DSLParser._normalize_spec`, as the value of the dict it returns.
(The source copies only the top level — `dsl_spec.copy()` — and assigns
the `id` field into the shared nested fields dicts; the heap model below
accounts for the caller-visible mutation, this function for the returned
value on alias-free inputs.) -/
def normalizeSpec (dslSpec : PyVal) : Except PyExc PyVal := do
  let copied ← pyCopy dslSpec
  let normalized ←
    if !(← pyIn "meta" copied) then pySetItem copied "meta" (.pdict [])
    else pure copied
  let modelsVal ← dictGet normalized "models" (.pdict [])
  let entries ← dictItems modelsVal
  let newEntries ← normalizeModelsList entries
  if (← pyIn "models" normalized) then
    pySetItem normalized "models" (.pdict newEntries)
  else
    return normalized

end DSLParser

/-! ## `json.dumps` (default separators, `ensure_ascii=True`) -/

namespace PyJson

open PyVal

/-- Lowercase hex digit. -/
def hexCh (n : Nat) : Char := Nat.digitChar (n % 16)

/-- `\uXXXX` escape with four lowercase hex digits. -/
def u4 (n : Nat) : String :=
  "\\u" ++ String.singleton (hexCh (n / 4096)) ++
    String.singleton (hexCh (n / 256)) ++ String.singleton (hexCh (n / 16)) ++
    String.singleton (hexCh n)

/-- `ensure_ascii` escape of one character: everything outside the printable
ASCII range becomes `\uXXXX` (surrogate pairs above U+FFFF). -/
def jsonEscChar (c : Char) : String :=
  if c = '"' then "\\\""
  else if c = '\\' then "\\\\"
  else if c = '\n' then "\\n"
  else if c = '\r' then "\\r"
  else if c = '\t' then "\\t"
  else if c = '\x08' then "\\b"
  else if c = '\x0c' then "\\f"
  else if c.toNat < 0x20 || c.toNat > 0x7e then
    if c.toNat ≥ 0x10000 then
      u4 (0xd800 + (c.toNat - 0x10000) / 0x400) ++
        u4 (0xdc00 + (c.toNat - 0x10000) % 0x400)
    else u4 c.toNat
  else String.singleton c

/-- JSON string literal for `s`. -/
def jsonStr (s : String) : String :=
  "\"" ++ String.join (s.toList.map jsonEscChar) ++ "\""

mutual

/-- `json.dumps(v)` with the default separators `(', ', ': ')`. -/
def jsonDumps : PyVal → String
  | pstr s => jsonStr s
  | pint n => toString n
  | pbool b => if b then "true" else "false"
  | pnone => "null"
  | plist xs => "[" ++ String.intercalate ", " (jsonDumpsListAux xs) ++ "]"
  | pdict xs => "\x7b" ++ String.intercalate ", " (jsonDumpsPairsAux xs) ++ "\x7d"

/-- Serialisation of list elements. -/
def jsonDumpsListAux : List PyVal → List String
  | [] => []
  | x :: xs => jsonDumps x :: jsonDumpsListAux xs

/-- Serialisation of dict entries. -/
def jsonDumpsPairsAux : List (String × PyVal) → List String
  | [] => []
  | (k, v) :: xs => (jsonStr k ++ ": " ++ jsonDumps v) :: jsonDumpsPairsAux xs

end

/-- `json.dumps(d, indent=2)` for a flat string-to-string dict (as used for
the integrity manifest): item separator `','` plus newline and two-space
indent, key separator `': '`. -/
def jsonDumpsStrDictIndent2 (d : List (String × String)) : String :=
  match d with
  | [] => "\x7b\x7d"
  | _ =>
      "\x7b\n" ++
        String.intercalate ",\n"
          (d.map (fun p => "  " ++ jsonStr p.1 ++ ": " ++ jsonStr p.2)) ++
      "\n\x7d"

end PyJson

/-! ## Security-gate regular expressions

Each source regex is an alternation of token sequences; `re.search` with
`re.IGNORECASE` is the existence of a match at some position, embedded here
as a decidable scan over all suffixes of the lowercased subject. -/

namespace PyRegex

open PyVal

/-- One token of a gate pattern. -/
inductive RTok where
  | lit (s : String)
  | ws
  | anyNoNl
  | quoteCh

/-- Python `\s` on ASCII. -/
def isWsChar (c : Char) : Bool :=
  c = ' ' || c = '\t' || c = '\n' || c = '\r' || c = '\x0b' || c = '\x0c'

/-- ASCII lowercasing (the `re.IGNORECASE` comparison). -/
def lc (c : Char) : Char := if 'A' ≤ c && c ≤ 'Z' then Char.ofNat (c.toNat + 32) else c

/-- Case-insensitive literal match at the head of `s`, returning the rest. -/
def litMatch : List Char → List Char → Option (List Char)
  | [], s => some s
  | _ :: _, [] => none
  | p :: ps, c :: cs => if p = lc c then litMatch ps cs else none

/-- Fuelled matcher: does the token sequence match a prefix of `s`?
Every recursive call shrinks `tokens + subject`, so
`ts.length + s.length + 1` fuel is always enough; the fuel keeps the
recursion structural (hence kernel-reducible). -/
def matchToksF : Nat → List RTok → List Char → Bool
  | 0, _, _ => false
  | _ + 1, [], _ => true
  | fuel + 1, .lit p :: ts, s =>
      match litMatch p.toList s with
      | some rest => matchToksF fuel ts rest
      | none => false
  | fuel + 1, .ws :: ts, s =>
      matchToksF fuel ts s ||
        (match s with
         | c :: cs => isWsChar c && matchToksF fuel (.ws :: ts) cs
         | [] => false)
  | fuel + 1, .anyNoNl :: ts, s =>
      matchToksF fuel ts s ||
        (match s with
         | c :: cs => !(c = '\n') && matchToksF fuel (.anyNoNl :: ts) cs
         | [] => false)
  | fuel + 1, .quoteCh :: ts, s =>
      match s with
      | c :: cs => (c = '\'' || c = '"') && matchToksF fuel ts cs
      | [] => false

/-- Does the token sequence match a prefix of `s`? -/
def matchToksAt (ts : List RTok) (s : List Char) : Bool :=
  matchToksF (ts.length + s.length + 1) ts s

/-- Does the token sequence match starting at some position of `s`? -/
def searchFrom (ts : List RTok) : List Char → Bool
  | [] => matchToksAt ts []
  | c :: cs => matchToksAt ts (c :: cs) || searchFrom ts cs

/-- `re.search` of an alternation over a string. -/
def reSearch (alts : List (List RTok)) (s : String) : Bool :=
  alts.any (fun ts => searchFrom ts s.toList)

/-- `r'(exec\s*\(|eval\s*\(|system\s*\()'` — code execution. -/
def patCodeExec : List (List RTok) :=
  [[.lit "exec", .ws, .lit "("], [.lit "eval", .ws, .lit "("],
   [.lit "system", .ws, .lit "("]]

/-- `r'(__import__|importlib|subprocess)'` — dynamic imports. -/
def patDynImport : List (List RTok) :=
  [[.lit "__import__"], [.lit "importlib"], [.lit "subprocess"]]

/-- `r'(os\.system|os\.popen|os\.spawn)'` — OS commands. -/
def patOsCmd : List (List RTok) :=
  [[.lit "os.system"], [.lit "os.popen"], [.lit "os.spawn"]]

/-- `r'(open\s*\(.*?,\s*[\'"]w[\'"]\))'` — file writing. -/
def patFileWrite : List (List RTok) :=
  [[.lit "open", .ws, .lit "(", .anyNoNl, .lit ",", .ws, .quoteCh,
    .lit "w", .quoteCh, .lit ")"]]

/-- `r'(<script>|<iframe>|javascript:)'` — XSS patterns. -/
def patXss : List (List RTok) :=
  [[.lit "<script>"], [.lit "<iframe>"], [.lit "javascript:"]]

/-- The `dangerous_patterns` list scanned over the serialised spec. -/
def dangerousPatterns : List (List (List RTok)) :=
  [patCodeExec, patDynImport, patOsCmd, patFileWrite, patXss]

/-- `r'(--|;|\/\*|\*\/|@@|@|char\s*\()'` — the SQL-injection pattern
applied to every field name. -/
def patSqlFieldName : List (List RTok) :=
  [[.lit "--"], [.lit ";"], [.lit "/*"], [.lit "*/"], [.lit "@@"],
   [.lit "@"], [.lit "char", .ws, .lit "("]]

end PyRegex

/-! ## `BaseGenerator`: validation, security gate -/

namespace BaseGenerator

open PyVal PyRegex

/-- `BaseGenerator.validate_dsl`, returning the accumulated
`validation_errors` list (the source's return value is
`len(self.validation_errors) == 0`). -/
def validateDsl (dslSpec : PyVal) : Except PyExc (List String) := do
  let mut errors : List String := []
  -- Check required fields (loop over the literal list unrolled)
  if !(← pyIn "meta" dslSpec) then
    errors := errors ++ ["Missing required field: " ++ "meta"]
  if !(← pyIn "models" dslSpec) then
    errors := errors ++ ["Missing required field: " ++ "models"]
  -- Validate meta section
  if (← pyIn "meta" dslSpec) then
    let meta ← pyGetItem dslSpec "meta"
    match meta with
    | .pdict _ =>
        if !(← pyIn "name" meta) then
          errors := errors ++ ["Missing required meta field: " ++ "name"]
        if !(← pyIn "version" meta) then
          errors := errors ++ ["Missing required meta field: " ++ "version"]
        if !(← pyIn "framework" meta) then
          errors := errors ++ ["Missing required meta field: " ++ "framework"]
    | _ => errors := errors ++ ["Meta section must be a dictionary"]
  -- Validate models section
  if (← pyIn "models" dslSpec) then
    let models ← pyGetItem dslSpec "models"
    match models with
    | .pdict entries =>
        for e in entries do
          match e.2 with
          | .pdict _ =>
              if !(← pyIn "fields" e.2) then
                errors := errors ++
                  ["Model " ++ e.1 ++ " is missing fields definition"]
          | _ =>
              errors := errors ++
                ["Model " ++ e.1 ++ " definition must be a dictionary"]
    | _ => errors := errors ++ ["Models section must be a dictionary"]
  return errors

/-- The model loop of `perform_security_checks`: `true` when some field
name of some model matches the SQL pattern (the source then returns
`False` for the whole scan). Matching a name short-circuits before later
models are touched, as the source's early `return False` does. -/
def sqlFieldNameHit : List (String × PyVal) → Except PyExc Bool
  | [] => .ok false
  | e :: rest => do
      if (← pyIn "fields" e.2) then
        let fieldNames ← dictKeysE (← pyGetItem e.2 "fields")
        if fieldNames.any (fun fieldName => reSearch patSqlFieldName fieldName) then
          return true
        else
          sqlFieldNameHit rest
      else
        sqlFieldNameHit rest

/-- `BaseGenerator.perform_security_checks`: serialises the spec, scans the
dangerous patterns, then scans every field name for SQL metacharacters. -/
def performSecurityChecks (dslSpec : PyVal) : Except PyExc Bool := do
  let dslStr := PyJson.jsonDumps dslSpec
  if dangerousPatterns.any (fun pattern => reSearch pattern dslStr) then
    return false
  if (← pyIn "models" dslSpec) then
    let entries ← dictItems (← pyGetItem dslSpec "models")
    if (← sqlFieldNameHit entries) then
      return false
  return true

end BaseGenerator

/-! ## SHA-256 (FIPS 180-4) over byte lists, for the integrity manifest

`BaseGenerator.compute_hash` delegates to `hashlib.sha256`; the algorithm is
implemented here from the standard so that the hex digests in the embedded
`integrity.json` are the actual SHA-256 digests (checked below on the
standard test vectors). -/

namespace Sha256

/-- `2^32`. -/
def M32 : Nat := 4294967296

/-- Right rotation of a 32-bit word. -/
def rotr (n x : Nat) : Nat := ((x >>> n) ||| (x <<< (32 - n))) % M32

/-- The 64 round constants. -/
def K : List Nat :=
  [1116352408, 1899447441, 3049323471, 3921009573, 961987163,
   1508970993, 2453635748, 2870763221, 3624381080, 310598401,
   607225278, 1426881987, 1925078388, 2162078206, 2614888103,
   3248222580, 3835390401, 4022224774, 264347078, 604807628,
   770255983, 1249150122, 1555081692, 1996064986, 2554220882,
   2821834349, 2952996808, 3210313671, 3336571891, 3584528711,
   113926993, 338241895, 666307205, 773529912, 1294757372,
   1396182291, 1695183700, 1986661051, 2177026350, 2456956037,
   2730485921, 2820302411, 3259730800, 3345764771, 3516065817,
   3600352804, 4094571909, 275423344, 430227734, 506948616,
   659060556, 883997877, 958139571, 1322822218, 1537002063,
   1747873779, 1955562222, 2024104815, 2227730452, 2361852424,
   2428436474, 2756734187, 3204031479, 3329325298]

/-- The initial hash value. -/
def H0 : List Nat :=
  [1779033703, 3144134277, 1013904242, 2773480762,
   1359893119, 2600822924, 528734635, 1541459225]

/-- Big-endian 8-byte encoding of the bit length. -/
def be64 (n : Nat) : List Nat :=
  [(n >>> 56) % 256, (n >>> 48) % 256, (n >>> 40) % 256, (n >>> 32) % 256,
   (n >>> 24) % 256, (n >>> 16) % 256, (n >>> 8) % 256, n % 256]

/-- Merkle–Damgård padding to a multiple of 64 bytes. -/
def padMsg (msg : List Nat) : List Nat :=
  let len := msg.length
  let zeros := (119 - len % 64) % 64
  msg ++ [0x80] ++ List.replicate zeros 0 ++ be64 (len * 8)

/-- Group bytes into big-endian 32-bit words. -/
def toWords : List Nat → List Nat
  | b0 :: b1 :: b2 :: b3 :: rest =>
      (b0 * 16777216 + b1 * 65536 + b2 * 256 + b3) :: toWords rest
  | _ => []

/-- σ₀ message-schedule function. -/
def sigma0 (x : Nat) : Nat := rotr 7 x ^^^ rotr 18 x ^^^ (x >>> 3)

/-- σ₁ message-schedule function. -/
def sigma1 (x : Nat) : Nat := rotr 17 x ^^^ rotr 19 x ^^^ (x >>> 10)

/-- Σ₀ compression function. -/
def bigS0 (x : Nat) : Nat := rotr 2 x ^^^ rotr 13 x ^^^ rotr 22 x

/-- Σ₁ compression function. -/
def bigS1 (x : Nat) : Nat := rotr 6 x ^^^ rotr 11 x ^^^ rotr 25 x

/-- Choice function. -/
def ch (x y z : Nat) : Nat := (x &&& y) ^^^ ((x ^^^ (M32 - 1)) &&& z)

/-- Majority function. -/
def maj (x y z : Nat) : Nat := (x &&& y) ^^^ (x &&& z) ^^^ (y &&& z)

/-- Extend the 16-word schedule by `k` further words. -/
def buildW (w : List Nat) : Nat → List Nat
  | 0 => w
  | k + 1 =>
      let i := w.length
      let nw := (sigma1 (w.getD (i - 2) 0) + w.getD (i - 7) 0 +
        sigma0 (w.getD (i - 15) 0) + w.getD (i - 16) 0) % M32
      buildW (w ++ [nw]) k

/-- One round of the compression function. -/
def step (s : Nat × Nat × Nat × Nat × Nat × Nat × Nat × Nat) (kw : Nat) :
    Nat × Nat × Nat × Nat × Nat × Nat × Nat × Nat :=
  match s with
  | (a, b, c, d, e, f, g, h) =>
      let t1 := (h + bigS1 e + ch e f g + kw) % M32
      let t2 := (bigS0 a + maj a b c) % M32
      ((t1 + t2) % M32, a, b, c, (d + t1) % M32, e, f, g)

/-- Compress one 64-byte block into the running state. -/
def compress (h : List Nat) (block : List Nat) : List Nat :=
  let w := buildW (toWords block) 48
  let kw := List.zipWith (fun k wi => (k + wi) % M32) K w
  match kw.foldl step
      (h.getD 0 0, h.getD 1 0, h.getD 2 0, h.getD 3 0,
       h.getD 4 0, h.getD 5 0, h.getD 6 0, h.getD 7 0) with
  | (a, b, c, d, e, f, g, hh) =>
      List.zipWith (fun x y => (x + y) % M32) h [a, b, c, d, e, f, g, hh]

/-- Split into 64-byte blocks (fuelled so that it reduces by `rfl`; one
unit of fuel per byte is more than enough). -/
def chunks64Fuel : Nat → List Nat → List (List Nat)
  | 0, _ => []
  | _, [] => []
  | fuel + 1, x :: xs =>
      (x :: xs).take 64 :: chunks64Fuel fuel ((x :: xs).drop 64)

/-- Split into 64-byte blocks. -/
def chunks64 (xs : List Nat) : List (List Nat) := chunks64Fuel xs.length xs

/-- SHA-256 digest (32 bytes) of a byte list. -/
def sha256 (msg : List Nat) : List Nat :=
  ((chunks64 (padMsg msg)).foldl compress H0).flatMap
    (fun w => [(w >>> 24) % 256, (w >>> 16) % 256, (w >>> 8) % 256, w % 256])

/-- Lowercase hex rendering of one byte. -/
def byteHex (b : Nat) : String :=
  String.singleton (Nat.digitChar (b / 16 % 16)) ++
    String.singleton (Nat.digitChar (b % 16))

/-- UTF-8 encoding of a string as a byte list. -/
def utf8Bytes (s : String) : List Nat :=
  s.toList.flatMap (fun c =>
    let n := c.toNat
    if n < 0x80 then [n]
    else if n < 0x800 then [0xc0 + n / 64, 0x80 + n % 64]
    else if n < 0x10000 then
      [0xe0 + n / 4096, 0x80 + n / 64 % 64, 0x80 + n % 64]
    else
      [0xf0 + n / 262144, 0x80 + n / 4096 % 64, 0x80 + n / 64 % 64,
       0x80 + n % 64])

/-- SHA-256 hex digest of the UTF-8 encoding of a string. -/
def sha256HexOfString (s : String) : String :=
  String.join ((sha256 (utf8Bytes s)).map byteHex)

end Sha256

/-- `BaseGenerator.compute_hash`:
`hashlib.sha256(content.encode('utf-8')).hexdigest()`. -/
def BaseGenerator.computeHash (content : String) : String :=
  Sha256.sha256HexOfString content

/-! ## Ambient effect environment

The generators' `generate` methods are given access to Python's ambient
nondeterminism sources (wall clock via `datetime`, randomness via
`uuid`/`random`). Their translated bodies never consult this environment —
none of the source lines reads a clock or draws randomness while producing
file content — which is what makes the determinism property provable. -/

structure PyEnv where
  clock : Nat
  entropy : Nat → Nat

/-! ## Shared string helpers of the generators -/

/-- ASCII `str.lower()`. -/
def lowerStr (s : String) : String :=
  String.mk (s.toList.map PyRegex.lc)

/-- `DjangoGenerator._to_snake_case`:
`re.sub(r'(?<!^)(?=[A-Z])', '_', camel_str).lower()` — an underscore is
inserted before every capital letter except at the start, then everything
is lowercased. -/
def toSnakeCase (camelStr : String) : String :=
  let rec go : List Char → Bool → List Char
    | [], _ => []
    | c :: rest, atStart =>
        if 'A' ≤ c && c ≤ 'Z' && !atStart then
          '_' :: PyRegex.lc c :: go rest false
        else
          PyRegex.lc c :: go rest false
  String.mk (go camelStr.toList true)

/-- ASCII `str.title()`: a cased letter is uppercased when the previous
character is not a letter, lowercased otherwise. -/
def titleStr (s : String) : String :=
  let isAlpha : Char → Bool := fun c =>
    ('a' ≤ c && c ≤ 'z') || ('A' ≤ c && c ≤ 'Z')
  let upper : Char → Char := fun c =>
    if 'a' ≤ c && c ≤ 'z' then Char.ofNat (c.toNat - 32) else c
  let rec go : List Char → Bool → List Char
    | [], _ => []
    | c :: rest, prevAlpha =>
        (if isAlpha c then (if prevAlpha then PyRegex.lc c else upper c) else c)
          :: go rest (isAlpha c)
  String.mk (go s.toList false)

/-- Python `repr()` of a list of strings, as f-strings interpolate it
(e.g. `['id', 'title', 'created_at', 'updated_at']`). -/
def pyListRepr (xs : List String) : String :=
  "[" ++ String.intercalate ", " (xs.map PyVal.pyReprStr) ++ "]"

/-- `dsl_spec.get('meta', {}).get(key, default)`. -/
def metaGet (dslSpec : PyVal) (key : String) (dflt : PyVal) :
    Except PyExc PyVal := do
  PyVal.dictGet (← PyVal.dictGet dslSpec "meta" (.pdict [])) key dflt

/-- An exception escaping a generator's `generate`: either the explicit
`ValueError` it raises on failed validation/security checks, or a Python
runtime exception propagating out of its body. -/
inductive GenExc where
  | valueError (msg : String)
  | pyError (e : PyExc)
  deriving DecidableEq, Repr

namespace DjangoGenerator

open PyVal

/-- The per-field emission chain of `_generate_models_complete`
(lines 345–367). -/
def fieldLine (fieldName : String) (fieldConfig : PyVal) :
    Except PyExc String := do
  let fieldType ← dictGet fieldConfig "type" (.pstr "string")
  let required ← dictGet fieldConfig "required" (.pbool false)
  let blankStr := if pyTruthy required then "False" else "True"
  if beqVal fieldType (.pstr "string") || beqVal fieldType (.pstr "text") then
    let maxLength ← dictGet fieldConfig "max_length" (.pint 255)
    return "    " ++ fieldName ++ " = models.CharField(max_length=" ++
      pyStrOf maxLength ++ ", blank=" ++ blankStr ++ ")\n"
  else if beqVal fieldType (.pstr "integer") then
    return "    " ++ fieldName ++ " = models.IntegerField(null=" ++ blankStr ++
      ", blank=" ++ blankStr ++ ")\n"
  else if beqVal fieldType (.pstr "decimal") then
    return "    " ++ fieldName ++
      " = models.DecimalField(max_digits=10, decimal_places=2, null=" ++
      blankStr ++ ", blank=" ++ blankStr ++ ")\n"
  else if beqVal fieldType (.pstr "boolean") then
    return "    " ++ fieldName ++ " = models.BooleanField(default=False)\n"
  else if beqVal fieldType (.pstr "date") then
    return "    " ++ fieldName ++ " = models.DateField(null=" ++ blankStr ++
      ", blank=" ++ blankStr ++ ")\n"
  else if beqVal fieldType (.pstr "datetime") then
    return "    " ++ fieldName ++ " = models.DateTimeField(null=" ++ blankStr ++
      ", blank=" ++ blankStr ++ ")\n"
  else if beqVal fieldType (.pstr "email") then
    return "    " ++ fieldName ++ " = models.EmailField(blank=" ++ blankStr ++ ")\n"
  else if beqVal fieldType (.pstr "url") then
    return "    " ++ fieldName ++ " = models.URLField(blank=" ++ blankStr ++ ")\n"
  else
    return "    " ++ fieldName ++ " = models.CharField(max_length=255, blank=" ++
      blankStr ++ ")\n"

/-- `_generate_manage_py` (the computed project name is unused by its
template but its lookup chain still runs). -/
def generateManagePy (dslSpec : PyVal) : Except PyExc String := do
  let _ ← metaGet dslSpec "name" (.pstr "project")
  return "#!/usr/bin/env python\n\"\"\"Django's command-line utility for administrative tasks.\"\"\"\nimport os\nimport sys\n\n\ndef main():\n    \"\"\"Run administrative tasks.\"\"\"\n    os.environ.setdefault('DJANGO_SETTINGS_MODULE', 'project.settings')\n    try:\n        from django.core.management import execute_from_command_line\n    except ImportError as exc:\n        raise ImportError(\n            \"Couldn't import Django. Are you sure it's installed and \"\n            \"available on your PYTHONPATH environment variable? Did you \"\n            \"forget to activate a virtual environment?\"\n        ) from exc\n    execute_from_command_line(sys.argv)\n\n\nif __name__ == '__main__':\n    main()\n"

/-- The field loop of `_generate_models_complete`: the emitted field lines,
in field order. -/
def fieldLinesList : List (String × PyVal) → Except PyExc String
  | [] => .ok ""
  | fe :: rest => do
      return (← fieldLine fe.1 fe.2) ++ (← fieldLinesList rest)

/-- The fixed header of `app/models.py` (with the extended `User` model). -/
def modelsHeader (projectName : String) : String :=
  "\"\"\"\nDjango Models for " ++ projectName ++ "\nGenerated by InfraNest\n\"\"\"\nfrom django.db import models\nfrom django.contrib.auth.models import AbstractUser\nfrom django.core.validators import MinValueValidator, MaxValueValidator\nimport uuid\n\n\nclass User(AbstractUser):\n    \"\"\"Extended user model\"\"\"\n    id = models.UUIDField(primary_key=True, default=uuid.uuid4, editable=False)\n    bio = models.TextField(blank=True)\n    avatar = models.URLField(blank=True)\n    created_at = models.DateTimeField(auto_now_add=True)\n    updated_at = models.DateTimeField(auto_now=True)\n    \n    class Meta:\n        db_table = 'users'\n        ordering = ['-created_at']\n\n\n"

/-- The hard-coded primary-key line emitted for every model (line 341). -/
def idLine : String :=
  "    id = models.UUIDField(primary_key=True, default=uuid.uuid4, editable=False)\n"

/-- The per-model block of `_generate_models_complete` (lines 337–379). -/
def modelBlock (modelName : String) (modelConfig : PyVal) :
    Except PyExc String := do
  let description ← dictGet modelConfig "description" (.pstr (modelName ++ " model"))
  let head := "class " ++ modelName ++ "(models.Model):\n" ++
    "    \"\"\"" ++ pyStrOf description ++ "\"\"\"\n" ++ idLine
  let fields ← dictGet modelConfig "fields" (.pdict [])
  let fieldEntries ← dictItems fields
  let fieldLines ← fieldLinesList fieldEntries
  let firstField := if !fieldEntries.isEmpty then
      (fieldEntries.map Prod.fst).getD 0 "id"
    else "id"
  return head ++ fieldLines ++
    "    created_at = models.DateTimeField(auto_now_add=True)\n" ++
    "    updated_at = models.DateTimeField(auto_now=True)\n" ++
    "\n" ++
    "    class Meta:\n" ++
    "        db_table = \"" ++ toSnakeCase modelName ++ "s\"\n" ++
    "        ordering = [\"-created_at\"]\n" ++
    "\n" ++
    "    def __str__(self):\n" ++
    "        return str(self." ++ firstField ++ ")\n" ++
    "\n\n"

/-- The model loop of `_generate_models_complete`. -/
def modelBlocksList : List (String × PyVal) → Except PyExc String
  | [] => .ok ""
  | e :: rest => do
      return (← modelBlock e.1 e.2) ++ (← modelBlocksList rest)

/-- `_generate_models_complete`: the fixed header (with the extended `User`
model), then, per DSL model, a hard-coded `id` UUID primary-key line
followed by the user fields and the bookkeeping timestamps. -/
def generateModelsComplete (dslSpec : PyVal) : Except PyExc String := do
  let projectName := pyStrOf (← metaGet dslSpec "name" (.pstr "project"))
  let models ← dictGet dslSpec "models" (.pdict [])
  return modelsHeader projectName ++ (← modelBlocksList (← dictItems models))

/-- The per-model ViewSet block of `_generate_views_complete`. -/
def viewBlock (modelName : String) : String :=
  "class " ++ modelName ++ "ViewSet(viewsets.ModelViewSet):\n    \"\"\"\n    API endpoint for " ++ modelName ++ " operations\n    Provides list, create, retrieve, update, and delete operations\n    \"\"\"\n    queryset = " ++ modelName ++ ".objects.all()\n    serializer_class = " ++ modelName ++ "Serializer\n    permission_classes = [IsAuthenticated]\n    filter_backends = [DjangoFilterBackend, filters.SearchFilter, filters.OrderingFilter]\n    filterset_fields = ['created_at', 'updated_at']\n    search_fields = ['id']\n    ordering_fields = ['created_at', 'updated_at']\n    ordering = ['-created_at']\n    \n    def get_permissions(self):\n        \"\"\"Set permissions based on action\"\"\"\n        if self.action == 'list':\n            return [AllowAny()]\n        return [IsAuthenticated()]\n    \n    @action(detail=False, methods=['get'])\n    def recent(self, request):\n        \"\"\"Get recent items\"\"\"\n        recent = self.get_queryset()[:10]\n        serializer = self.get_serializer(recent, many=True)\n        return Response(serializer.data)\n    \n    @action(detail=True, methods=['post'])\n    def activate(self, request, pk=None):\n        \"\"\"Activate an item\"\"\"\n        instance = self.get_object()\n        # Add activation logic here\n        return Response(\x7b'status': 'activated'\x7d)\n\n\n"

/-- `_generate_views_complete`. -/
def generateViewsComplete (dslSpec : PyVal) : Except PyExc String := do
  let projectName := pyStrOf (← metaGet dslSpec "name" (.pstr "project"))
  let models ← dictGet dslSpec "models" (.pdict [])
  return "\"\"\"\nDjango Views for " ++ projectName ++ "\nGenerated by InfraNest\n\"\"\"\nfrom rest_framework import viewsets, status, filters\nfrom rest_framework.decorators import action\nfrom rest_framework.response import Response\nfrom rest_framework.permissions import IsAuthenticated, AllowAny\nfrom django_filters.rest_framework import DjangoFilterBackend\nfrom .models import *\nfrom .serializers import *\n\n\n" ++
    String.join ((← dictKeysE models).map viewBlock)

/-- The per-model serializer block of `_generate_serializers_complete`
(lines 460–473): its `fields` literal is
`['id'] + <user field names> + ['created_at', 'updated_at']`. -/
def serializerBlock (modelName : String) (modelConfig : PyVal) :
    Except PyExc String := do
  let fields ← dictKeysE (← dictGet modelConfig "fields" (.pdict []))
  let allFields := ["id"] ++ fields ++ ["created_at", "updated_at"]
  return "class " ++ modelName ++ "Serializer(serializers.ModelSerializer):\n    \"\"\"Serializer for " ++ modelName ++ " model\"\"\"\n    \n    class Meta:\n        model = " ++ modelName ++ "\n        fields = " ++ pyListRepr allFields ++ "\n        read_only_fields = ['id', 'created_at', 'updated_at']\n\n\n"

/-- The model loop of `_generate_serializers_complete`. -/
def serializerBlocksList : List (String × PyVal) → Except PyExc String
  | [] => .ok ""
  | e :: rest => do
      return (← serializerBlock e.1 e.2) ++ (← serializerBlocksList rest)

/-- `_generate_serializers_complete`. -/
def generateSerializersComplete (dslSpec : PyVal) : Except PyExc String := do
  let projectName := pyStrOf (← metaGet dslSpec "name" (.pstr "project"))
  let models ← dictGet dslSpec "models" (.pdict [])
  return "\"\"\"\nDjango Serializers for " ++ projectName ++ "\nGenerated by InfraNest\n\"\"\"\nfrom rest_framework import serializers\nfrom .models import *\n\n\n" ++
    (← serializerBlocksList (← dictItems models))

/-- `_generate_urls_complete`. -/
def generateUrlsComplete (dslSpec : PyVal) : Except PyExc String := do
  let projectName := pyStrOf (← metaGet dslSpec "name" (.pstr "project"))
  let models ← dictGet dslSpec "models" (.pdict [])
  return "\"\"\"\nDjango URLs for " ++ projectName ++ "\nGenerated by InfraNest\n\"\"\"\nfrom django.urls import path, include\nfrom rest_framework.routers import DefaultRouter\nfrom . import views\n\n# Create a router and register viewsets\nrouter = DefaultRouter()\n" ++
    String.join ((← dictKeysE models).map (fun modelName =>
      "router.register(r'" ++ (toSnakeCase modelName ++ "s") ++ "', views." ++
        modelName ++ "ViewSet, basename='" ++ (toSnakeCase modelName ++ "s") ++ "')\n")) ++
    "\nurlpatterns = [\n    path('', include(router.urls)),\n]\n"

/-- The per-model admin block of `_generate_admin_complete`. -/
def adminBlock (modelName : String) (modelConfig : PyVal) :
    Except PyExc String := do
  let fields ← dictKeysE (← dictGet modelConfig "fields" (.pdict []))
  return "@admin.register(" ++ modelName ++ ")\nclass " ++ modelName ++ "Admin(admin.ModelAdmin):\n    \"\"\"Admin interface for " ++ modelName ++ "\"\"\"\n    list_display = ['id'] + " ++ pyListRepr (fields.take 5) ++ " + ['created_at', 'updated_at']\n    list_filter = ['created_at', 'updated_at']\n    search_fields = " ++ pyListRepr (fields.take 3) ++ "\n    readonly_fields = ['id', 'created_at', 'updated_at']\n    ordering = ['-created_at']\n\n\n"

/-- The model loop of `_generate_admin_complete`. -/
def adminBlocksList : List (String × PyVal) → Except PyExc String
  | [] => .ok ""
  | e :: rest => do
      return (← adminBlock e.1 e.2) ++ (← adminBlocksList rest)

/-- `_generate_admin_complete`. -/
def generateAdminComplete (dslSpec : PyVal) : Except PyExc String := do
  let projectName := pyStrOf (← metaGet dslSpec "name" (.pstr "project"))
  let models ← dictGet dslSpec "models" (.pdict [])
  return "\"\"\"\nDjango Admin for " ++ projectName ++ "\nGenerated by InfraNest\n\"\"\"\nfrom django.contrib import admin\nfrom .models import *\n\n\n" ++
    (← adminBlocksList (← dictItems models))

/-- The per-model test-case block of `_generate_tests`. -/
def testBlock (modelName : String) : String :=
  "class " ++ modelName ++ "TestCase(APITestCase):\n    \"\"\"Test case for " ++ modelName ++ " API\"\"\"\n    \n    def setUp(self):\n        \"\"\"Set up test data\"\"\"\n        pass\n    \n    def test_list_" ++ lowerStr modelName ++ "(self):\n        \"\"\"Test listing " ++ modelName ++ "\"\"\"\n        url = '/api/" ++ toSnakeCase modelName ++ "s/'\n        response = self.client.get(url)\n        self.assertEqual(response.status_code, status.HTTP_200_OK)\n    \n    def test_create_" ++ lowerStr modelName ++ "(self):\n        \"\"\"Test creating " ++ modelName ++ "\"\"\"\n        url = '/api/" ++ toSnakeCase modelName ++ "s/'\n        data = \x7b\x7d\n        response = self.client.post(url, data, format='json')\n        self.assertEqual(response.status_code, status.HTTP_201_CREATED)\n\n\n"

/-- `_generate_tests`. -/
def generateTests (dslSpec : PyVal) : Except PyExc String := do
  let models ← dictGet dslSpec "models" (.pdict [])
  return "\"\"\"\nTests for the application\n\"\"\"\nfrom django.test import TestCase\nfrom rest_framework.test import APITestCase\nfrom rest_framework import status\nfrom .models import *\n\n\n" ++
    String.join ((← dictKeysE models).map testBlock)

/-- `_generate_apps_py`. -/
def generateAppsPy (_dslSpec : PyVal) : String :=
  "\"\"\"\nApp configuration\n\"\"\"\nfrom django.apps import AppConfig\n\n\nclass AppConfig(AppConfig):\n    default_auto_field = 'django.db.models.BigAutoField'\n    name = 'app'\n"

/-- `_generate_settings_complete`. -/
def generateSettingsComplete (dslSpec : PyVal) : Except PyExc String := do
  let projectName := pyStrOf (← metaGet dslSpec "name" (.pstr "project"))
  let databaseStr := pyStrOf (← metaGet dslSpec "database" (.pstr "postgresql"))
  return "\"\"\"\nDjango settings for " ++ projectName ++ "\nGenerated by InfraNest\n\"\"\"\nimport os\nfrom pathlib import Path\nfrom decouple import config\n\nBASE_DIR = Path(__file__).resolve().parent.parent\n\nSECRET_KEY = config('SECRET_KEY', default='django-insecure-change-this-in-production')\n\nDEBUG = config('DEBUG', default=True, cast=bool)\n\nALLOWED_HOSTS = config('ALLOWED_HOSTS', default='localhost,127.0.0.1', cast=lambda v: [s.strip() for s in v.split(',')])\n\n# Application definition\nINSTALLED_APPS = [\n    'django.contrib.admin',\n    'django.contrib.auth',\n    'django.contrib.contenttypes',\n    'django.contrib.sessions',\n    'django.contrib.messages',\n    'django.contrib.staticfiles',\n    \n    # Third party apps\n    'rest_framework',\n    'rest_framework.authtoken',\n    'corsheaders',\n    'django_filters',\n    \n    # Local apps\n    'app',\n]\n\nMIDDLEWARE = [\n    'corsheaders.middleware.CorsMiddleware',\n    'django.middleware.security.SecurityMiddleware',\n    'django.contrib.sessions.middleware.SessionMiddleware',\n    'django.middleware.common.CommonMiddleware',\n    'django.middleware.csrf.CsrfViewMiddleware',\n    'django.contrib.auth.middleware.AuthenticationMiddleware',\n    'django.contrib.messages.middleware.MessageMiddleware',\n    'django.middleware.clickjacking.XFrameOptionsMiddleware',\n]\n\nROOT_URLCONF = 'project.urls'\n\nTEMPLATES = [\n    \x7b\n        'BACKEND': 'django.template.backends.django.DjangoTemplates',\n        'DIRS': [],\n        'APP_DIRS': True,\n        'OPTIONS': \x7b\n            'context_processors': [\n                'django.template.context_processors.debug',\n                'django.template.context_processors.request',\n                'django.contrib.auth.context_processors.auth',\n                'django.contrib.messages.context_processors.messages',\n            ],\n        \x7d,\n    \x7d,\n]\n\nWSGI_APPLICATION = 'project.wsgi.application'\n\n# Database\nDATABASES = \x7b\n    'default': \x7b\n        'ENGINE': 'django.db.backends." ++ databaseStr ++ "',\n        'NAME': config('DB_NAME', default='" ++ projectName ++ "_db'),\n        'USER': config('DB_USER', default='postgres'),\n        'PASSWORD': config('DB_PASSWORD', default='postgres'),\n        'HOST': config('DB_HOST', default='localhost'),\n        'PORT': config('DB_PORT', default='5432'),\n    \x7d\n\x7d\n\n# Password validation\nAUTH_PASSWORD_VALIDATORS = [\n    \x7b'NAME': 'django.contrib.auth.password_validation.UserAttributeSimilarityValidator'\x7d,\n    \x7b'NAME': 'django.contrib.auth.password_validation.MinimumLengthValidator'\x7d,\n    \x7b'NAME': 'django.contrib.auth.password_validation.CommonPasswordValidator'\x7d,\n    \x7b'NAME': 'django.contrib.auth.password_validation.NumericPasswordValidator'\x7d,\n]\n\n# Internationalization\nLANGUAGE_CODE = 'en-us'\nTIME_ZONE = 'UTC'\nUSE_I18N = True\nUSE_TZ = True\n\n# Static files\nSTATIC_URL = 'static/'\nSTATIC_ROOT = os.path.join(BASE_DIR, 'staticfiles')\n\n# Media files\nMEDIA_URL = 'media/'\nMEDIA_ROOT = os.path.join(BASE_DIR, 'media')\n\nDEFAULT_AUTO_FIELD = 'django.db.models.BigAutoField'\n\n# REST Framework settings\nREST_FRAMEWORK = \x7b\n    'DEFAULT_AUTHENTICATION_CLASSES': [\n        'rest_framework.authentication.TokenAuthentication',\n        'rest_framework.authentication.SessionAuthentication',\n    ],\n    'DEFAULT_PERMISSION_CLASSES': [\n        'rest_framework.permissions.IsAuthenticated',\n    ],\n    'DEFAULT_PAGINATION_CLASS': 'rest_framework.pagination.PageNumberPagination',\n    'PAGE_SIZE': 20,\n    'DEFAULT_FILTER_BACKENDS': [\n        'django_filters.rest_framework.DjangoFilterBackend',\n        'rest_framework.filters.SearchFilter',\n        'rest_framework.filters.OrderingFilter',\n    ],\n\x7d\n\n# CORS settings\nCORS_ALLOWED_ORIGINS = [\n    \"http://localhost:3000\",\n    \"http://localhost:5173\",\n    \"http://localhost:8080\",\n]\n\nCORS_ALLOW_CREDENTIALS = True\n\n# Custom user model\nAUTH_USER_MODEL = 'app.User'\n"

/-- `_generate_project_urls`. -/
def generateProjectUrls (dslSpec : PyVal) : Except PyExc String := do
  let projectName := pyStrOf (← metaGet dslSpec "name" (.pstr "project"))
  return "\"\"\"\nURL configuration for " ++ projectName ++ " project\nGenerated by InfraNest\n\"\"\"\nfrom django.contrib import admin\nfrom django.urls import path, include\nfrom rest_framework.authtoken.views import obtain_auth_token\n\nurlpatterns = [\n    path('admin/', admin.site.urls),\n    path('api/', include('app.urls')),\n    path('api/auth/token/', obtain_auth_token, name='api_token_auth'),\n]\n"

/-- `_generate_wsgi`. -/
def generateWsgi (_dslSpec : PyVal) : String :=
  "\"\"\"\nWSGI config for project\n\"\"\"\nimport os\nfrom django.core.wsgi import get_wsgi_application\n\nos.environ.setdefault('DJANGO_SETTINGS_MODULE', 'project.settings')\napplication = get_wsgi_application()\n"

/-- `_generate_asgi`. -/
def generateAsgi (_dslSpec : PyVal) : String :=
  "\"\"\"\nASGI config for project\n\"\"\"\nimport os\nfrom django.core.asgi import get_asgi_application\n\nos.environ.setdefault('DJANGO_SETTINGS_MODULE', 'project.settings')\napplication = get_asgi_application()\n"

/-- `_generate_requirements_complete`. -/
def generateRequirementsComplete (_dslSpec : PyVal) : String :=
  "# Django Framework\nDjango==4.2.7\ndjangorestframework==3.14.0\n\n# Database\npsycopg2-binary==2.9.9\n\n# CORS headers\ndjango-cors-headers==4.3.1\n\n# Environment variables\npython-decouple==3.8\n\n# Filtering\ndjango-filter==23.5\n\n# Testing\npytest==7.4.3\npytest-django==4.7.0\npytest-cov==4.1.0\n\n# Code quality\nblack==23.12.1\nflake8==7.0.0\nisort==5.13.2\n\n# Production server\ngunicorn==21.2.0\nwhitenoise==6.6.0\n"

/-- `_generate_dockerfile_complete`. -/
def generateDockerfileComplete (_dslSpec : PyVal) : String :=
  "FROM python:3.11-slim\n\n# Set environment variables\nENV PYTHONDONTWRITEBYTECODE=1\nENV PYTHONUNBUFFERED=1\n\n# Set work directory\nWORKDIR /app\n\n# Install system dependencies\nRUN apt-get update && apt-get install -y \\\n    postgresql-client \\\n    && rm -rf /var/lib/apt/lists/*\n\n# Install Python dependencies\nCOPY requirements.txt /app/\nRUN pip install --upgrade pip && pip install -r requirements.txt\n\n# Copy project\nCOPY . /app/\n\n# Collect static files\nRUN python manage.py collectstatic --noinput\n\n# Run migrations and start server\nCMD [\"gunicorn\", \"project.wsgi:application\", \"--bind\", \"0.0.0.0:8000\", \"--workers\", \"4\"]\n"

/-- `_generate_docker_compose`. -/
def generateDockerCompose (dslSpec : PyVal) : Except PyExc String := do
  let projectName := pyStrOf (← metaGet dslSpec "name" (.pstr "project"))
  return "version: '3.8'\n\nservices:\n  db:\n    image: postgres:15\n    volumes:\n      - postgres_data:/var/lib/postgresql/data\n    environment:\n      - POSTGRES_DB=" ++ projectName ++ "_db\n      - POSTGRES_USER=postgres\n      - POSTGRES_PASSWORD=postgres\n    ports:\n      - \"5432:5432\"\n\n  web:\n    build: .\n    command: python manage.py runserver 0.0.0.0:8000\n    volumes:\n      - .:/app\n    ports:\n      - \"8000:8000\"\n    environment:\n      - DEBUG=True\n      - DB_NAME=" ++ projectName ++ "_db\n      - DB_USER=postgres\n      - DB_PASSWORD=postgres\n      - DB_HOST=db\n      - DB_PORT=5432\n    depends_on:\n      - db\n\nvolumes:\n  postgres_data:\n"

/-- `_generate_env_example`. -/
def generateEnvExample (dslSpec : PyVal) : Except PyExc String := do
  let projectName := pyStrOf (← metaGet dslSpec "name" (.pstr "project"))
  return "# Django settings\nSECRET_KEY=your-secret-key-here\nDEBUG=True\nALLOWED_HOSTS=localhost,127.0.0.1\n\n# Database\nDB_NAME=" ++ projectName ++ "_db\nDB_USER=postgres\nDB_PASSWORD=postgres\nDB_HOST=localhost\nDB_PORT=5432\n"

/-- `_generate_gitignore`. -/
def generateGitignore : String :=
  "# Python\n__pycache__/\n*.py[cod]\n*$py.class\n*.so\n.Python\nenv/\nvenv/\nENV/\nbuild/\ndevelop-eggs/\ndist/\ndownloads/\neggs/\n.eggs/\nlib/\nlib64/\nparts/\nsdist/\nvar/\nwheels/\n*.egg-info/\n.installed.cfg\n*.egg\n\n# Django\n*.log\nlocal_settings.py\ndb.sqlite3\ndb.sqlite3-journal\n/media\n/staticfiles\n\n# Environment\n.env\n\n# IDE\n.vscode/\n.idea/\n*.swp\n*.swo\n*~\n\n# OS\n.DS_Store\nThumbs.db\n"

/-- `_generate_readme`. -/
def generateReadme (dslSpec : PyVal) : Except PyExc String := do
  let projectName := pyStrOf (← metaGet dslSpec "name" (.pstr "project"))
  let descriptionStr := pyStrOf
    (← metaGet dslSpec "description" (.pstr "A Django REST API project"))
  return "# " ++ projectName ++ "\n\n" ++ descriptionStr ++ "\n\n## Generated by InfraNest\n\nThis project was automatically generated using InfraNest DSL-to-Code generator.\n\n## Features\n\n- Django REST Framework API\n- PostgreSQL database\n- JWT Authentication\n- Docker support\n- Comprehensive test suite\n- Admin interface\n\n## Setup\n\n### Prerequisites\n\n- Python 3.11+\n- PostgreSQL 15+\n- Docker (optional)\n\n### Installation\n\n1. Clone the repository\n2. Create virtual environment:\n   ```bash\n   python -m venv venv\n   source venv/bin/activate  # On Windows: venv\\Scripts\\activate\n   ```\n\n3. Install dependencies:\n   ```bash\n   pip install -r requirements.txt\n   ```\n\n4. Set up environment variables:\n   ```bash\n   cp .env.example .env\n   # Edit .env with your settings\n   ```\n\n5. Run migrations:\n   ```bash\n   python manage.py migrate\n   ```\n\n6. Create superuser:\n   ```bash\n   python manage.py createsuperuser\n   ```\n\n7. Run development server:\n   ```bash\n   python manage.py runserver\n   ```\n\n### Docker Setup\n\n1. Build and run with Docker Compose:\n   ```bash\n   docker-compose up --build\n   ```\n\n2. Run migrations:\n   ```bash\n   docker-compose exec web python manage.py migrate\n   ```\n\n3. Create superuser:\n   ```bash\n   docker-compose exec web python manage.py createsuperuser\n   ```\n\n## API Endpoints\n\n- `/admin/` - Django admin interface\n- `/api/` - REST API endpoints\n- `/api/auth/token/` - Authentication token endpoint\n\n## Testing\n\nRun tests with:\n```bash\npytest\n```\n\n## License\n\nMIT License\n"

/-- `_generate_pytest_ini`. -/
def generatePytestIni : String :=
  "[pytest]\nDJANGO_SETTINGS_MODULE = project.settings\npython_files = tests.py test_*.py *_tests.py\naddopts = --cov=. --cov-report=html --cov-report=term-missing\n"

/-- `_generate_dockerignore`. -/
def generateDockerignore : String :=
  "__pycache__\n*.pyc\n*.pyo\n*.pyd\n.Python\nenv/\nvenv/\n.git\n.gitignore\n.dockerignore\nDockerfile\ndocker-compose.yml\n.env\n*.sqlite3\n"

/-- The file map built by `DjangoGenerator.generate` before the integrity
manifest is appended (lines 54–75, in source order). -/
def generateFilesBase (dslSpec : PyVal) :
    Except PyExc (List (String × String)) := do
  let managePy ← generateManagePy dslSpec
  let modelsPy ← generateModelsComplete dslSpec
  let viewsPy ← generateViewsComplete dslSpec
  let urlsPy ← generateUrlsComplete dslSpec
  let serializersPy ← generateSerializersComplete dslSpec
  let adminPy ← generateAdminComplete dslSpec
  let testsPy ← generateTests dslSpec
  let settingsPy ← generateSettingsComplete dslSpec
  let projectUrls ← generateProjectUrls dslSpec
  let compose ← generateDockerCompose dslSpec
  let envExample ← generateEnvExample dslSpec
  let readme ← generateReadme dslSpec
  return (
    [("manage.py", managePy),
     ("app/models.py", modelsPy),
     ("app/views.py", viewsPy),
     ("app/urls.py", urlsPy),
     ("app/serializers.py", serializersPy),
     ("app/admin.py", adminPy),
     ("app/tests.py", testsPy),
     ("app/__init__.py", ""),
     ("app/apps.py", generateAppsPy dslSpec),
     ("project/settings.py", settingsPy),
     ("project/urls.py", projectUrls),
     ("project/wsgi.py", generateWsgi dslSpec),
     ("project/asgi.py", generateAsgi dslSpec),
     ("project/__init__.py", ""),
     ("requirements.txt", generateRequirementsComplete dslSpec),
     ("Dockerfile", generateDockerfileComplete dslSpec),
     ("docker-compose.yml", compose),
     (".env.example", envExample),
     (".gitignore", generateGitignore),
     ("README.md", readme),
     ("pytest.ini", generatePytestIni),
     (".dockerignore", generateDockerignore)])

/-- The integrity manifest of lines 78–81: every already-generated file
mapped to the SHA-256 digest of its content. -/
def integrityManifest (files : List (String × String)) : String :=
  PyJson.jsonDumpsStrDictIndent2
    ((files.filter (fun p => p.1 ≠ "integrity.json")).map
      (fun p => (p.1, BaseGenerator.computeHash p.2)))

/-- `DjangoGenerator.generate`: validation, then the security gate (raising
`ValueError` when either fails), then the file map with the appended
integrity manifest. The `PyEnv` argument is the ambient clock/randomness,
which the body never reads. -/
def generate (_env : PyEnv) (dslSpec : PyVal) :
    Except GenExc (List (String × String)) := do
  match BaseGenerator.validateDsl dslSpec with
  | .error e => throw (.pyError e)
  | .ok validationErrors =>
    if !validationErrors.isEmpty then
      throw (.valueError ("Invalid DSL specification: " ++
        String.intercalate ", " validationErrors))
    else
      match BaseGenerator.performSecurityChecks dslSpec with
      | .error e => throw (.pyError e)
      | .ok passed =>
        if !passed then
          throw (.valueError "DSL specification failed security checks")
        else
          match generateFilesBase dslSpec with
          | .error e => throw (.pyError e)
          | .ok files => return files ++ [("integrity.json", integrityManifest files)]

/-- One entry of a preview manifest. -/
structure PreviewEntry where
  path : String
  ty : String
  description : String
  deriving DecidableEq, Repr

/-- `DjangoGenerator.preview`: the same validation/security gating as
`generate`, then a fixed manifest. -/
def preview (dslSpec : PyVal) : Except GenExc (List PreviewEntry) := do
  match BaseGenerator.validateDsl dslSpec with
  | .error e => throw (.pyError e)
  | .ok validationErrors =>
    if !validationErrors.isEmpty then
      throw (.valueError ("Invalid DSL specification: " ++
        String.intercalate ", " validationErrors))
    else
      match BaseGenerator.performSecurityChecks dslSpec with
      | .error e => throw (.pyError e)
      | .ok passed =>
        if !passed then
          throw (.valueError "DSL specification failed security checks")
        else
          return (
            [⟨"models.py", "model", "Database models"⟩,
             ⟨"views.py", "view", "API views"⟩,
             ⟨"urls.py", "config", "URL routing"⟩,
             ⟨"serializers.py", "serializer", "Data serialization"⟩,
             ⟨"admin.py", "admin", "Admin interface"⟩,
             ⟨"settings.py", "config", "Django settings"⟩,
             ⟨"requirements.txt", "config", "Python dependencies"⟩,
             ⟨"Dockerfile", "config", "Docker configuration"⟩,
             ⟨"docker-compose.yml", "config", "Docker Compose configuration"⟩,
             ⟨"README.md", "doc", "Project documentation"⟩,
             ⟨".gitignore", "config", "Git ignore file"⟩])

end DjangoGenerator

namespace GoGenerator

open PyVal

/-- The Go struct-field type dispatch of `GoGenerator.generate`
(lines 139–146). -/
def goType (fieldType : PyVal) : String :=
  if beqVal fieldType (.pstr "integer") || beqVal fieldType (.pstr "number") then
    "int"
  else if beqVal fieldType (.pstr "boolean") then "bool"
  else if beqVal fieldType (.pstr "date") || beqVal fieldType (.pstr "datetime") then
    "time.Time"
  else "string"

/-- The per-model handler block of `handlers/handlers.go`. -/
def handlerBlock (modelName : String) : String :=
  "// Get all " ++ modelName ++ "s\nfunc Get" ++ modelName ++ "s(c *fiber.Ctx) error \x7b\n\tvar items []models." ++ modelName ++ "\n\tdatabase.DB.Find(&items)\n\treturn c.JSON(items)\n\x7d\n\n// Get one " ++ modelName ++ "\nfunc Get" ++ modelName ++ "(c *fiber.Ctx) error \x7b\n\tid := c.Params(\"id\")\n\tvar item models." ++ modelName ++ "\n\tif err := database.DB.First(&item, id).Error; err != nil \x7b\n\t\treturn c.Status(404).JSON(fiber.Map\x7b\"error\": \"Not found\"\x7d)\n\t\x7d\n\treturn c.JSON(item)\n\x7d\n\n// Create " ++ modelName ++ "\nfunc Create" ++ modelName ++ "(c *fiber.Ctx) error \x7b\n\tvar item models." ++ modelName ++ "\n\tif err := c.BodyParser(&item); err != nil \x7b\n\t\treturn c.Status(400).JSON(fiber.Map\x7b\"error\": err.Error()\x7d)\n\t\x7d\n\tdatabase.DB.Create(&item)\n\treturn c.Status(201).JSON(item)\n\x7d\n\n// Update " ++ modelName ++ "\nfunc Update" ++ modelName ++ "(c *fiber.Ctx) error \x7b\n\tid := c.Params(\"id\")\n\tvar item models." ++ modelName ++ "\n\tif err := database.DB.First(&item, id).Error; err != nil \x7b\n\t\treturn c.Status(404).JSON(fiber.Map\x7b\"error\": \"Not found\"\x7d)\n\t\x7d\n\tif err := c.BodyParser(&item); err != nil \x7b\n\t\treturn c.Status(400).JSON(fiber.Map\x7b\"error\": err.Error()\x7d)\n\t\x7d\n\tdatabase.DB.Save(&item)\n\treturn c.JSON(item)\n\x7d\n\n// Delete " ++ modelName ++ "\nfunc Delete" ++ modelName ++ "(c *fiber.Ctx) error \x7b\n\tid := c.Params(\"id\")\n\tvar item models." ++ modelName ++ "\n\tif err := database.DB.First(&item, id).Error; err != nil \x7b\n\t\treturn c.Status(404).JSON(fiber.Map\x7b\"error\": \"Not found\"\x7d)\n\t\x7d\n\tdatabase.DB.Delete(&item)\n\treturn c.SendStatus(204)\n\x7d\n\n"

/-- The field loop of the Go struct emission. -/
def goFieldLinesList : List (String × PyVal) → Except GenExc String
  | [] => .ok ""
  | fe :: rest => do
      let fieldType ← match dictGet fe.2 "type" (.pstr "string") with
        | .error exc => throw (.pyError exc)
        | .ok v => pure v
      let line := "\t" ++ titleStr fe.1 ++ " " ++ goType fieldType ++
        " `json:\"" ++ fe.1 ++ "\"`\n"
      return line ++ (← goFieldLinesList rest)

/-- One Go struct of `models/models.go` for one model definition. -/
def goModelStruct (modelName : String) (modelSpec : PyVal) :
    Except GenExc String := do
  let fields ← match dictGet modelSpec "fields" (.pdict []) with
    | .error exc => throw (.pyError exc)
    | .ok v => pure v
  let fieldEntries ← match dictItems fields with
    | .error exc => throw (.pyError exc)
    | .ok v => pure v
  let fieldLines ← goFieldLinesList fieldEntries
  return "type " ++ modelName ++ " struct \x7b\n" ++ "\tgorm.Model\n" ++
    fieldLines ++ "\x7d\n\n"

/-- The model loop of `models/models.go`. -/
def goModelStructsList : List (String × PyVal) → Except GenExc String
  | [] => .ok ""
  | e :: rest => do
      return (← goModelStruct e.1 e.2) ++ (← goModelStructsList rest)

/-- The per-model route block of `routes/routes.go`. -/
def routeBlock (modelName plural : String) : String :=
  "\t// " ++ modelName ++ " routes\n\t" ++ plural ++ " := api.Group(\"/" ++ plural ++ "\")\n\t" ++ plural ++ ".Get(\"/\", handlers.Get" ++ modelName ++ "s)\n\t" ++ plural ++ ".Get(\"/:id\", handlers.Get" ++ modelName ++ ")\n\t" ++ plural ++ ".Post(\"/\", handlers.Create" ++ modelName ++ ")\n\t" ++ plural ++ ".Put(\"/:id\", handlers.Update" ++ modelName ++ ")\n\t" ++ plural ++ ".Delete(\"/:id\", handlers.Delete" ++ modelName ++ ")\n\t\n"

/-- The per-model endpoint block appended to the Go README. -/
def readmeBlock (modelName plural : String) : String :=
  "\n### " ++ modelName ++ "\n- GET /api/v1/" ++ plural ++ " - List all\n- POST /api/v1/" ++ plural ++ " - Create new\n- GET /api/v1/" ++ plural ++ "/:id - Get one\n- PUT /api/v1/" ++ plural ++ "/:id - Update\n- DELETE /api/v1/" ++ plural ++ "/:id - Delete\n"

/-- `GoGenerator.generate`: builds the full file map directly — it performs
no validation and no security checks before producing output. The `PyEnv`
argument is the ambient clock/randomness, never read by the body. -/
def generate (_env : PyEnv) (dslSpec : PyVal) :
    Except GenExc (List (String × String)) := do
  let nameVal ← match metaGet dslSpec "name" (.pstr "go_app") with
    | .error e => throw (.pyError e)
    | .ok v => pure v
  let projectName := pyStrOf nameVal
  let modelsVal ← match dictGet dslSpec "models" (.pdict []) with
    | .error e => throw (.pyError e)
    | .ok v => pure v
  let modelKeys ← match dictKeysE modelsVal with
    | .error e => throw (.pyError e)
    | .ok v => pure v
  let modelEntries ← match dictItems modelsVal with
    | .error e => throw (.pyError e)
    | .ok v => pure v
  let goMod := "module " ++ projectName ++ "\n\ngo 1.21\n\nrequire (\n\tgithub.com/gofiber/fiber/v2 v2.51.0\n\tgorm.io/gorm v1.25.5\n\tgorm.io/driver/postgres v1.5.4\n\tgithub.com/golang-jwt/jwt/v4 v4.5.0\n)\n"
  let mainGo := "package main\n\nimport (\n\t\"log\"\n\t\"os\"\n\t\n\t\"github.com/gofiber/fiber/v2\"\n\t\"github.com/gofiber/fiber/v2/middleware/cors\"\n\t\"github.com/gofiber/fiber/v2/middleware/logger\"\n\t\"" ++ projectName ++ "/database\"\n\t\"" ++ projectName ++ "/routes\"\n)\n\nfunc main() \x7b\n\tapp := fiber.New()\n\n\t// Middleware\n\tapp.Use(logger.New())\n\tapp.Use(cors.New())\n\n\t// Connect to database\n\tdatabase.Connect()\n\n\t// Setup routes\n\troutes.Setup(app)\n\n\t// Start server\n\tport := os.Getenv(\"PORT\")\n\tif port == \"\" \x7b\n\t\tport = \"8080\"\n\t\x7d\n\tlog.Fatal(app.Listen(\":\" + port))\n\x7d\n"
  let dbCode := "package database\n\nimport (\n\t\"fmt\"\n\t\"log\"\n\t\"os\"\n\t\n\t\"gorm.io/driver/postgres\"\n\t\"gorm.io/gorm\"\n)\n\nvar DB *gorm.DB\n\nfunc Connect() \x7b\n\tdsn := fmt.Sprintf(\n\t\t\"host=%s user=%s password=%s dbname=%s port=%s sslmode=disable\",\n\t\tos.Getenv(\"DB_HOST\"),\n\t\tos.Getenv(\"DB_USER\"),\n\t\tos.Getenv(\"DB_PASSWORD\"),\n\t\tos.Getenv(\"DB_NAME\"),\n\t\tos.Getenv(\"DB_PORT\"),\n\t)\n\n\tdb, err := gorm.Open(postgres.Open(dsn), &gorm.Config\x7b\x7d)\n\tif err != nil \x7b\n\t\tlog.Fatal(\"Failed to connect to database:\", err)\n\t\x7d\n\n\tDB = db\n\t\n\t// Auto migrate models\n" ++
    String.join (modelKeys.map (fun modelName =>
      "\tDB.AutoMigrate(&" ++ modelName ++ "\x7b\x7d)\n")) ++
    "\x7d\n"
  let modelsCode := "package models\n\nimport (\n\t\"time\"\n\t\"gorm.io/gorm\"\n)\n\n" ++
    (← goModelStructsList modelEntries)
  let handlersCode := "package handlers\n\nimport (\n\t\"github.com/gofiber/fiber/v2\"\n\t\"" ++ projectName ++ "/database\"\n\t\"" ++ projectName ++ "/models\"\n)\n\n" ++
    String.join (modelKeys.map handlerBlock)
  let routesCode := "package routes\n\nimport (\n\t\"github.com/gofiber/fiber/v2\"\n\t\"" ++ projectName ++ "/handlers\"\n)\n\nfunc Setup(app *fiber.App) \x7b\n\tapi := app.Group(\"/api/v1\")\n\t\n" ++
    String.join (modelKeys.map (fun modelName =>
      routeBlock modelName (lowerStr modelName ++ "s"))) ++
    "\x7d\n"
  let dockerfile := "FROM golang:1.21-alpine AS builder\n\nWORKDIR /app\n\nCOPY go.mod go.sum ./\nRUN go mod download\n\nCOPY . .\nRUN go build -o main .\n\nFROM alpine:latest\nWORKDIR /root/\nCOPY --from=builder /app/main .\nEXPOSE 8080\nCMD [\"./main\"]\n"
  let compose := "version: '3.8'\nservices:\n  db:\n    image: postgres:15\n    environment:\n      POSTGRES_DB: " ++ projectName ++ "\n      POSTGRES_USER: postgres\n      POSTGRES_PASSWORD: postgres\n    volumes:\n      - postgres_data:/var/lib/postgresql/data\n    ports:\n      - \"5432:5432\"\n\n  web:\n    build: .\n    ports:\n      - \"8080:8080\"\n    depends_on:\n      - db\n    environment:\n      DB_HOST: db\n      DB_USER: postgres\n      DB_PASSWORD: postgres\n      DB_NAME: " ++ projectName ++ "\n      DB_PORT: 5432\n      PORT: 8080\n\nvolumes:\n  postgres_data:\n"
  let readme := "# " ++ projectName ++ "\n\nA Go Fiber API application generated by InfraNest.\n\n## Setup\n\n```bash\ngo mod download\ngo run main.go\n```\n\n## Docker\n\n```bash\ndocker-compose up --build\n```\n\n## API Endpoints\n\n" ++
    String.join (modelKeys.map (fun modelName =>
      readmeBlock modelName (lowerStr modelName ++ "s")))
  let gitignore := "*.exe\n*.exe~\n*.dll\n*.so\n*.dylib\n*.test\n*.out\nvendor/\n"
  return (
    [("go.mod", goMod),
     ("main.go", mainGo),
     ("database/database.go", dbCode),
     ("models/models.go", modelsCode),
     ("handlers/handlers.go", handlersCode),
     ("routes/routes.go", routesCode),
     ("Dockerfile", dockerfile),
     ("docker-compose.yml", compose),
     ("README.md", readme),
     (".gitignore", gitignore)])

/-- `GoGenerator.preview`: a fixed manifest; no validation, no security
checks, no access to the specification at all. -/
def preview (_dslSpec : PyVal) : Except GenExc (List DjangoGenerator.PreviewEntry) :=
  .ok
    [⟨"main.go", "main", "Main application file"⟩,
     ⟨"go.mod", "config", "Go module file"⟩,
     ⟨"go.sum", "config", "Go dependencies"⟩,
     ⟨"models/models.go", "model", "Data models"⟩,
     ⟨"handlers/handlers.go", "handler", "API handlers"⟩,
     ⟨"routes/routes.go", "config", "API routes"⟩,
     ⟨"middleware/auth.go", "middleware", "Authentication middleware"⟩,
     ⟨"database/database.go", "config", "Database configuration"⟩,
     ⟨"Dockerfile", "config", "Docker configuration"⟩,
     ⟨"docker-compose.yml", "config", "Docker Compose configuration"⟩,
     ⟨"README.md", "doc", "Project documentation"⟩,
     ⟨".gitignore", "config", "Git ignore file"⟩]

end GoGenerator

namespace RailsGenerator

open PyVal

/-- The per-model controller file of `RailsGenerator.generate`. -/
def controllerCode (modelName plural : String) (permitList : String) : String :=
  "module Api\n  module V1\n    class " ++ modelName ++ "sController < ApplicationController\n      before_action :set_" ++ lowerStr modelName ++ ", only: [:show, :update, :destroy]\n\n      # GET /api/v1/" ++ plural ++ "\n      def index\n        @" ++ plural ++ " = " ++ modelName ++ ".page(params[:page]).per(params[:per_page] || 20)\n        render json: @" ++ plural ++ "\n      end\n\n      # GET /api/v1/" ++ plural ++ "/:id\n      def show\n        render json: @" ++ lowerStr modelName ++ "\n      end\n\n      # POST /api/v1/" ++ plural ++ "\n      def create\n        @" ++ lowerStr modelName ++ " = " ++ modelName ++ ".new(" ++ lowerStr modelName ++ "_params)\n\n        if @" ++ lowerStr modelName ++ ".save\n          render json: @" ++ lowerStr modelName ++ ", status: :created\n        else\n          render json: @" ++ lowerStr modelName ++ ".errors, status: :unprocessable_entity\n        end\n      end\n\n      # PATCH/PUT /api/v1/" ++ plural ++ "/:id\n      def update\n        if @" ++ lowerStr modelName ++ ".update(" ++ lowerStr modelName ++ "_params)\n          render json: @" ++ lowerStr modelName ++ "\n        else\n          render json: @" ++ lowerStr modelName ++ ".errors, status: :unprocessable_entity\n        end\n      end\n\n      # DELETE /api/v1/" ++ plural ++ "/:id\n      def destroy\n        @" ++ lowerStr modelName ++ ".destroy\n        head :no_content\n      end\n\n      private\n\n      def set_" ++ lowerStr modelName ++ "\n        @" ++ lowerStr modelName ++ " = " ++ modelName ++ ".find(params[:id])\n      end\n\n      def " ++ lowerStr modelName ++ "_params\n        params.require(:" ++ lowerStr modelName ++ ").permit(" ++ permitList ++ ")\n      end\n    end\n  end\nend\n"

/-- The per-model endpoint block appended to the Rails README. -/
def readmeBlock (modelName plural : String) : String :=
  "\n### " ++ modelName ++ "\n- GET /api/v1/" ++ plural ++ " - List all\n- POST /api/v1/" ++ plural ++ " - Create new\n- GET /api/v1/" ++ plural ++ "/:id - Get one\n- PUT /api/v1/" ++ plural ++ "/:id - Update\n- DELETE /api/v1/" ++ plural ++ "/:id - Delete\n"

/-- The `validates` lines of one Rails model (for fields whose `required`
flag is truthy). -/
def railsValidatesList : List (String × PyVal) → Except GenExc String
  | [] => .ok ""
  | fe :: rest => do
      let requiredVal ← match dictGet fe.2 "required" .pnone with
        | .error exc => throw (.pyError exc)
        | .ok v => pure v
      let line := if pyTruthy requiredVal then
          "  validates :" ++ fe.1 ++ ", presence: true\n"
        else ""
      return line ++ (← railsValidatesList rest)

/-- The per-model loop of `RailsGenerator.generate`: the model file and the
controller file for each model, in model order. -/
def railsModelFilesList :
    List (String × PyVal) → Except GenExc (List (String × String))
  | [] => .ok []
  | e :: rest => do
      let modelName := e.1
      let fields ← match dictGet e.2 "fields" (.pdict []) with
        | .error exc => throw (.pyError exc)
        | .ok v => pure v
      let fieldEntries ← match dictItems fields with
        | .error exc => throw (.pyError exc)
        | .ok v => pure v
      let modelCode := "class " ++ modelName ++ " < ApplicationRecord\n  # Validations\n" ++
        (← railsValidatesList fieldEntries) ++
        "\n  # Associations\n" ++
        "  # Add associations here\n\n" ++
        "  # Callbacks\n" ++
        "  # Add callbacks here\nend\n"
      let plural := lowerStr modelName ++ "s"
      let permitList := String.intercalate ", "
        ((fieldEntries.map Prod.fst).map (fun f => ":" ++ f))
      let restFiles ← railsModelFilesList rest
      return [("app/models/" ++ lowerStr modelName ++ ".rb", modelCode),
              ("app/controllers/api/v1/" ++ plural ++ "_controller.rb",
               controllerCode modelName plural permitList)] ++ restFiles

/-- `RailsGenerator.generate`: like the Go generator, it builds the file
map directly with no validation and no security checks. -/
def generate (_env : PyEnv) (dslSpec : PyVal) :
    Except GenExc (List (String × String)) := do
  let nameVal ← match metaGet dslSpec "name" (.pstr "rails_app") with
    | .error e => throw (.pyError e)
    | .ok v => pure v
  let projectName := pyStrOf nameVal
  let modelsVal ← match dictGet dslSpec "models" (.pdict []) with
    | .error e => throw (.pyError e)
    | .ok v => pure v
  let modelKeys ← match dictKeysE modelsVal with
    | .error e => throw (.pyError e)
    | .ok v => pure v
  let modelEntries ← match dictItems modelsVal with
    | .error e => throw (.pyError e)
    | .ok v => pure v
  let gemfile := "source 'https://rubygems.org'\nruby '3.2.0'\n\ngem 'rails', '~> 7.1.0'\ngem 'pg', '~> 1.5'\ngem 'puma', '~> 6.4'\ngem 'redis', '~> 5.0'\ngem 'bcrypt', '~> 3.1'\ngem 'rack-cors'\ngem 'jwt'\ngem 'active_model_serializers', '~> 0.10.0'\ngem 'kaminari'\n\ngroup :development, :test do\n  gem 'rspec-rails'\n  gem 'factory_bot_rails'\n  gem 'faker'\nend\n\ngroup :development do\n  gem 'listen'\nend\n"
  let databaseYml := "default: &default\n  adapter: postgresql\n  encoding: unicode\n  pool: <%= ENV.fetch(\"RAILS_MAX_THREADS\") \x7b 5 \x7d %>\n  username: <%= ENV.fetch(\"DB_USERNAME\") \x7b \"postgres\" \x7d %>\n  password: <%= ENV.fetch(\"DB_PASSWORD\") \x7b \"postgres\" \x7d %>\n  host: <%= ENV.fetch(\"DB_HOST\") \x7b \"localhost\" \x7d %>\n\ndevelopment:\n  <<: *default\n  database: " ++ projectName ++ "_development\n\ntest:\n  <<: *default\n  database: " ++ projectName ++ "_test\n\nproduction:\n  <<: *default\n  database: " ++ projectName ++ "_production\n  url: <%= ENV['DATABASE_URL'] %>\n"
  let routes := "Rails.application.routes.draw do\n" ++
    "  namespace :api do\n" ++
    "    namespace :v1 do\n" ++
    String.join (modelKeys.map (fun modelName =>
      "      resources :" ++ (lowerStr modelName ++ "s") ++ "\n")) ++
    "    end\n  end\nend\n"
  -- Generate models and controllers (interleaved per model, as inserted
  -- into the files dict inside the loop)
  let modelFiles ← railsModelFilesList modelEntries
  let dockerfile := "FROM ruby:3.2.0\n\nWORKDIR /app\n\nCOPY Gemfile Gemfile.lock ./\nRUN bundle install\n\nCOPY . .\n\nEXPOSE 3000\n\nCMD [\"rails\", \"server\", \"-b\", \"0.0.0.0\"]\n"
  let compose := "version: '3.8'\nservices:\n  db:\n    image: postgres:15\n    environment:\n      POSTGRES_DB: " ++ projectName ++ "_development\n      POSTGRES_USER: postgres\n      POSTGRES_PASSWORD: postgres\n    volumes:\n      - postgres_data:/var/lib/postgresql/data\n    ports:\n      - \"5432:5432\"\n\n  web:\n    build: .\n    command: rails server -b 0.0.0.0\n    volumes:\n      - .:/app\n    ports:\n      - \"3000:3000\"\n    depends_on:\n      - db\n    environment:\n      DB_HOST: db\n      DB_USERNAME: postgres\n      DB_PASSWORD: postgres\n\nvolumes:\n  postgres_data:\n"
  let readme := "# " ++ projectName ++ "\n\nA Rails API application generated by InfraNest.\n\n## Setup\n\n```bash\nbundle install\nrails db:create db:migrate\nrails server\n```\n\n## Docker\n\n```bash\ndocker-compose up\n```\n\n## API Endpoints\n\n" ++
    String.join (modelKeys.map (fun modelName =>
      readmeBlock modelName (lowerStr modelName ++ "s")))
  let gitignore := "*.rbc\n*.log\ntmp/\n.DS_Store\ncoverage/\n"
  return (
    [("Gemfile", gemfile),
     ("config/database.yml", databaseYml),
     ("config/routes.rb", routes)] ++
    modelFiles ++
    [("Dockerfile", dockerfile),
     ("docker-compose.yml", compose),
     ("README.md", readme),
     (".gitignore", gitignore)])

/-- `RailsGenerator.preview`: the fixed manifest plus per-model entries; no
validation and no security checks. -/
def preview (dslSpec : PyVal) : Except GenExc (List DjangoGenerator.PreviewEntry) := do
  let base : List DjangoGenerator.PreviewEntry :=
    [⟨"Gemfile", "config", "Ruby dependencies"⟩,
     ⟨"config/database.yml", "config", "Database configuration"⟩,
     ⟨"config/routes.rb", "config", "API routes"⟩,
     ⟨"config/application.rb", "config", "Application configuration"⟩,
     ⟨"app/models/application_record.rb", "model", "Base model class"⟩,
     ⟨"app/controllers/application_controller.rb", "controller", "Base controller class"⟩,
     ⟨"Dockerfile", "config", "Docker configuration"⟩,
     ⟨"docker-compose.yml", "config", "Docker Compose configuration"⟩,
     ⟨"README.md", "doc", "Project documentation"⟩,
     ⟨".gitignore", "config", "Git ignore file"⟩]
  let modelsVal ← match dictGet dslSpec "models" (.pdict []) with
    | .error e => throw (.pyError e)
    | .ok v => pure v
  let modelKeys ← match dictKeysE modelsVal with
    | .error e => throw (.pyError e)
    | .ok v => pure v
  return base ++ modelKeys.flatMap (fun modelName =>
    [⟨"app/models/" ++ lowerStr modelName ++ ".rb", "model",
      modelName ++ " model"⟩,
     ⟨"app/controllers/" ++ lowerStr modelName ++ "s_controller.rb",
      "controller", modelName ++ " controller"⟩,
     ⟨"app/serializers/" ++ lowerStr modelName ++ "_serializer.rb",
      "serializer", modelName ++ " serializer"⟩])

end RailsGenerator

/-! ## Tree-shaped specifications

The documented input shape (§3 of the DSL contract): a mapping with `meta`
and `models` mappings, each model a mapping with a `fields` mapping whose
field definitions are themselves mappings. Universally quantified theorems
below range over this family; `toVal` produces the corresponding decoded
document. -/

/-- A model definition: its `fields` mapping (each field definition given
by its dict entries) plus any other entries (`description`, …). -/
structure TModel where
  attrs : List (String × PyVal)
  fields : List (String × List (String × PyVal))

/-- A tree-shaped specification. -/
structure TSpec where
  meta : List (String × PyVal)
  models : List (String × TModel)
  extra : List (String × PyVal)

/-- The decoded document of a model definition (the `fields` entry first,
so it is the one `d['fields']` finds even if `attrs` shadows it). -/
def TModel.toVal (m : TModel) : PyVal :=
  .pdict (("fields", .pdict (m.fields.map (fun f => (f.1, PyVal.pdict f.2)))) ::
    m.attrs)

/-- The decoded document of a tree-shaped specification. -/
def TSpec.toVal (s : TSpec) : PyVal :=
  .pdict (("meta", .pdict s.meta) ::
    ("models", .pdict (s.models.map (fun m => (m.1, m.2.toVal)))) :: s.extra)

/-! ## Claim-level descriptions of the normalizer (C2, C4) -/

namespace DSLParser

open PyVal

/-- Does some field definition carry a truthy `primary_key` flag? -/
def fieldsHavePk (fields : List (String × List (String × PyVal))) : Bool :=
  fields.any (fun f => pyTruthy ((entLookup f.2 "primary_key").getD (.pbool false)))

/-- Is some field literally named `id`? -/
def fieldsHaveId (fields : List (String × List (String × PyVal))) : Bool :=
  fields.any (fun f => f.1 == "id")

/-- The entries of the synthetic `id` field definition. -/
def idFieldEntries : List (String × PyVal) :=
  [("type", .pstr "uuid"), ("primary_key", .pbool true),
   ("auto_generated", .pbool true)]

/-- The normalizer's effect on one model, at the claim level: a model with
no truthy `primary_key` flag and no field named `id` gains the synthetic
`id` definition as its last field; any other model is unchanged. -/
def injectModel (m : TModel) : TModel :=
  if fieldsHavePk m.fields || fieldsHaveId m.fields then m
  else ⟨m.attrs, m.fields ++ [("id", idFieldEntries)]⟩

/-- The normalizer's effect on a whole tree-shaped specification. -/
def injectSpec (s : TSpec) : TSpec :=
  ⟨s.meta, s.models.map (fun m => (m.1, injectModel m.2)), s.extra⟩

end DSLParser

/-! ## Shapes on which `validate` cannot raise (C3) -/

namespace DSLParser

open PyVal

/-- Total membership test mirroring `pyIn`'s non-raising cases. -/
def pyInB (k : String) : PyVal → Bool
  | .pdict xs => xs.any (fun p => p.1 == k)
  | .plist xs => xs.any (fun x => beqVal x (.pstr k))
  | .pstr s => strIn k s
  | _ => false

/-- Field definitions on which the field loop cannot raise: mappings, or
non-mappings in which the membership test `'type' in field_def` is false
(then the missing-`type` error is reported and the loop continues). -/
def fieldDefSafe : PyVal → Bool
  | .pdict _ => true
  | .pstr s => !strIn "type" s
  | .plist xs => !xs.any (fun x => beqVal x (.pstr "type"))
  | _ => false

/-- Model definitions on which `_validate_models` cannot raise. -/
def modelDefSafe : PyVal → Bool
  | .pdict es =>
      (match entLookup es "fields" with
       | some (.pdict fs) => fs.all (fun f => fieldDefSafe f.2)
       | some _ => false
       | none => true)
  | .pstr s => !strIn "fields" s
  | .plist xs => !xs.any (fun x => beqVal x (.pstr "fields"))
  | _ => false

/-- Meta sections on which `_validate_meta` cannot raise (a non-string
`name` reaches `re.match`, which raises `TypeError`). -/
def metaSafe : PyVal → Bool
  | .pdict es =>
      (match entLookup es "name" with
       | some (.pstr _) => true
       | some _ => false
       | none => true)
  | .pstr s => !strIn "framework" s && !strIn "name" s
  | .plist xs =>
      !xs.any (fun x => beqVal x (.pstr "framework")) &&
        !xs.any (fun x => beqVal x (.pstr "name"))
  | _ => false

/-- Auth sections on which `_validate_auth` cannot raise
(`auth.get('provider')` always runs, so only mappings are safe). -/
def authSafe : PyVal → Bool
  | .pdict _ => true
  | _ => false

/-- Endpoints on which the endpoint checks cannot raise (containers). -/
def endpointSafe : PyVal → Bool
  | .pdict _ => true
  | .plist _ => true
  | .pstr _ => true
  | _ => false

/-- API sections on which `_validate_api` cannot raise. -/
def apiSafe : PyVal → Bool
  | .pdict es =>
      (match entLookup es "endpoints" with
       | some (.plist eps) => eps.all endpointSafe
       | some (.pdict _) => true
       | some (.pstr _) => true
       | some _ => false
       | none => true)
  | .pstr s => !strIn "endpoints" s
  | .plist xs => !xs.any (fun x => beqVal x (.pstr "endpoints"))
  | _ => false

/-- Specifications on which `validate` cannot raise: a mapping whose
`meta`, `models`, `auth` and `api` sections (where present) have the safe
shapes above. -/
def wellShaped : PyVal → Bool
  | .pdict es =>
      (match entLookup es "meta" with
       | some m => metaSafe m
       | none => true) &&
      (match entLookup es "models" with
       | some (.pdict ms) => ms.all (fun e => modelDefSafe e.2)
       | some _ => false
       | none => true) &&
      (match entLookup es "auth" with
       | some a => authSafe a
       | none => true) &&
      (match entLookup es "api" with
       | some a => apiSafe a
       | none => true)
  | _ => false

end DSLParser

/-! ## Pure mirror of `validate` on tree-shaped specifications (C6, C7) -/

namespace DSLParser

open PyVal

/-- One field's contribution to `_validate_models`: its error messages and
its primary-key count. -/
def pureFieldCheck (modelName fieldName : String)
    (fd : List (String × PyVal)) : List String × Nat :=
  match entLookup fd "type" with
  | none =>
      (["Field '" ++ fieldName ++ "' in model '" ++ modelName ++
        "' must have a 'type'"], 0)
  | some tval =>
      ((if fieldTypes.any (fun t => beqVal (.pstr t) tval) then []
        else ["Invalid field type '" ++ pyStrOf tval ++ "' for field '" ++
          fieldName ++ "' in model '" ++ modelName ++ "'"]),
       if pyTruthy ((entLookup fd "primary_key").getD (.pbool false)) then 1
       else 0)

/-- The primary-key count of a model's fields. -/
def purePkCount (modelName : String) (m : TModel) : Nat :=
  (m.fields.map (fun f => (pureFieldCheck modelName f.1 f.2).2)).sum

/-- One model's contribution to `_validate_models`: errors and warnings. -/
def pureModelCheck (modelName : String) (m : TModel) :
    List String × List String :=
  let nameErrs := if matchModelName modelName then []
    else ["Model name '" ++ modelName ++
      "' must start with uppercase letter and contain only letters and numbers"]
  let fieldErrs :=
    (m.fields.map (fun f => (pureFieldCheck modelName f.1 f.2).1)).flatten
  let pkCount := purePkCount modelName m
  (nameErrs ++ fieldErrs ++
    (if pkCount = 0 then []
     else if pkCount > 1 then
       ["Model '" ++ modelName ++ "' has multiple primary keys"]
     else []),
   if pkCount = 0 then
     ["Model '" ++ modelName ++
       "' has no primary key. An 'id' field will be auto-generated."]
   else [])

/-- The meta-section errors of `_validate_meta` on a mapping meta whose
`name`, when present, is a string. -/
def pureMetaErrs (meta : List (String × PyVal)) : List String :=
  ((["name", "version", "framework"].filter
      (fun k => (entLookup meta k).isNone)).map
    (fun k => "Missing required field in meta: " ++ k)) ++
  (match entLookup meta "framework" with
   | some fw =>
       if ["django", "go-fiber", "rails"].any (fun f => beqVal (.pstr f) fw)
       then []
       else ["Unsupported framework: " ++ pyStrOf fw ++ ". Supported: " ++
         pyReprOf (.plist [.pstr "django", .pstr "go-fiber", .pstr "rails"])]
   | none => []) ++
  (match entLookup meta "name" with
   | some (.pstr s) =>
       if matchProjectName s then []
       else ["Project name must contain only lowercase letters, numbers, hyphens, and underscores"]
   | _ => [])

/-- The auth-section errors of `_validate_auth` on a mapping. -/
def pureAuthErrs (auth : List (String × PyVal)) : List String :=
  (if (entLookup auth "provider").isNone then
    ["Auth section must specify a 'provider'"]
   else []) ++
  (if ["jwt", "oauth2", "custom"].any
      (fun p => beqVal (.pstr p) ((entLookup auth "provider").getD .pnone))
   then []
   else ["Unsupported auth provider: " ++
     pyStrOf ((entLookup auth "provider").getD .pnone) ++ ". Supported: " ++
     pyReprOf (.plist [.pstr "jwt", .pstr "oauth2", .pstr "custom"])])

/-- One endpoint's errors. -/
def pureEndpointErrs (e : PyVal) : List String :=
  (if pyInB "path" e then [] else ["API endpoint must have a 'path'"]) ++
  (if pyInB "method" e then [] else ["API endpoint must have a 'method'"])

/-- The api-section errors of `_validate_api` on a mapping whose
`endpoints`, when present, is a list. -/
def pureApiErrs (api : List (String × PyVal)) : List String :=
  match entLookup api "endpoints" with
  | some (.plist eps) => eps.flatMap pureEndpointErrs
  | _ => []

/-- `name` is a string or absent (the condition under which the meta
section cannot make `validate` raise on a mapping meta). -/
def metaNameSafeT (meta : List (String × PyVal)) : Bool :=
  match entLookup meta "name" with
  | some (.pstr _) => true
  | some _ => false
  | none => true

/-- The `auth`/`api` entries of the extra sections have the shapes the pure
mirror covers: `auth` absent or a mapping, `api` absent or a mapping whose
`endpoints` is absent or a list of containers. -/
def extraSafeT (extra : List (String × PyVal)) : Bool :=
  (match entLookup extra "auth" with
   | none => true
   | some (.pdict _) => true
   | some _ => false) &&
  (match entLookup extra "api" with
   | none => true
   | some (.pdict aes) =>
       (match entLookup aes "endpoints" with
        | none => true
        | some (.plist eps) => eps.all endpointSafe
        | some _ => false)
   | some _ => false)

/-- The complete result of `validate` on a tree-shaped specification. -/
def pureValidate (s : TSpec) : VResult :=
  let perModel := s.models.map (fun m => pureModelCheck m.1 m.2)
  let errors := pureMetaErrs s.meta ++ (perModel.map Prod.fst).flatten ++
    (match entLookup s.extra "auth" with
     | some (.pdict aes) => pureAuthErrs aes
     | _ => []) ++
    (match entLookup s.extra "api" with
     | some (.pdict aes) => pureApiErrs aes
     | _ => [])
  { valid := errors.length = 0
    errors := errors
    warnings := (perModel.map Prod.snd).flatten }

end DSLParser

/-! ## Claim-level description of the security gate (C5) -/

namespace BaseGenerator

open PyVal PyRegex

/-- The SQL-metacharacter list as the specification states it:
`--`, `;`, `/*`, `@@`, `char(`. -/
def claimSqlPatterns : List (List RTok) :=
  [[.lit "--"], [.lit ";"], [.lit "/*"], [.lit "@@"],
   [.lit "char", .ws, .lit "("]]

/-- All field names of a tree-shaped specification. -/
def specFieldNames (s : TSpec) : List String :=
  s.models.flatMap (fun m => m.2.fields.map Prod.fst)

/-- Modelled from the spec: the specification's notion of a dangerous
specification — some dangerous pattern occurs in the serialised document,
or some field name contains one of the five listed SQL metacharacter
patterns. -/
def claimDangerous (s : TSpec) : Bool :=
  dangerousPatterns.any (fun p => reSearch p (PyJson.jsonDumps s.toVal)) ||
    (specFieldNames s).any (fun n => reSearch claimSqlPatterns n)

/-- The dangerous predicate with the field-name pattern list the code
actually applies (§`perform_security_checks` line 137): the five listed
patterns plus `*/` and a bare `@`. -/
def codeDangerous (s : TSpec) : Bool :=
  dangerousPatterns.any (fun p => reSearch p (PyJson.jsonDumps s.toVal)) ||
    (specFieldNames s).any (fun n => reSearch patSqlFieldName n)

end BaseGenerator

/-! ## Integrity-manifest predicate (C9) -/

namespace DjangoGenerator

/-- When generation succeeds, the file map carries an `integrity.json`
entry mapping every other generated file to the SHA-256 digest of its
content. -/
def integrityOk : Except GenExc (List (String × String)) → Prop
  | .ok files =>
      files.lookup "integrity.json" =
        some (PyJson.jsonDumpsStrDictIndent2
          ((files.filter (fun p => p.1 ≠ "integrity.json")).map
            (fun p => (p.1, BaseGenerator.computeHash p.2))))
  | .error _ => True

end DjangoGenerator

/-! ## Primary-key-flag erasure (C10) -/

namespace DjangoGenerator

open PyVal

/-- Remove the `primary_key` entries of one field definition. -/
def erasePkFieldDef : PyVal → PyVal
  | .pdict es => .pdict (es.filter (fun e => e.1 ≠ "primary_key"))
  | v => v

/-- Remove the `primary_key` flags of a `fields` mapping. -/
def erasePkFields : PyVal → PyVal
  | .pdict fs => .pdict (fs.map (fun f => (f.1, erasePkFieldDef f.2)))
  | v => v

/-- Remove the `primary_key` flags of one model definition. -/
def erasePkModel : PyVal → PyVal
  | .pdict es =>
      .pdict (es.map (fun e =>
        if e.1 = "fields" then (e.1, erasePkFields e.2) else e))
  | v => v

/-- Remove every `primary_key` flag of a specification. -/
def erasePk : PyVal → PyVal
  | .pdict es =>
      .pdict (es.map (fun e =>
        if e.1 = "models" then
          (e.1,
           match e.2 with
           | .pdict ms => .pdict (ms.map (fun me => (me.1, erasePkModel me.2)))
           | v => v)
        else e))
  | v => v

/-- The field line of `app/models.py`, at the claim level (a pure mirror of
`fieldLine` on a field definition's entries). -/
def claimFieldLine (fieldName : String) (fd : List (String × PyVal)) : String :=
  let fieldType := (entLookup fd "type").getD (.pstr "string")
  let required := (entLookup fd "required").getD (.pbool false)
  let blankStr := if pyTruthy required then "False" else "True"
  if beqVal fieldType (.pstr "string") || beqVal fieldType (.pstr "text") then
    let maxLength := (entLookup fd "max_length").getD (.pint 255)
    "    " ++ fieldName ++ " = models.CharField(max_length=" ++
      pyStrOf maxLength ++ ", blank=" ++ blankStr ++ ")\n"
  else if beqVal fieldType (.pstr "integer") then
    "    " ++ fieldName ++ " = models.IntegerField(null=" ++ blankStr ++
      ", blank=" ++ blankStr ++ ")\n"
  else if beqVal fieldType (.pstr "decimal") then
    "    " ++ fieldName ++
      " = models.DecimalField(max_digits=10, decimal_places=2, null=" ++
      blankStr ++ ", blank=" ++ blankStr ++ ")\n"
  else if beqVal fieldType (.pstr "boolean") then
    "    " ++ fieldName ++ " = models.BooleanField(default=False)\n"
  else if beqVal fieldType (.pstr "date") then
    "    " ++ fieldName ++ " = models.DateField(null=" ++ blankStr ++
      ", blank=" ++ blankStr ++ ")\n"
  else if beqVal fieldType (.pstr "datetime") then
    "    " ++ fieldName ++ " = models.DateTimeField(null=" ++ blankStr ++
      ", blank=" ++ blankStr ++ ")\n"
  else if beqVal fieldType (.pstr "email") then
    "    " ++ fieldName ++ " = models.EmailField(blank=" ++ blankStr ++ ")\n"
  else if beqVal fieldType (.pstr "url") then
    "    " ++ fieldName ++ " = models.URLField(blank=" ++ blankStr ++ ")\n"
  else
    "    " ++ fieldName ++ " = models.CharField(max_length=255, blank=" ++
      blankStr ++ ")\n"

/-- The per-model block of `app/models.py` at the claim level: class line
and docstring, then the hard-coded `id` UUID primary-key column, then the
user-declared field lines in declaration order, then the bookkeeping
columns and trailer. -/
def claimModelBlock (modelName : String) (m : TModel) : String :=
  let description := pyStrOf
    ((entLookup m.attrs "description").getD (.pstr (modelName ++ " model")))
  "class " ++ modelName ++ "(models.Model):\n" ++
    "    \"\"\"" ++ description ++ "\"\"\"\n" ++
    idLine ++
    String.join (m.fields.map (fun f => claimFieldLine f.1 f.2)) ++
    "    created_at = models.DateTimeField(auto_now_add=True)\n" ++
    "    updated_at = models.DateTimeField(auto_now=True)\n" ++
    "\n" ++
    "    class Meta:\n" ++
    "        db_table = \"" ++ toSnakeCase modelName ++ "s\"\n" ++
    "        ordering = [\"-created_at\"]\n" ++
    "\n" ++
    "    def __str__(self):\n" ++
    "        return str(self." ++
    (match m.fields with
     | [] => "id"
     | f :: _ => f.1) ++ ")\n" ++
    "\n\n"

/-- The per-model serializer block at the claim level: its `fields` literal
is always `['id'] + <user field names> + ['created_at', 'updated_at']`. -/
def claimSerializerBlock (modelName : String) (m : TModel) : String :=
  "class " ++ modelName ++ "Serializer(serializers.ModelSerializer):\n    \"\"\"Serializer for " ++ modelName ++ " model\"\"\"\n    \n    class Meta:\n        model = " ++ modelName ++ "\n        fields = " ++
    pyListRepr (["id"] ++ m.fields.map Prod.fst ++ ["created_at", "updated_at"]) ++
    "\n        read_only_fields = ['id', 'created_at', 'updated_at']\n\n\n"

/-- The project name a generator function reads from a tree-shaped spec. -/
def projectNameOfT (s : TSpec) : String :=
  PyVal.pyStrOf ((entLookup s.meta "name").getD (.pstr "project"))

/-- `erasePk` on the tree: every `primary_key` entry of every field
definition is removed (mirroring `erasePk`'s action on the decoded
document, including on `fields`/`models` keys hidden in `attrs`/`extra`). -/
def erasePkT (s : TSpec) : TSpec :=
  ⟨s.meta,
   s.models.map (fun m => (m.1,
     ⟨m.2.attrs.map (fun e =>
        if e.1 = "fields" then (e.1, erasePkFields e.2) else e),
      m.2.fields.map (fun f =>
        (f.1, f.2.filter (fun e => e.1 ≠ "primary_key")))⟩)),
   s.extra.map (fun e =>
     if e.1 = "models" then
       (e.1,
        match e.2 with
        | .pdict ms => .pdict (ms.map (fun me => (me.1, erasePkModel me.2)))
        | v => v)
     else e)⟩

end DjangoGenerator

/-! ## Heap model of `_normalize_spec` (C4)

`_normalize_spec` runs on Python's object graph: `dsl_spec.copy()` copies
only the top-level dict, and `model_def['fields']['id'] = …` writes into a
nested dict shared with the caller. The heap below makes that sharing
explicit: dicts live in a store and are passed by reference; `load` places
a pure document into the store (a fresh object per mapping), and
`deepRead` reads a value graph back out. -/

namespace PyHeap

open PyVal

/-- A heap value: primitives and (immutable here) lists inline, mappings by
reference into the store. -/
inductive HVal where
  | hstr (s : String)
  | hint (n : Int)
  | hbool (b : Bool)
  | hnone
  | hlist (xs : List HVal)
  | href (a : Nat)

/-- The store of dict objects, addressed by position. -/
structure Heap where
  objs : List (List (String × HVal))

/-- The entries of the object at address `a`. -/
def Heap.get (h : Heap) (a : Nat) : List (String × HVal) :=
  (h.objs.getD a [])

/-- Allocate a fresh object. -/
def Heap.alloc (h : Heap) (es : List (String × HVal)) : Heap × Nat :=
  (⟨h.objs ++ [es]⟩, h.objs.length)

/-- Overwrite the object at address `a`. -/
def Heap.setObj (h : Heap) (a : Nat) (es : List (String × HVal)) : Heap :=
  ⟨h.objs.set a es⟩

/-- First-match lookup among heap dict entries. -/
def hEntLookup (xs : List (String × HVal)) (k : String) : Option HVal :=
  match xs with
  | [] => none
  | (k', v) :: rest => if k' = k then some v else hEntLookup rest k

/-- Dict assignment on heap entries: update in place, else append. -/
def hEntSet (xs : List (String × HVal)) (k : String) (v : HVal) :
    List (String × HVal) :=
  match xs with
  | [] => [(k, v)]
  | (k', v') :: rest =>
      if k' = k then (k, v) :: rest else (k', v') :: hEntSet rest k v

mutual

/-- Load a pure document into the heap; every mapping gets a fresh object,
so the loaded graph is a tree. -/
def load : PyVal → Heap → Heap × HVal
  | .pstr s, h => (h, .hstr s)
  | .pint n, h => (h, .hint n)
  | .pbool b, h => (h, .hbool b)
  | .pnone, h => (h, .hnone)
  | .plist xs, h =>
      let (h', ys) := loadList xs h
      (h', .hlist ys)
  | .pdict es, h =>
      let (h', fs) := loadEnts es h
      let (h'', a) := h'.alloc fs
      (h'', .href a)

/-- Load the elements of a list. -/
def loadList : List PyVal → Heap → Heap × List HVal
  | [], h => (h, [])
  | x :: xs, h =>
      let (h', y) := load x h
      let (h'', ys) := loadList xs h'
      (h'', y :: ys)

/-- Load the entries of a mapping. -/
def loadEnts : List (String × PyVal) → Heap → Heap × List (String × HVal)
  | [], h => (h, [])
  | (k, v) :: es, h =>
      let (h', w) := load v h
      let (h'', ws) := loadEnts es h'
      (h'', (k, w) :: ws)

end

/-- Apply a partial reader to each element of a list. -/
def optMapList (f : HVal → Option PyVal) : List HVal → Option (List PyVal)
  | [] => some []
  | x :: xs =>
      match f x, optMapList f xs with
      | some v, some vs => some (v :: vs)
      | _, _ => none

/-- Apply a partial reader to each entry of a mapping. -/
def optMapEnts (f : HVal → Option PyVal) :
    List (String × HVal) → Option (List (String × PyVal))
  | [] => some []
  | (k, v) :: es =>
      match f v, optMapEnts f es with
      | some w, some ws => some ((k, w) :: ws)
      | _, _ => none

/-- Materialise a heap value back into a pure document. The fuel bounds
nesting depth (one unit per level); any finite tree reads back with enough
fuel. -/
def deepRead (h : Heap) : Nat → HVal → Option PyVal
  | 0, _ => none
  | fuel + 1, v =>
      match v with
      | .hstr s => some (.pstr s)
      | .hint n => some (.pint n)
      | .hbool b => some (.pbool b)
      | .hnone => some .pnone
      | .hlist xs => (optMapList (deepRead h fuel) xs).map .plist
      | .href a => (optMapEnts (deepRead h fuel) (h.get a)).map .pdict

/-- Python `k in v` on the heap. -/
def hIn (h : Heap) (k : String) : HVal → Except PyExc Bool
  | .href a => .ok ((h.get a).any (fun p => p.1 == k))
  | .hlist xs =>
      .ok (xs.any (fun x =>
        match x with
        | .hstr s => s == k
        | _ => false))
  | .hstr s => .ok (strIn k s)
  | _ => .error (.typeError "argument is not iterable")

/-- Python `v[k]` on the heap. -/
def hGetItem (h : Heap) (v : HVal) (k : String) : Except PyExc HVal :=
  match v with
  | .href a =>
      match hEntLookup (h.get a) k with
      | some r => .ok r
      | none => .error (.keyError k)
  | .hstr _ => .error (.typeError "string indices must be integers")
  | .hlist _ => .error (.typeError "list indices must be integers")
  | _ => .error (.typeError "object is not subscriptable")

/-- Python `v.values()` on the heap. -/
def hValues (h : Heap) (v : HVal) : Except PyExc (List HVal) :=
  match v with
  | .href a => .ok ((h.get a).map Prod.snd)
  | _ => .error (.attributeError "object has no attribute values")

/-- Python `v.items()` on the heap. -/
def hItems (h : Heap) (v : HVal) : Except PyExc (List (String × HVal)) :=
  match v with
  | .href a => .ok (h.get a)
  | _ => .error (.attributeError "object has no attribute items")

/-- Python truthiness on the heap. -/
def hTruthy (h : Heap) : HVal → Bool
  | .hstr s => s != ""
  | .hint n => n != 0
  | .hbool b => b
  | .hnone => false
  | .hlist xs => !xs.isEmpty
  | .href a => !(h.get a).isEmpty

/-- Python `v.get(k, default)` on the heap. -/
def hDictGet (h : Heap) (v : HVal) (k : String) (dflt : HVal) :
    Except PyExc HVal :=
  match v with
  | .href a =>
      match hEntLookup (h.get a) k with
      | some r => .ok r
      | none => .ok dflt
  | _ => .error (.attributeError "object has no attribute get")

/-- The short-circuiting `any(field.get('primary_key', False) …)` of the
normalizer, on the heap. -/
def hAnyPrimaryKey (h : Heap) : List HVal → Except PyExc Bool
  | [] => .ok false
  | f :: fs => do
      let pk ← hDictGet h f "primary_key" (.hbool false)
      if hTruthy h pk then return true else hAnyPrimaryKey h fs

/-- One iteration of `_normalize_spec`'s model loop, mutating the heap:
when the model's shared `fields` dict has no truthy primary-key flag and
no `id` key, a fresh `{type: uuid, primary_key: true, auto_generated:
true}` object is allocated and assigned into that dict in place. -/
def normalizeOneModel (h : Heap) (mdef : HVal) : Except PyExc Heap := do
  if !(← hIn h "fields" mdef) then return h
  let fields ← hGetItem h mdef "fields"
  let hasPrimaryKey ← hAnyPrimaryKey h (← hValues h fields)
  if hasPrimaryKey then return h
  let fields2 ← hGetItem h mdef "fields"
  if (← hIn h "id" fields2) then return h
  match fields2 with
  | .href fa =>
      let (h1, ida) := h.alloc
        [("type", .hstr "uuid"), ("primary_key", .hbool true),
         ("auto_generated", .hbool true)]
      return h1.setObj fa (hEntSet (h1.get fa) "id" (.href ida))
  | _ => throw (.typeError "object does not support item assignment")

/-- The model loop, threading the heap left to right. -/
def normalizeModelsHeap (h : Heap) :
    List (String × HVal) → Except PyExc Heap
  | [] => .ok h
  | e :: rest => do
      normalizeModelsHeap (← normalizeOneModel h e.2) rest

/-- `DSLParser._normalize_spec` on the heap: copy the top-level dict only,
default `meta` on the copy, then run the model loop over the shared
`models` dict. Returns the final heap and the reference to the returned
dict; the caller still holds its original reference into the same heap. -/
def normalizeSpecHeap (h0 : Heap) (dslSpec : HVal) :
    Except PyExc (Heap × HVal) := do
  let (h1, normalized) ←
    match dslSpec with
    | .href a =>
        let (h', a') := h0.alloc (h0.get a)
        Except.ok (h', HVal.href a')
    | .hlist xs => Except.ok (h0, .hlist xs)
    | _ => Except.error (.attributeError "object has no attribute copy")
  let (h2, normalized) ←
    if !(← hIn h1 "meta" normalized) then
      match normalized with
      | .href a =>
          let (h', ma) := h1.alloc []
          Except.ok (h'.setObj a (hEntSet (h'.get a) "meta" (.href ma)),
            normalized)
      | .hlist _ => Except.error (.typeError "list indices must be integers")
      | _ => Except.error (.typeError "object does not support item assignment")
    else
      Except.ok (h1, normalized)
  let (h3, modelsVal) ←
    match normalized with
    | .href a =>
        (match hEntLookup (h2.get a) "models" with
         | some v => Except.ok (h2, v)
         | none =>
             let (h', ea) := h2.alloc []
             Except.ok (h', HVal.href ea))
    | _ => Except.error (.attributeError "object has no attribute get")
  let entries ← hItems h3 modelsVal
  let h4 ← normalizeModelsHeap h3 entries
  return (h4, normalized)

end PyHeap

/-! ## Concrete example specifications -/

/-- Scenario B of the testable properties: model `Task` with a single
`title` field and no primary key. -/
def scenarioBSpec : PyVal :=
  .pdict
    [("meta", .pdict
       [("name", .pstr "demo"), ("version", .pstr "1.0"),
        ("framework", .pstr "django")]),
     ("models", .pdict
       [("Task", .pdict
          [("fields", .pdict
             [("title", .pdict
                [("type", .pstr "string"), ("required", .pbool true)])])])])]

/-- The same scenario as a tree-shaped specification. -/
def scenarioBT : TSpec :=
  ⟨[("name", .pstr "demo"), ("version", .pstr "1.0"),
    ("framework", .pstr "django")],
   [("Task", ⟨[], [("title",
      [("type", .pstr "string"), ("required", .pbool true)])]⟩)],
   []⟩

/-- A specification whose only suspicious content is the `@` in a field
name — none of the specification's listed patterns occurs in it. -/
def atFieldSpec : TSpec :=
  ⟨[("name", .pstr "demo"), ("version", .pstr "1.0"),
    ("framework", .pstr "django")],
   [("M", ⟨[], [("a@b", [("type", .pstr "string")])]⟩)],
   []⟩

/-- A specification with a SQL-metacharacter field name (`1;DROP`), which
both validation-free generators happily consume. -/
def sqlFieldSpec : TSpec :=
  ⟨[("name", .pstr "demo"), ("version", .pstr "1.0"),
    ("framework", .pstr "django")],
   [("M", ⟨[], [("1;DROP", [("type", .pstr "string")])]⟩)],
   []⟩

/-- A fixed ambient environment for witnesses. -/
def env0 : PyEnv := ⟨0, fun _ => 0⟩

/-- A second ambient environment, distinct from `env0`. -/
def env1 : PyEnv := ⟨12345, fun n => n + 7⟩

/-- A specification violating two independent rules at once: a malformed
project name (uppercase and a space) and a model with two primary-key
fields. -/
def c6Spec : TSpec :=
  ⟨[("name", .pstr "Bad Name"), ("version", .pstr "1.0"),
    ("framework", .pstr "django")],
   [("Task", ⟨[],
      [("a", [("type", .pstr "uuid"), ("primary_key", .pbool true)]),
       ("b", [("type", .pstr "uuid"), ("primary_key", .pbool true)])]⟩)],
   []⟩

/-- A specification whose model has a well-typed field, a field with the
unknown type `varchar`, and a field with no type at all. -/
def c7Spec : TSpec :=
  ⟨[("name", .pstr "demo"), ("version", .pstr "1.0"),
    ("framework", .pstr "django")],
   [("Post", ⟨[],
      [("title", [("type", .pstr "string"), ("primary_key", .pbool true)]),
       ("body", [("type", .pstr "varchar")]),
       ("tag", [("required", .pbool true)])]⟩)],
   []⟩

/-! ## Explicit heap layout of `load` on flat specifications (C4)

A *flat* specification is the realistic DSL shape: primitive meta values,
no extra model attributes or extra sections, and primitive field-attribute
values. On this family the heap produced by `load` has an explicit layout,
on which `_normalize_spec`'s in-place mutation of the shared nested
`fields` dicts can be characterised exactly. -/

namespace PyHeap

open PyVal

/-- Primitive (non-container) document values. -/
def primVal : PyVal → Bool
  | .pstr _ => true
  | .pint _ => true
  | .pbool _ => true
  | .pnone => true
  | _ => false

/-- All entry values primitive. -/
def primEnts (es : List (String × PyVal)) : Bool :=
  es.all (fun e => primVal e.2)

/-- The heap value of a primitive document value. -/
def primHVal : PyVal → HVal
  | .pstr s => .hstr s
  | .pint n => .hint n
  | .pbool b => .hbool b
  | _ => .hnone

/-- Heap entries of a primitive-valued mapping. -/
def primEntsH (es : List (String × PyVal)) : List (String × HVal) :=
  es.map (fun e => (e.1, primHVal e.2))

/-- A flat model: no attributes, primitive field-attribute values. -/
def flatModel (m : TModel) : Bool :=
  m.attrs.isEmpty && m.fields.all (fun f => primEnts f.2)

/-- A flat specification. -/
def flatSpec (s : TSpec) : Bool :=
  primEnts s.meta && s.extra.isEmpty && s.models.all (fun m => flatModel m.2)

/-- The heap object of the synthetic `id` field definition. -/
def idObjH : List (String × HVal) :=
  [("type", .hstr "uuid"), ("primary_key", .hbool true),
   ("auto_generated", .hbool true)]

/-- The entries of a loaded `fields` dict: one reference per field
definition, consecutively from `base`. -/
def fieldsObjEnts (base : Nat) :
    List (String × List (String × PyVal)) → List (String × HVal)
  | [] => []
  | f :: rest => (f.1, .href base) :: fieldsObjEnts (base + 1) rest

/-- The objects `load` allocates for one flat model starting at `base`:
its field-definition dicts, its `fields` dict, then the model dict. -/
def modelObjs (base : Nat) (fs : List (String × List (String × PyVal))) :
    List (List (String × HVal)) :=
  fs.map (fun f => primEntsH f.2) ++
  [fieldsObjEnts base fs, [("fields", .href (base + fs.length))]]

/-- The objects `load` allocates for a flat model list starting at `base`. -/
def modelsObjs (base : Nat) :
    List (String × TModel) → List (List (String × HVal))
  | [] => []
  | m :: rest =>
      modelObjs base m.2.fields ++
        modelsObjs (base + m.2.fields.length + 2) rest

/-- The entries of the loaded `models` dict. -/
def modelsDictEnts (base : Nat) :
    List (String × TModel) → List (String × HVal)
  | [] => []
  | m :: rest =>
      (m.1, .href (base + m.2.fields.length + 1)) ::
        modelsDictEnts (base + m.2.fields.length + 2) rest

/-- The number of objects a flat model list occupies. -/
def sizeModels : List (String × TModel) → Nat
  | [] => 0
  | m :: rest => m.2.fields.length + 2 + sizeModels rest

/-- The root object's entries of a loaded flat specification. -/
def rootEnts (s : TSpec) : List (String × HVal) :=
  [("meta", .href 0), ("models", .href (1 + sizeModels s.models))]

/-- The complete object store `load` builds for a flat specification:
meta at 0, the model region at 1, the `models` dict, then the root. -/
def specObjs (s : TSpec) : List (List (String × HVal)) :=
  primEntsH s.meta :: modelsObjs 1 s.models ++
    [modelsDictEnts 1 s.models, rootEnts s]

/-- The final object store of the normalizer's model loop, threading the
prefix (already-processed objects) and suffix (objects behind the model
region, to which the fresh `id` objects are appended). -/
def normFinal (pre : List (List (String × HVal))) :
    List (String × TModel) → List (List (String × HVal)) →
      List (List (String × HVal))
  | [], post => pre ++ post
  | m :: rest, post =>
      let base := pre.length
      let fs := m.2.fields
      if DSLParser.fieldsHavePk fs || DSLParser.fieldsHaveId fs then
        normFinal (pre ++ modelObjs base fs) rest post
      else
        normFinal
          (pre ++ (fs.map (fun f => primEntsH f.2) ++
            [fieldsObjEnts base fs ++
               [("id", .href (base + fs.length + 2 + sizeModels rest +
                 post.length))],
             [("fields", .href (base + fs.length))]]))
          rest (post ++ [idObjH])

/-- The model region of the final store, with `idAddr` the address of the
next fresh `id` object. -/
def updObjs (base idAddr : Nat) :
    List (String × TModel) → List (List (String × HVal))
  | [] => []
  | m :: rest =>
      let fs := m.2.fields
      if DSLParser.fieldsHavePk fs || DSLParser.fieldsHaveId fs then
        modelObjs base fs ++ updObjs (base + fs.length + 2) idAddr rest
      else
        (fs.map (fun f => primEntsH f.2) ++
         [fieldsObjEnts base fs ++ [("id", .href idAddr)],
          [("fields", .href (base + fs.length))]]) ++
        updObjs (base + fs.length + 2) (idAddr + 1) rest

/-- How many models receive a synthetic `id`. -/
def injCount : List (String × TModel) → Nat
  | [] => 0
  | m :: rest =>
      (if DSLParser.fieldsHavePk m.2.fields ||
          DSLParser.fieldsHaveId m.2.fields then 0 else 1) + injCount rest

/-- The complete final object store of `_normalize_spec` on a loaded flat
specification: the shared nested objects mutated in place, the untouched
`models` dict, root and top-level copy, then the fresh `id` objects. -/
def finalObjs (s : TSpec) : List (List (String × HVal)) :=
  primEntsH s.meta ::
    updObjs 1 (4 + sizeModels s.models) s.models ++
    [modelsDictEnts 1 s.models, rootEnts s, rootEnts s] ++
    List.replicate (injCount s.models) idObjH

end PyHeap

/-! # Supporting lemmas -/

namespace PyVal

mutual

/-- `beqVal` is reflexive, so a failed test refutes equality. -/
theorem beqVal_refl : (a : PyVal) → beqVal a a = true
  | pstr _ => by simp [beqVal]
  | pint _ => by simp [beqVal]
  | pbool _ => by simp [beqVal]
  | pnone => by simp [beqVal]
  | plist xs => by simp [beqVal, beqValList_refl xs]
  | pdict xs => by simp [beqVal, beqValEnts_refl xs]

/-- Reflexivity of `beqValList`. -/
theorem beqValList_refl : (xs : List PyVal) → beqValList xs xs = true
  | [] => by simp [beqValList]
  | x :: xs => by simp [beqValList, beqVal_refl x, beqValList_refl xs]

/-- Reflexivity of `beqValEnts`. -/
theorem beqValEnts_refl : (xs : List (String × PyVal)) → beqValEnts xs xs = true
  | [] => by simp [beqValEnts]
  | (_, v) :: xs => by simp [beqValEnts, beqVal_refl v, beqValEnts_refl xs]

end

/-- A failed equality test separates values. -/
theorem ne_of_beqVal_false {a b : PyVal} (h : beqVal a b = false) : a ≠ b := by
  intro hab
  rw [hab, beqVal_refl] at h
  exact Bool.noConfusion h

/-- Assigning an absent key appends the new entry at the end. -/
theorem entSet_absent {xs : List (String × PyVal)} {k : String} (v : PyVal)
    (h : ∀ e ∈ xs, e.1 ≠ k) : entSet xs k v = xs ++ [(k, v)] := by
  induction xs with
  | nil => rfl
  | cons e rest ih =>
      have hek : e.1 ≠ k := h e (List.mem_cons_self e rest)
      simp only [entSet, if_neg hek, List.cons_append]
      exact congrArg (e :: ·) (ih (fun e' he' => h e' (List.mem_cons_of_mem e he')))

end PyVal

namespace DSLParser

open PyVal

/-- `anyPrimaryKey` over a mapped fields list computes `fieldsHavePk`. -/
theorem anyPrimaryKey_map (fields : List (String × List (String × PyVal))) :
    anyPrimaryKey (fields.map (fun f => PyVal.pdict f.2)) =
      .ok (fieldsHavePk fields) := by
  induction fields with
  | nil => rfl
  | cons f rest ih =>
      simp only [List.map_cons, anyPrimaryKey, dictGet, fieldsHavePk,
        List.any_cons]
      cases hlk : entLookup f.2 "primary_key" with
      | none =>
          simp only [hlk, Option.getD, pyTruthy, Bool.false_or]
          simpa [fieldsHavePk, bind, Except.bind, pure, Except.pure,
            pyTruthy] using ih
      | some pk =>
          simp only [hlk, Option.getD, bind, Except.bind]
          cases hpt : pyTruthy pk with
          | true => simp [hpt, pure, Except.pure]
          | false => simpa [hpt, fieldsHavePk] using ih

/-- The normalizer's per-model step on a tree-shaped model definition is
exactly `injectModel`. -/
theorem normalizeModelDef_toVal (m : TModel) :
    normalizeModelDef m.toVal = .ok (injectModel m).toVal := by
  have hfields : pyIn "fields" m.toVal = .ok true := by
    simp [TModel.toVal, pyIn]
  have hget : pyGetItem m.toVal "fields" =
      .ok (.pdict (m.fields.map (fun f => (f.1, PyVal.pdict f.2)))) := by
    simp [TModel.toVal, pyGetItem, entLookup]
  simp only [normalizeModelDef, hfields, hget, bind, Except.bind,
    Bool.not_true, dictValuesE]
  rw [List.map_map]
  have hvals : (m.fields.map ((fun p => p.2) ∘ (fun f => (f.1, PyVal.pdict f.2)))) =
      m.fields.map (fun f => PyVal.pdict f.2) := by
    simp [Function.comp]
  rw [hvals, anyPrimaryKey_map]
  simp only [bind, Except.bind]
  cases hpk : fieldsHavePk m.fields with
  | true =>
      simp [injectModel, hpk, pure, Except.pure]
  | false =>
      have hin : pyIn "id" (PyVal.pdict (m.fields.map (fun f => (f.1, PyVal.pdict f.2)))) =
          .ok (fieldsHaveId m.fields) := by
        simp only [pyIn, fieldsHaveId]
        congr 1
        induction m.fields with
        | nil => rfl
        | cons f rest ih => simp only [List.map_cons, List.any_cons, ih]
      simp only [hin, bind, Except.bind]
      cases hid : fieldsHaveId m.fields with
      | true => simp [injectModel, hpk, hid, pure, Except.pure]
      | false =>
          simp only [Bool.not_false, if_true, dictItems, pure, Except.pure]
          have habs : ∀ e ∈ m.fields.map (fun f => (f.1, PyVal.pdict f.2)),
              e.1 ≠ "id" := by
            intro e he
            rcases List.mem_map.mp he with ⟨f, hf, rfl⟩
            intro hk
            have hany : m.fields.any (fun f => f.1 == "id") = true :=
              List.any_eq_true.mpr ⟨f, hf, by
                simp only [show f.1 = "id" from hk, beq_self_eq_true]⟩
            rw [fieldsHaveId] at hid
            rw [hany] at hid
            exact Bool.noConfusion hid
          rw [entSet_absent idFieldDef habs]
          simp [pySetItem, TModel.toVal, entSet, injectModel, hpk, hid,
            idFieldDef, idFieldEntries]

/-- The normalizer's model loop on tree-shaped models applies
`injectModel` entrywise. -/
theorem normalizeModelsList_toVal (ms : List (String × TModel)) :
    normalizeModelsList (ms.map (fun m => (m.1, m.2.toVal))) =
      .ok (ms.map (fun m => (m.1, (injectModel m.2).toVal))) := by
  induction ms with
  | nil => rfl
  | cons m rest ih =>
      simp [normalizeModelsList, normalizeModelDef_toVal, ih, bind,
        Except.bind, pure, Except.pure]

end DSLParser

/-! # Claims -/

/-- C2 (counterexample): the claim places the synthetic `id` field FIRST.
On scenario B (model `Task` with a single `title` field and no primary
key), `normalize` yields the field order `["title", "id"]` — the synthetic
`id` is appended last, so the first field of the normalized model is not
`id`. -/
theorem C2_counterexample :
    (do
      let r ← DSLParser.normalizeSpec scenarioBSpec
      let models ← PyVal.pyGetItem r "models"
      let task ← PyVal.pyGetItem models "Task"
      let fields ← PyVal.pyGetItem task "fields"
      PyVal.dictKeysE fields : Except PyExc (List String)) =
        .ok ["title", "id"] ∧
      (["title", "id"] : List String) ≠ ["id", "title"] := by
  exact ⟨by rfl, by decide⟩

/-- C2 (amended): for every tree-shaped specification and every model with
zero truthy `primary_key` flags and no field literally named `id`,
`normalize` injects exactly one synthetic field
`id: {type: uuid, primary_key: true, auto_generated: true}` as the LAST
field of the model, all other fields unchanged and in original order; a
model with a field named `id` (even unflagged) or a primary-key flag is
left unchanged. -/
theorem C2_theorem (s : TSpec) :
    DSLParser.normalizeSpec s.toVal = .ok (DSLParser.injectSpec s).toVal := by
  have h1 := DSLParser.normalizeModelsList_toVal s.models
  simp [DSLParser.normalizeSpec, TSpec.toVal, DSLParser.pyCopy, bind,
    Except.bind, pure, Except.pure, PyVal.pyIn, PyVal.dictGet,
    PyVal.entLookup, PyVal.dictItems, h1, DSLParser.pySetItem, PyVal.entSet,
    DSLParser.injectSpec]

namespace PyVal

/-- The key-membership scan agrees with `entLookup`. -/
theorem any_key_eq_isSome (es : List (String × PyVal)) (k : String) :
    (es.any (fun p => p.1 == k)) = (entLookup es k).isSome := by
  induction es with
  | nil => rfl
  | cons e rest ih =>
      simp only [List.any_cons, entLookup]
      by_cases hk : e.1 = k
      · simp [hk]
      · simp [hk, ih]

/-- `pyIn` on a mapping tests key presence. -/
theorem pyIn_pdict (k : String) (es : List (String × PyVal)) :
    pyIn k (.pdict es) = .ok ((entLookup es k).isSome) := by
  simp [pyIn, any_key_eq_isSome]

end PyVal

namespace DSLParser

open PyVal

/-- An `Except` value that tests `isOk` is an `ok`. -/
theorem exists_ok_of_isOk {ε α : Type} {e : Except ε α} (h : e.isOk = true) :
    ∃ r, e = .ok r := by
  cases e with
  | ok r => exact ⟨r, rfl⟩
  | error _ => simp [Except.isOk, Except.toBool] at h

/-- The field check never raises on a safe field definition. -/
theorem validateField_safe (mn fn : String) {fd : PyVal}
    (h : fieldDefSafe fd = true) : (validateField mn fn fd).isOk = true := by
  cases fd with
  | pdict es =>
      cases hlk : entLookup es "type" with
      | none =>
          simp [validateField, pyIn_pdict, hlk, bind, Except.bind, pure,
            Except.pure, Except.isOk, Except.toBool]
      | some t =>
          cases hpk : entLookup es "primary_key" with
          | none =>
              simp only [validateField, pyIn_pdict, hlk, hpk, bind,
                Except.bind, pure, Except.pure, pyGetItem, dictGet]
              split_ifs <;> simp [Except.isOk, Except.toBool]
          | some pk =>
              simp only [validateField, pyIn_pdict, hlk, hpk, bind,
                Except.bind, pure, Except.pure, pyGetItem, dictGet]
              split_ifs <;> simp [Except.isOk, Except.toBool]
  | pstr s =>
      have hs : strIn "type" s = false := by
        simpa [fieldDefSafe] using h
      simp [validateField, pyIn, hs, bind, Except.bind, pure, Except.pure,
        Except.isOk, Except.toBool]
  | plist xs =>
      have hs : xs.any (fun x => beqVal x (.pstr "type")) = false := by
        simpa [fieldDefSafe] using h
      simp [validateField, pyIn, hs, bind, Except.bind, pure, Except.pure,
        Except.isOk, Except.toBool]
  | pint n => simp [fieldDefSafe] at h
  | pbool b => simp [fieldDefSafe] at h
  | pnone => simp [fieldDefSafe] at h

/-- The field loop never raises when every field definition is safe. -/
theorem validateFieldsList_safe (mn : String) (fs : List (String × PyVal))
    (h : ∀ f ∈ fs, fieldDefSafe f.2 = true) :
    (validateFieldsList mn fs).isOk = true := by
  induction fs with
  | nil => rfl
  | cons f rest ih =>
      rcases exists_ok_of_isOk
          (validateField_safe mn f.1 (h f (List.mem_cons_self f rest))) with
        ⟨r1, h1⟩
      rcases exists_ok_of_isOk
          (ih (fun f' hf' => h f' (List.mem_cons_of_mem f hf'))) with ⟨r2, h2⟩
      simp [validateFieldsList, h1, h2, bind, Except.bind, pure, Except.pure,
        Except.isOk, Except.toBool]

/-- The model check never raises on a safe model definition. -/
theorem validateModel_safe (mn : String) {md : PyVal}
    (h : modelDefSafe md = true) : (validateModel mn md).isOk = true := by
  cases md with
  | pdict es =>
      cases hlk : entLookup es "fields" with
      | none =>
          simp only [validateModel, pyIn_pdict, hlk, bind, Except.bind, pure,
            Except.pure, Except.isOk, Except.toBool, Option.isSome_none,
            Bool.not_false]
          split_ifs <;> rfl
      | some fv =>
          simp only [modelDefSafe, hlk] at h
          cases fv with
          | pdict fs =>
              have hall : fs.all (fun f => fieldDefSafe f.2) = true := by
                simpa using h
              have hfs : ∀ f ∈ fs, fieldDefSafe f.2 = true :=
                fun f hf => List.all_eq_true.mp hall f hf
              rcases exists_ok_of_isOk (validateFieldsList_safe mn fs hfs)
                with ⟨⟨errs, pk⟩, hl⟩
              simp only [validateModel, pyIn_pdict, hlk, pyGetItem,
                dictItems, hl, bind, Except.bind, pure, Except.pure]
              split_ifs <;> rfl
          | pstr _ => exact absurd h (by simp)
          | pint _ => exact absurd h (by simp)
          | pbool _ => exact absurd h (by simp)
          | pnone => exact absurd h (by simp)
          | plist _ => exact absurd h (by simp)
  | pstr s =>
      have hs : strIn "fields" s = false := by simpa [modelDefSafe] using h
      simp [validateModel, pyIn, hs, bind, Except.bind, pure, Except.pure]
      split_ifs <;> rfl
  | plist xs =>
      have hs : xs.any (fun x => beqVal x (.pstr "fields")) = false := by
        simpa [modelDefSafe] using h
      simp [validateModel, pyIn, hs, bind, Except.bind, pure, Except.pure]
      split_ifs <;> rfl
  | pint n => simp [modelDefSafe] at h
  | pbool b => simp [modelDefSafe] at h
  | pnone => simp [modelDefSafe] at h

/-- The model loop never raises when every model definition is safe. -/
theorem validateModelsList_safe (ms : List (String × PyVal))
    (h : ∀ e ∈ ms, modelDefSafe e.2 = true) :
    (validateModelsList ms).isOk = true := by
  induction ms with
  | nil => rfl
  | cons e rest ih =>
      rcases exists_ok_of_isOk
          (validateModel_safe e.1 (h e (List.mem_cons_self e rest))) with
        ⟨⟨e1, w1⟩, h1⟩
      rcases exists_ok_of_isOk
          (ih (fun e' he' => h e' (List.mem_cons_of_mem e he'))) with
        ⟨⟨e2, w2⟩, h2⟩
      simp [validateModelsList, h1, h2, bind, Except.bind, pure, Except.pure,
        Except.isOk, Except.toBool]

/-- The meta check never raises on a safe meta section. -/
theorem validateMeta_safe {meta : PyVal} (h : metaSafe meta = true) :
    (validateMeta meta).isOk = true := by
  cases meta with
  | pdict es =>
      have hname : ∀ nv, entLookup es "name" = some nv → ∃ s, nv = .pstr s := by
        intro nv hnv
        simp only [metaSafe, hnv] at h
        cases nv with
        | pstr s => exact ⟨s, rfl⟩
        | pint _ => exact absurd h (by simp)
        | pbool _ => exact absurd h (by simp)
        | pnone => exact absurd h (by simp)
        | plist _ => exact absurd h (by simp)
        | pdict _ => exact absurd h (by simp)
      cases hfw : entLookup es "framework" with
      | none =>
          cases hnm : entLookup es "name" with
          | none =>
              simp [validateMeta, pyIn_pdict, hfw, hnm, bind,
                Except.bind, pure, Except.pure]
              split_ifs <;> rfl
          | some nv =>
              rcases hname nv hnm with ⟨s, rfl⟩
              simp [validateMeta, pyIn_pdict, hfw, hnm, pyGetItem, bind,
                Except.bind, pure, Except.pure]
              split_ifs <;> rfl
      | some fw =>
          cases hnm : entLookup es "name" with
          | none =>
              simp [validateMeta, pyIn_pdict, hfw, hnm, pyGetItem, bind,
                Except.bind, pure, Except.pure]
              split_ifs <;> rfl
          | some nv =>
              rcases hname nv hnm with ⟨s, rfl⟩
              simp [validateMeta, pyIn_pdict, hfw, hnm, pyGetItem, bind,
                Except.bind, pure, Except.pure]
              split_ifs <;> rfl
  | pstr s =>
      have h' : strIn "framework" s = false ∧ strIn "name" s = false := by
        simpa [metaSafe, Bool.and_eq_true, Bool.not_eq_true'] using h
      simp [validateMeta, pyIn, h'.1, h'.2, bind, Except.bind, pure,
        Except.pure]
      split_ifs <;> rfl
  | plist xs =>
      have h' := h
      simp only [metaSafe, Bool.and_eq_true, Bool.not_eq_true'] at h'
      simp [validateMeta, pyIn, h'.1, h'.2, bind, Except.bind, pure,
        Except.pure]
      split_ifs <;> rfl
  | pint n => simp [metaSafe] at h
  | pbool b => simp [metaSafe] at h
  | pnone => simp [metaSafe] at h

/-- The auth check never raises on a mapping. -/
theorem validateAuth_safe {auth : PyVal} (h : authSafe auth = true) :
    (validateAuth auth).isOk = true := by
  cases auth with
  | pdict es =>
      cases hp : entLookup es "provider" with
      | none =>
          simp [validateAuth, pyIn_pdict, hp, dictGet, bind, Except.bind,
            pure, Except.pure]
          split_ifs <;> rfl
      | some pv =>
          simp [validateAuth, pyIn_pdict, hp, dictGet, bind, Except.bind,
            pure, Except.pure]
          split_ifs <;> rfl
  | pstr _ => simp [authSafe] at h
  | plist _ => simp [authSafe] at h
  | pint _ => simp [authSafe] at h
  | pbool _ => simp [authSafe] at h
  | pnone => simp [authSafe] at h

/-- The endpoint loop never raises on containers. -/
theorem validateEndpointsList_safe (eps : List PyVal)
    (h : ∀ e ∈ eps, endpointSafe e = true) :
    (validateEndpointsList eps).isOk = true := by
  induction eps with
  | nil => rfl
  | cons e rest ih =>
      rcases exists_ok_of_isOk
          (ih (fun e' he' => h e' (List.mem_cons_of_mem e he'))) with ⟨r2, h2⟩
      have he : endpointSafe e = true := h e (List.mem_cons_self e rest)
      cases e with
      | pdict es =>
          simp only [validateEndpointsList, pyIn, h2, bind, Except.bind,
            pure, Except.pure]
          split_ifs <;> rfl
      | plist xs =>
          simp only [validateEndpointsList, pyIn, h2, bind, Except.bind,
            pure, Except.pure]
          split_ifs <;> rfl
      | pstr s =>
          simp only [validateEndpointsList, pyIn, h2, bind, Except.bind,
            pure, Except.pure]
          split_ifs <;> rfl
      | pint _ => simp [endpointSafe] at he
      | pbool _ => simp [endpointSafe] at he
      | pnone => simp [endpointSafe] at he

/-- The api check never raises on a safe api section. -/
theorem validateApi_safe {api : PyVal} (h : apiSafe api = true) :
    (validateApi api).isOk = true := by
  cases api with
  | pdict es =>
      cases hep : entLookup es "endpoints" with
      | none =>
          simp [validateApi, pyIn_pdict, hep, bind, Except.bind, pure,
            Except.pure, Except.isOk, Except.toBool]
      | some ev =>
          simp only [apiSafe, hep] at h
          cases ev with
          | plist eps =>
              rcases exists_ok_of_isOk (validateEndpointsList_safe eps
                  (fun e he => List.all_eq_true.mp h e he)) with ⟨r, hr⟩
              simp [validateApi, pyIn_pdict, hep, pyGetItem, hr, bind,
                Except.bind, pure, Except.pure, Except.isOk, Except.toBool]
          | pdict ds =>
              simp [validateApi, pyIn_pdict, hep, pyGetItem, bind, Except.bind,
                pure, Except.pure, Except.isOk, Except.toBool]
          | pstr s =>
              simp [validateApi, pyIn_pdict, hep, pyGetItem, bind, Except.bind,
                pure, Except.pure, Except.isOk, Except.toBool]
          | pint _ => exact absurd h (by simp)
          | pbool _ => exact absurd h (by simp)
          | pnone => exact absurd h (by simp)
  | pstr s =>
      have hs : strIn "endpoints" s = false := by simpa [apiSafe] using h
      simp [validateApi, pyIn, hs, bind, Except.bind, pure, Except.pure,
        Except.isOk, Except.toBool]
  | plist xs =>
      have hs : xs.any (fun x => beqVal x (.pstr "endpoints")) = false := by
        simpa [apiSafe] using h
      simp [validateApi, pyIn, hs, bind, Except.bind, pure, Except.pure,
        Except.isOk, Except.toBool]
  | pint _ => simp [apiSafe] at h
  | pbool _ => simp [apiSafe] at h
  | pnone => simp [apiSafe] at h

end DSLParser

namespace DSLParser

open PyVal

/-- The meta-section step never raises under `wellShaped`'s meta clause. -/
theorem metaSectionErrors_safe (es : List (String × PyVal))
    (h : (match entLookup es "meta" with
          | some m => metaSafe m
          | none => true) = true) :
    (metaSectionErrors (.pdict es)).isOk = true := by
  cases hm : entLookup es "meta" with
  | none =>
      simp [metaSectionErrors, pyIn_pdict, hm, bind, Except.bind, pure,
        Except.pure, Except.isOk, Except.toBool]
  | some mv =>
      rw [hm] at h
      rcases exists_ok_of_isOk (validateMeta_safe h) with ⟨rm, hrm⟩
      simp [metaSectionErrors, pyIn_pdict, hm, pyGetItem, hrm, bind,
        Except.bind, pure, Except.pure, Except.isOk, Except.toBool]

/-- The models-section step never raises under `wellShaped`'s models
clause. -/
theorem modelsSectionChecks_safe (es : List (String × PyVal))
    (h : (match entLookup es "models" with
          | some (.pdict ms) => ms.all (fun e => modelDefSafe e.2)
          | some _ => false
          | none => true) = true) :
    (modelsSectionChecks (.pdict es)).isOk = true := by
  cases hm : entLookup es "models" with
  | none =>
      simp [modelsSectionChecks, pyIn_pdict, hm, bind, Except.bind, pure,
        Except.pure, Except.isOk, Except.toBool]
  | some mv =>
      rw [hm] at h
      cases mv with
      | pdict ms =>
          have hall : ms.all (fun e => modelDefSafe e.2) = true := by
            simpa using h
          have hms : ∀ e ∈ ms, modelDefSafe e.2 = true :=
            fun e he => List.all_eq_true.mp hall e he
          rcases exists_ok_of_isOk (validateModelsList_safe ms hms) with
            ⟨⟨re, rw'⟩, hr⟩
          simp [modelsSectionChecks, pyIn_pdict, hm, pyGetItem,
            validateModels, dictItems, hr, bind, Except.bind, pure,
            Except.pure, Except.isOk, Except.toBool]
      | pstr _ => exact absurd h (by simp)
      | plist _ => exact absurd h (by simp)
      | pint _ => exact absurd h (by simp)
      | pbool _ => exact absurd h (by simp)
      | pnone => exact absurd h (by simp)

/-- The auth-section step never raises under `wellShaped`'s auth clause. -/
theorem authSectionErrors_safe (es : List (String × PyVal))
    (h : (match entLookup es "auth" with
          | some a => authSafe a
          | none => true) = true) :
    (authSectionErrors (.pdict es)).isOk = true := by
  cases hm : entLookup es "auth" with
  | none =>
      simp [authSectionErrors, pyIn_pdict, hm, bind, Except.bind, pure,
        Except.pure, Except.isOk, Except.toBool]
  | some av =>
      rw [hm] at h
      rcases exists_ok_of_isOk (validateAuth_safe h) with ⟨ra, hra⟩
      simp [authSectionErrors, pyIn_pdict, hm, pyGetItem, hra, bind,
        Except.bind, pure, Except.pure, Except.isOk, Except.toBool]

/-- The api-section step never raises under `wellShaped`'s api clause. -/
theorem apiSectionErrors_safe (es : List (String × PyVal))
    (h : (match entLookup es "api" with
          | some a => apiSafe a
          | none => true) = true) :
    (apiSectionErrors (.pdict es)).isOk = true := by
  cases hm : entLookup es "api" with
  | none =>
      simp [apiSectionErrors, pyIn_pdict, hm, bind, Except.bind, pure,
        Except.pure, Except.isOk, Except.toBool]
  | some av =>
      rw [hm] at h
      rcases exists_ok_of_isOk (validateApi_safe h) with ⟨ra, hra⟩
      simp [apiSectionErrors, pyIn_pdict, hm, pyGetItem, hra, bind,
        Except.bind, pure, Except.pure, Except.isOk, Except.toBool]

end DSLParser

/-- C3 (counterexample): `validate` does not always return a structured
result — a specification whose `models` section is a list (a perfectly
decodable document) makes it raise `AttributeError` (`.items()` on a
list), so the claim's "for every input value … never raises" is false. -/
theorem C3_counterexample :
    DSLParser.validate (.pdict [("models", .plist [])]) =
      .error (.attributeError "object has no attribute items") := by rfl

/-- C3 (amended): `validate` never raises — it returns the structured
result `{valid, errors, warnings}` — for every specification in the
`wellShaped` family: a mapping whose `meta` section (if present) is a
mapping with a string-or-absent `name` (or a string/list not containing
the probed keys), whose `models` section (if present) is a mapping of safe
model definitions (including Scenario D's string-valued field definitions
without a `type` substring), whose `auth` section is a mapping and whose
`api` endpoints are containers. Outside this family it can raise — see
the counterexample. -/
theorem C3_theorem (spec : PyVal) (h : DSLParser.wellShaped spec = true) :
    ∃ r, DSLParser.validate spec = .ok r := by
  apply DSLParser.exists_ok_of_isOk
  cases spec with
  | pstr _ => simp [DSLParser.wellShaped] at h
  | plist _ => simp [DSLParser.wellShaped] at h
  | pint _ => simp [DSLParser.wellShaped] at h
  | pbool _ => simp [DSLParser.wellShaped] at h
  | pnone => simp [DSLParser.wellShaped] at h
  | pdict es =>
      simp only [DSLParser.wellShaped] at h
      rw [Bool.and_eq_true, Bool.and_eq_true, Bool.and_eq_true] at h
      obtain ⟨⟨⟨h1, h2⟩, h3⟩, h4⟩ := h
      rcases DSLParser.exists_ok_of_isOk
        (DSLParser.metaSectionErrors_safe es h1) with ⟨e1, he1⟩
      rcases DSLParser.exists_ok_of_isOk
        (DSLParser.modelsSectionChecks_safe es h2) with ⟨⟨e2, w2⟩, he2⟩
      rcases DSLParser.exists_ok_of_isOk
        (DSLParser.authSectionErrors_safe es h3) with ⟨e3, he3⟩
      rcases DSLParser.exists_ok_of_isOk
        (DSLParser.apiSectionErrors_safe es h4) with ⟨e4, he4⟩
      simp only [DSLParser.validate, PyVal.pyIn_pdict, he1, he2, he3, he4,
        bind, Except.bind, pure, Except.pure]
      split_ifs <;> rfl

/-- C3 (witness): the amended theorem applied to scenario B's concrete
specification, which is well-shaped, together with the structured result
it returns. -/
theorem C3_witness :
    DSLParser.wellShaped scenarioBSpec = true ∧
      ∃ r, DSLParser.validate scenarioBSpec = .ok r := by
  refine ⟨by rfl, C3_theorem scenarioBSpec (by rfl)⟩

namespace DSLParser

open PyVal

/-- The field check on a mapping field definition computes
`pureFieldCheck`. -/
theorem validateField_toVal (mn fn : String) (fd : List (String × PyVal)) :
    validateField mn fn (.pdict fd) = .ok (pureFieldCheck mn fn fd) := by
  cases ht : entLookup fd "type" with
  | none =>
      simp [validateField, pyIn_pdict, ht, pureFieldCheck, bind, Except.bind,
        pure, Except.pure]
  | some tv =>
      cases hp : entLookup fd "primary_key" with
      | none =>
          cases hft : fieldTypes.any (fun t => beqVal (.pstr t) tv) with
          | true =>
              simp [validateField, pyIn_pdict, ht, hp, hft, pureFieldCheck,
                pyGetItem, dictGet, bind, Except.bind, pure, Except.pure,
                pyTruthy]
          | false =>
              simp [validateField, pyIn_pdict, ht, hp, hft, pureFieldCheck,
                pyGetItem, dictGet, bind, Except.bind, pure, Except.pure,
                pyTruthy]
      | some pv =>
          cases hft : fieldTypes.any (fun t => beqVal (.pstr t) tv) with
          | true =>
              simp [validateField, pyIn_pdict, ht, hp, hft, pureFieldCheck,
                pyGetItem, dictGet, bind, Except.bind, pure, Except.pure]
          | false =>
              simp [validateField, pyIn_pdict, ht, hp, hft, pureFieldCheck,
                pyGetItem, dictGet, bind, Except.bind, pure, Except.pure]

/-- The field loop on mapped field definitions: concatenated errors and
summed primary-key count. -/
theorem validateFieldsList_toVal (mn : String)
    (fs : List (String × List (String × PyVal))) :
    validateFieldsList mn (fs.map (fun f => (f.1, PyVal.pdict f.2))) =
      .ok ((fs.map (fun f => (pureFieldCheck mn f.1 f.2).1)).flatten,
           (fs.map (fun f => (pureFieldCheck mn f.1 f.2).2)).sum) := by
  induction fs with
  | nil => rfl
  | cons f rest ih =>
      simp [validateFieldsList, validateField_toVal, ih, bind, Except.bind,
        pure, Except.pure]

/-- The model check on a tree-shaped model computes `pureModelCheck`. -/
theorem validateModel_toVal (mn : String) (m : TModel) :
    validateModel mn m.toVal = .ok (pureModelCheck mn m) := by
  have hget : pyGetItem m.toVal "fields" =
      .ok (.pdict (m.fields.map (fun f => (f.1, PyVal.pdict f.2)))) := by
    simp [TModel.toVal, pyGetItem, entLookup]
  have hin : pyIn "fields" m.toVal = .ok true := by
    simp [TModel.toVal, pyIn]
  simp only [validateModel, hin, hget, bind, Except.bind, pure, Except.pure,
    Bool.not_true, dictItems, validateFieldsList_toVal]
  simp only [pureModelCheck, purePkCount]
  split_ifs with h1 h2 h3 h2 h3 <;>
    simp_all [pureModelCheck, purePkCount]

/-- The model loop on tree-shaped models. -/
theorem validateModelsList_toVal2 (ms : List (String × TModel)) :
    validateModelsList (ms.map (fun m => (m.1, m.2.toVal))) =
      .ok ((ms.map (fun m => (pureModelCheck m.1 m.2).1)).flatten,
           (ms.map (fun m => (pureModelCheck m.1 m.2).2)).flatten) := by
  induction ms with
  | nil => rfl
  | cons m rest ih =>
      simp [validateModelsList, validateModel_toVal, ih, bind, Except.bind,
        pure, Except.pure]

/-- The meta check on a mapping meta with a string-or-absent name computes
`pureMetaErrs`. -/
theorem validateMeta_toVal (meta : List (String × PyVal))
    (h : metaNameSafeT meta = true) :
    validateMeta (.pdict meta) = .ok (pureMetaErrs meta) := by
  cases hn : entLookup meta "name" with
  | none =>
      cases hv : entLookup meta "version" with
      | none =>
          cases hf : entLookup meta "framework" with
          | none =>
              simp [validateMeta, pyIn_pdict, hn, hv, hf, pureMetaErrs,
                pyGetItem, bind, Except.bind, pure, Except.pure]
          | some fw =>
              cases hfw : ["django", "go-fiber", "rails"].any
                  (fun f => beqVal (.pstr f) fw) <;>
                simp [validateMeta, pyIn_pdict, hn, hv, hf, hfw, pureMetaErrs,
                  pyGetItem, bind, Except.bind, pure, Except.pure]
      | some vv =>
          cases hf : entLookup meta "framework" with
          | none =>
              simp [validateMeta, pyIn_pdict, hn, hv, hf, pureMetaErrs,
                pyGetItem, bind, Except.bind, pure, Except.pure]
          | some fw =>
              cases hfw : ["django", "go-fiber", "rails"].any
                  (fun f => beqVal (.pstr f) fw) <;>
                simp [validateMeta, pyIn_pdict, hn, hv, hf, hfw, pureMetaErrs,
                  pyGetItem, bind, Except.bind, pure, Except.pure]
  | some nv =>
      have hs : ∃ s, nv = .pstr s := by
        simp only [metaNameSafeT, hn] at h
        cases nv with
        | pstr s => exact ⟨s, rfl⟩
        | pint _ => exact absurd h (by simp)
        | pbool _ => exact absurd h (by simp)
        | pnone => exact absurd h (by simp)
        | plist _ => exact absurd h (by simp)
        | pdict _ => exact absurd h (by simp)
      rcases hs with ⟨s, rfl⟩
      cases hv : entLookup meta "version" with
      | none =>
          cases hf : entLookup meta "framework" with
          | none =>
              cases hm : matchProjectName s <;>
                simp [validateMeta, pyIn_pdict, hn, hv, hf, hm, pureMetaErrs,
                  pyGetItem, bind, Except.bind, pure, Except.pure]
          | some fw =>
              cases hfw : ["django", "go-fiber", "rails"].any
                  (fun f => beqVal (.pstr f) fw) <;>
              cases hm : matchProjectName s <;>
                simp [validateMeta, pyIn_pdict, hn, hv, hf, hfw, hm,
                  pureMetaErrs, pyGetItem, bind, Except.bind, pure,
                  Except.pure]
      | some vv =>
          cases hf : entLookup meta "framework" with
          | none =>
              cases hm : matchProjectName s <;>
                simp [validateMeta, pyIn_pdict, hn, hv, hf, hm, pureMetaErrs,
                  pyGetItem, bind, Except.bind, pure, Except.pure]
          | some fw =>
              cases hfw : ["django", "go-fiber", "rails"].any
                  (fun f => beqVal (.pstr f) fw) <;>
              cases hm : matchProjectName s <;>
                simp [validateMeta, pyIn_pdict, hn, hv, hf, hfw, hm,
                  pureMetaErrs, pyGetItem, bind, Except.bind, pure,
                  Except.pure]

/-- `pyIn` agrees with the total `pyInB` on containers. -/
theorem pyIn_eq_pyInB {e : PyVal} (h : endpointSafe e = true) (k : String) :
    pyIn k e = .ok (pyInB k e) := by
  cases e with
  | pdict _ => rfl
  | plist _ => rfl
  | pstr _ => rfl
  | pint _ => simp [endpointSafe] at h
  | pbool _ => simp [endpointSafe] at h
  | pnone => simp [endpointSafe] at h

/-- The endpoint loop on containers computes the concatenated
per-endpoint errors. -/
theorem validateEndpointsList_toVal (eps : List PyVal)
    (h : ∀ e ∈ eps, endpointSafe e = true) :
    validateEndpointsList eps = .ok (eps.flatMap pureEndpointErrs) := by
  induction eps with
  | nil => rfl
  | cons e rest ih =>
      have he := h e (List.mem_cons_self e rest)
      have ht := ih (fun e' he' => h e' (List.mem_cons_of_mem e he'))
      simp only [validateEndpointsList, pyIn_eq_pyInB he, bind, Except.bind,
        pure, Except.pure, ht, List.flatMap_cons, pureEndpointErrs]
      split_ifs <;> simp_all

/-- The auth check on a mapping computes `pureAuthErrs`. -/
theorem validateAuth_toVal (aes : List (String × PyVal)) :
    validateAuth (.pdict aes) = .ok (pureAuthErrs aes) := by
  cases hp : entLookup aes "provider" with
  | none =>
      have hpr : (["jwt", "oauth2", "custom"].any
          (fun p => beqVal (.pstr p)
            ((entLookup aes "provider").getD .pnone))) = false := by
        rw [hp]; rfl
      simp [validateAuth, pyIn_pdict, hp, hpr, pureAuthErrs, dictGet, bind,
        Except.bind, pure, Except.pure]
      rw [if_pos ⟨rfl, rfl, rfl⟩,
        if_neg (by rintro (h | h | h) <;> exact Bool.noConfusion h)]
  | some pv =>
      cases hpr : ["jwt", "oauth2", "custom"].any
          (fun p => beqVal (.pstr p) pv) <;>
        simp [validateAuth, pyIn_pdict, hp, hpr, pureAuthErrs, dictGet, bind,
          Except.bind, pure, Except.pure]

end DSLParser

namespace DSLParser

open PyVal

/-- The api check on a mapping whose `endpoints` entry is absent or a list
of containers computes `pureApiErrs`. -/
theorem validateApi_toVal (aes : List (String × PyVal))
    (h : (match entLookup aes "endpoints" with
          | none => true
          | some (.plist eps) => eps.all endpointSafe
          | some _ => false) = true) :
    validateApi (.pdict aes) = .ok (pureApiErrs aes) := by
  cases hep : entLookup aes "endpoints" with
  | none =>
      simp [validateApi, pyIn_pdict, hep, pureApiErrs, bind, Except.bind,
        pure, Except.pure]
  | some v =>
      rw [hep] at h
      cases v with
      | plist eps =>
          have hall : ∀ e ∈ eps, endpointSafe e = true := by
            simpa [List.all_eq_true] using h
          simp [validateApi, pyIn_pdict, hep, pureApiErrs, pyGetItem, bind,
            Except.bind, pure, Except.pure,
            validateEndpointsList_toVal eps hall]
      | pstr t => exact absurd h (by simp)
      | pint n => exact absurd h (by simp)
      | pbool b => exact absurd h (by simp)
      | pnone => exact absurd h (by simp)
      | pdict es => exact absurd h (by simp)

/-- `_validate_models` on tree-shaped models. -/
theorem validateModels_toVal (ms : List (String × TModel)) :
    validateModels (.pdict (ms.map (fun m => (m.1, m.2.toVal)))) =
      .ok ((ms.map (fun m => (pureModelCheck m.1 m.2).1)).flatten,
           (ms.map (fun m => (pureModelCheck m.1 m.2).2)).flatten) := by
  simp [validateModels, dictItems, bind, Except.bind, pure, Except.pure,
    validateModelsList_toVal2]

/-- `validate` on a tree-shaped specification with a string-or-absent meta
name and safe extra sections raises nothing and computes `pureValidate`. -/
theorem validate_toVal (s : TSpec) (hm : metaNameSafeT s.meta = true)
    (hx : extraSafeT s.extra = true) :
    validate s.toVal = .ok (pureValidate s) := by
  rw [extraSafeT, Bool.and_eq_true] at hx
  obtain ⟨ha, hapi⟩ := hx
  have h1 : pyIn "meta" s.toVal = .ok true := by
    simp [TSpec.toVal, pyIn_pdict, entLookup]
  have h2 : pyIn "models" s.toVal = .ok true := by
    simp [TSpec.toVal, pyIn_pdict, entLookup]
  have hMeta : metaSectionErrors s.toVal = .ok (pureMetaErrs s.meta) := by
    have hg : pyGetItem s.toVal "meta" = .ok (.pdict s.meta) := by
      simp [TSpec.toVal, pyGetItem, entLookup]
    simp [metaSectionErrors, h1, hg, bind, Except.bind, pure, Except.pure,
      validateMeta_toVal s.meta hm]
  have hModels : modelsSectionChecks s.toVal =
      .ok ((s.models.map (fun m => (pureModelCheck m.1 m.2).1)).flatten,
           (s.models.map (fun m => (pureModelCheck m.1 m.2).2)).flatten) := by
    have hg : pyGetItem s.toVal "models" =
        .ok (.pdict (s.models.map (fun m => (m.1, m.2.toVal)))) := by
      simp [TSpec.toVal, pyGetItem, entLookup]
    simp [modelsSectionChecks, h2, hg, bind, Except.bind, pure, Except.pure,
      validateModels_toVal]
  have hlA : entLookup (("meta", PyVal.pdict s.meta) ::
      ("models", PyVal.pdict (s.models.map (fun m => (m.1, m.2.toVal)))) ::
      s.extra) "auth" = entLookup s.extra "auth" := by
    simp [entLookup]
  have hlP : entLookup (("meta", PyVal.pdict s.meta) ::
      ("models", PyVal.pdict (s.models.map (fun m => (m.1, m.2.toVal)))) ::
      s.extra) "api" = entLookup s.extra "api" := by
    simp [entLookup]
  have hAuth : authSectionErrors s.toVal =
      .ok (match entLookup s.extra "auth" with
           | some (.pdict aes) => pureAuthErrs aes
           | _ => []) := by
    cases hv : entLookup s.extra "auth" with
    | none =>
        simp [authSectionErrors, TSpec.toVal, pyIn_pdict, hlA, hv, bind,
          Except.bind, pure, Except.pure]
    | some v =>
        rw [hv] at ha
        cases v with
        | pdict aes =>
            simp [authSectionErrors, TSpec.toVal, pyIn_pdict, pyGetItem,
              hlA, hv, bind, Except.bind, pure, Except.pure,
              validateAuth_toVal]
        | pstr t => exact absurd ha (by simp)
        | pint n => exact absurd ha (by simp)
        | pbool b => exact absurd ha (by simp)
        | pnone => exact absurd ha (by simp)
        | plist xs => exact absurd ha (by simp)
  have hApi : apiSectionErrors s.toVal =
      .ok (match entLookup s.extra "api" with
           | some (.pdict aes) => pureApiErrs aes
           | _ => []) := by
    cases hv : entLookup s.extra "api" with
    | none =>
        simp [apiSectionErrors, TSpec.toVal, pyIn_pdict, hlP, hv, bind,
          Except.bind, pure, Except.pure]
    | some v =>
        rw [hv] at hapi
        cases v with
        | pdict aes =>
            simp [apiSectionErrors, TSpec.toVal, pyIn_pdict, pyGetItem,
              hlP, hv, bind, Except.bind, pure, Except.pure,
              validateApi_toVal aes hapi]
        | pstr t => exact absurd hapi (by simp)
        | pint n => exact absurd hapi (by simp)
        | pbool b => exact absurd hapi (by simp)
        | pnone => exact absurd hapi (by simp)
        | plist xs => exact absurd hapi (by simp)
  simp [validate, h1, h2, hMeta, hModels, hAuth, hApi, bind, Except.bind,
    pure, Except.pure, pureValidate, Function.comp_def]

end DSLParser

namespace DSLParser

open PyVal

/-- Any error in the meta part of `pureValidate` is in its error list. -/
theorem mem_errors_of_mem_meta (s : TSpec) (x : String)
    (h : x ∈ pureMetaErrs s.meta) : x ∈ (pureValidate s).errors := by
  simp only [pureValidate, List.mem_append]
  exact Or.inl (Or.inl (Or.inl h))

/-- Any error contributed by a model of the specification is in
`pureValidate`'s error list. -/
theorem mem_errors_of_mem_model (s : TSpec) (mn : String) (tm : TModel)
    (x : String) (hmem : (mn, tm) ∈ s.models)
    (h : x ∈ (pureModelCheck mn tm).1) : x ∈ (pureValidate s).errors := by
  simp only [pureValidate, List.mem_append]
  refine Or.inl (Or.inl (Or.inr ?_))
  refine List.mem_flatten.mpr ⟨(pureModelCheck mn tm).1, ?_, h⟩
  exact List.mem_map.mpr ⟨pureModelCheck mn tm,
    List.mem_map.mpr ⟨(mn, tm), hmem, rfl⟩, rfl⟩

/-- Any error contributed by a field of a model is in `pureValidate`'s
error list. -/
theorem mem_errors_of_mem_fieldCheck (s : TSpec) (mn fn : String)
    (tm : TModel) (fd : List (String × PyVal)) (x : String)
    (hmem : (mn, tm) ∈ s.models) (hf : (fn, fd) ∈ tm.fields)
    (h : x ∈ (pureFieldCheck mn fn fd).1) : x ∈ (pureValidate s).errors := by
  refine mem_errors_of_mem_model s mn tm x hmem ?_
  simp only [pureModelCheck, List.mem_append]
  refine Or.inl (Or.inr ?_)
  refine List.mem_flatten.mpr ⟨(pureFieldCheck mn fn fd).1, ?_, h⟩
  exact List.mem_map.mpr ⟨(fn, fd), hf, rfl⟩

/-- A `pureValidate` result with any error at all is invalid. -/
theorem pureValidate_not_valid_of_mem (s : TSpec) (x : String)
    (h : x ∈ (pureValidate s).errors) : (pureValidate s).valid = false := by
  have hv : (pureValidate s).valid =
      decide ((pureValidate s).errors.length = 0) := rfl
  rw [hv]
  refine decide_eq_false ?_
  intro h0
  rw [List.length_eq_zero] at h0
  exact List.ne_nil_of_mem h h0

end DSLParser

namespace DSLParser

open PyVal

/-- C6: `validate` does not short-circuit — a specification with a
malformed project name and a model with more than one primary-key field
yields one result carrying both errors, each attributed to its section or
model, with `valid = false`. -/
theorem C6_theorem (s : TSpec) (nm mn : String) (tm : TModel)
    (hm : metaNameSafeT s.meta = true) (hx : extraSafeT s.extra = true)
    (hn : entLookup s.meta "name" = some (.pstr nm))
    (hbad : matchProjectName nm = false)
    (hmem : (mn, tm) ∈ s.models)
    (hpk : purePkCount mn tm > 1) :
    ∃ r, validate s.toVal = .ok r ∧ r.valid = false ∧
      "Project name must contain only lowercase letters, numbers, hyphens, and underscores"
        ∈ r.errors ∧
      ("Model '" ++ mn ++ "' has multiple primary keys") ∈ r.errors := by
  have hname :
      "Project name must contain only lowercase letters, numbers, hyphens, and underscores"
        ∈ pureMetaErrs s.meta := by
    simp [pureMetaErrs, hn, hbad]
  have hpkmsg : ("Model '" ++ mn ++ "' has multiple primary keys")
      ∈ (pureModelCheck mn tm).1 := by
    have h0 : ¬ purePkCount mn tm = 0 := by omega
    simp [pureModelCheck, h0, hpk]
  have h1 := mem_errors_of_mem_meta s _ hname
  have h2 := mem_errors_of_mem_model s mn tm _ hmem hpkmsg
  exact ⟨pureValidate s, validate_toVal s hm hx,
    pureValidate_not_valid_of_mem s _ h1, h1, h2⟩

/-- C6 witness: on the concrete two-violation specification, one call
reports both the project-name error and the multiple-primary-keys error. -/
theorem C6_witness :
    ∃ r, validate c6Spec.toVal = .ok r ∧ r.valid = false ∧
      "Project name must contain only lowercase letters, numbers, hyphens, and underscores"
        ∈ r.errors ∧
      ("Model '" ++ "Task" ++ "' has multiple primary keys") ∈ r.errors :=
  C6_theorem c6Spec "Bad Name" "Task"
    ⟨[], [("a", [("type", .pstr "uuid"), ("primary_key", .pbool true)]),
          ("b", [("type", .pstr "uuid"), ("primary_key", .pbool true)])]⟩
    (by rfl) (by rfl) (by rfl) (by rfl)
    (List.mem_cons_self _ _) (by decide)

end DSLParser

namespace DSLParser

open PyVal

/-- C7: the field-type enumeration is exactly the fourteen listed values,
and for every field of every model of a tree-shaped specification,
`validate` (which raises nothing here) charges the field no type error
when its `type` is in the enumeration; when the `type` is a value outside
the enumeration or absent, the field is charged exactly one error naming
the invalid value (or the missing type) together with the field name and
model name, that error appears in the single returned result, and the
result is invalid. -/
theorem C7_theorem (s : TSpec) (mn fn : String) (tm : TModel)
    (fd : List (String × PyVal))
    (hm : metaNameSafeT s.meta = true) (hx : extraSafeT s.extra = true)
    (hmem : (mn, tm) ∈ s.models) (hf : (fn, fd) ∈ tm.fields) :
    fieldTypes = ["string", "text", "integer", "float", "boolean",
      "datetime", "date", "uuid", "url", "email", "json", "foreign_key",
      "many_to_many", "choice"] ∧
    ∃ r, validate s.toVal = .ok r ∧
      (∀ tv, entLookup fd "type" = some tv →
        (fieldTypes.any (fun t => beqVal (.pstr t) tv) = true →
          (pureFieldCheck mn fn fd).1 = []) ∧
        (fieldTypes.any (fun t => beqVal (.pstr t) tv) = false →
          (pureFieldCheck mn fn fd).1 =
            ["Invalid field type '" ++ pyStrOf tv ++ "' for field '" ++
              fn ++ "' in model '" ++ mn ++ "'"] ∧
          r.valid = false ∧
          ("Invalid field type '" ++ pyStrOf tv ++ "' for field '" ++
            fn ++ "' in model '" ++ mn ++ "'") ∈ r.errors)) ∧
      (entLookup fd "type" = none →
        (pureFieldCheck mn fn fd).1 =
          ["Field '" ++ fn ++ "' in model '" ++ mn ++
            "' must have a 'type'"] ∧
        r.valid = false ∧
        ("Field '" ++ fn ++ "' in model '" ++ mn ++
          "' must have a 'type'") ∈ r.errors) := by
  refine ⟨rfl, pureValidate s, validate_toVal s hm hx, ?_, ?_⟩
  · intro tv htv
    constructor
    · intro hin
      simp [pureFieldCheck, htv, hin]
    · intro hout
      have heq : (pureFieldCheck mn fn fd).1 =
          ["Invalid field type '" ++ pyStrOf tv ++ "' for field '" ++
            fn ++ "' in model '" ++ mn ++ "'"] := by
        simp [pureFieldCheck, htv, hout]
      have hmm := mem_errors_of_mem_fieldCheck s mn fn tm fd _ hmem hf
        (by rw [heq]; exact List.mem_cons_self _ _)
      exact ⟨heq, pureValidate_not_valid_of_mem s _ hmm, hmm⟩
  · intro hnone
    have heq : (pureFieldCheck mn fn fd).1 =
        ["Field '" ++ fn ++ "' in model '" ++ mn ++
          "' must have a 'type'"] := by
      simp [pureFieldCheck, hnone]
    have hmm := mem_errors_of_mem_fieldCheck s mn fn tm fd _ hmem hf
      (by rw [heq]; exact List.mem_cons_self _ _)
    exact ⟨heq, pureValidate_not_valid_of_mem s _ hmm, hmm⟩

/-- C7 witness: the enum round trip at the concrete specification whose
`body` field has the unknown type `varchar`. -/
theorem C7_witness :
    fieldTypes = ["string", "text", "integer", "float", "boolean",
      "datetime", "date", "uuid", "url", "email", "json", "foreign_key",
      "many_to_many", "choice"] ∧
    ∃ r, validate c7Spec.toVal = .ok r ∧
      (∀ tv, entLookup [("type", PyVal.pstr "varchar")] "type" = some tv →
        (fieldTypes.any (fun t => beqVal (.pstr t) tv) = true →
          (pureFieldCheck "Post" "body" [("type", PyVal.pstr "varchar")]).1 = []) ∧
        (fieldTypes.any (fun t => beqVal (.pstr t) tv) = false →
          (pureFieldCheck "Post" "body" [("type", PyVal.pstr "varchar")]).1 =
            ["Invalid field type '" ++ pyStrOf tv ++ "' for field '" ++
              "body" ++ "' in model '" ++ "Post" ++ "'"] ∧
          r.valid = false ∧
          ("Invalid field type '" ++ pyStrOf tv ++ "' for field '" ++
            "body" ++ "' in model '" ++ "Post" ++ "'") ∈ r.errors)) ∧
      (entLookup [("type", PyVal.pstr "varchar")] "type" = none →
        (pureFieldCheck "Post" "body" [("type", PyVal.pstr "varchar")]).1 =
          ["Field '" ++ "body" ++ "' in model '" ++ "Post" ++
            "' must have a 'type'"] ∧
        r.valid = false ∧
        ("Field '" ++ "body" ++ "' in model '" ++ "Post" ++
          "' must have a 'type'") ∈ r.errors) :=
  C7_theorem c7Spec "Post" "body"
    ⟨[], [("title", [("type", .pstr "string"), ("primary_key", .pbool true)]),
          ("body", [("type", .pstr "varchar")]),
          ("tag", [("required", .pbool true)])]⟩
    [("type", .pstr "varchar")]
    (by rfl) (by rfl) (List.mem_cons_self _ _)
    (List.mem_cons_of_mem _ (List.mem_cons_self _ _))

end DSLParser

namespace BaseGenerator

open PyVal PyRegex

/-- The field-name scan of `perform_security_checks` on tree-shaped models
computes the SQL-pattern search over all field names. -/
theorem sqlFieldNameHit_toVal (ms : List (String × TModel)) :
    sqlFieldNameHit (ms.map (fun m => (m.1, m.2.toVal))) =
      .ok ((ms.flatMap (fun m => m.2.fields.map Prod.fst)).any
        (fun n => reSearch patSqlFieldName n)) := by
  induction ms with
  | nil => rfl
  | cons m rest ih =>
      cases hh : (m.2.fields.map Prod.fst).any
          (fun n => reSearch patSqlFieldName n) with
      | true =>
          simp [sqlFieldNameHit, TModel.toVal, pyIn, pyGetItem, entLookup,
            dictKeysE, bind, Except.bind, pure, Except.pure,
            List.flatMap_cons, List.any_append, hh, List.map_map,
            Function.comp_def]
      | false =>
          simp [TModel.toVal, List.map_map, Function.comp_def] at ih
          simp [sqlFieldNameHit, TModel.toVal, pyIn, pyGetItem, entLookup,
            dictKeysE, bind, Except.bind, pure, Except.pure,
            List.flatMap_cons, List.any_append, hh, ih, List.map_map,
            Function.comp_def]

end BaseGenerator

namespace BaseGenerator

open PyVal PyRegex

/-- C5 counterexample: the specification whose only suspicious content is
the `@` in the field name `a@b` contains none of the patterns the
specification lists — no serialized dangerous pattern and no occurrence of
`--`, `;`, `/*`, `@@` or `char(` in any field name — yet the scan returns
`False`, because the code's field-name regex additionally matches `*/` and
a bare `@`. -/
theorem C5_counterexample :
    performSecurityChecks atFieldSpec.toVal = .ok false ∧
    claimDangerous atFieldSpec = false := ⟨rfl, rfl⟩

/-- C5 (amended): for every tree-shaped specification, the scan returns
`True` exactly when no dangerous pattern occurs in the serialised document
and no field name matches the code's SQL-metacharacter regex
`(--|;|\/\*|\*\/|@@|@|char\s*\()` — the five listed patterns plus `*/`
and a bare `@`. -/
theorem C5_theorem (s : TSpec) :
    performSecurityChecks s.toVal = .ok (!codeDangerous s) := by
  cases hd : dangerousPatterns.any
      (fun p => reSearch p (PyJson.jsonDumps s.toVal)) with
  | true =>
      simp [performSecurityChecks, hd, codeDangerous, bind, Except.bind,
        pure, Except.pure]
  | false =>
      have h2 : pyIn "models" s.toVal = .ok true := by
        simp [TSpec.toVal, pyIn_pdict, entLookup]
      have hg : pyGetItem s.toVal "models" =
          .ok (.pdict (s.models.map (fun m => (m.1, m.2.toVal)))) := by
        simp [TSpec.toVal, pyGetItem, entLookup]
      cases hhit : (s.models.flatMap (fun m => m.2.fields.map Prod.fst)).any
          (fun n => reSearch patSqlFieldName n) with
      | true =>
          simp [performSecurityChecks, hd, h2, hg, dictItems, bind,
            Except.bind, pure, Except.pure, sqlFieldNameHit_toVal, hhit,
            codeDangerous, specFieldNames]
      | false =>
          simp [performSecurityChecks, hd, h2, hg, dictItems, bind,
            Except.bind, pure, Except.pure, sqlFieldNameHit_toVal, hhit,
            codeDangerous, specFieldNames]

end BaseGenerator

namespace GoGenerator

open PyVal DSLParser

/-- The Go field loop never fails on tree-shaped fields. -/
theorem goFieldLinesList_isOk (fs : List (String × List (String × PyVal))) :
    (goFieldLinesList (fs.map (fun f => (f.1, PyVal.pdict f.2)))).isOk
      = true := by
  induction fs with
  | nil => rfl
  | cons f rest ih =>
      obtain ⟨str, hstr⟩ := exists_ok_of_isOk ih
      cases hl : entLookup f.2 "type" with
      | none =>
          simp [goFieldLinesList, dictGet, hl, hstr, bind, Except.bind,
            pure, Except.pure, Except.isOk, Except.toBool]
      | some v =>
          simp [goFieldLinesList, dictGet, hl, hstr, bind, Except.bind,
            pure, Except.pure, Except.isOk, Except.toBool]

/-- One Go struct never fails on a tree-shaped model. -/
theorem goModelStruct_isOk (mn : String) (m : TModel) :
    (goModelStruct mn m.toVal).isOk = true := by
  obtain ⟨str, hstr⟩ := exists_ok_of_isOk (goFieldLinesList_isOk m.fields)
  simp [goModelStruct, TModel.toVal, dictGet, entLookup, dictItems, hstr,
    bind, Except.bind, pure, Except.pure, Except.isOk, Except.toBool]

/-- The Go struct loop never fails on tree-shaped models. -/
theorem goModelStructsList_isOk (ms : List (String × TModel)) :
    (goModelStructsList (ms.map (fun m => (m.1, m.2.toVal)))).isOk
      = true := by
  induction ms with
  | nil => rfl
  | cons m rest ih =>
      obtain ⟨s1, h1⟩ := exists_ok_of_isOk (goModelStruct_isOk m.1 m.2)
      obtain ⟨s2, h2⟩ := exists_ok_of_isOk ih
      simp [goModelStructsList, h1, h2, bind, Except.bind, pure,
        Except.pure, Except.isOk, Except.toBool]

/-- `GoGenerator.generate` succeeds on every tree-shaped specification —
there is no validation and no security gate in its path. -/
theorem go_generate_isOk (env : PyEnv) (s : TSpec) :
    (generate env s.toVal).isOk = true := by
  have hm : (metaGet s.toVal "name" (.pstr "go_app")).isOk = true := by
    cases hl : entLookup s.meta "name" with
    | none =>
        simp [metaGet, TSpec.toVal, dictGet, entLookup, hl, bind,
          Except.bind, pure, Except.pure, Except.isOk, Except.toBool]
    | some v =>
        simp [metaGet, TSpec.toVal, dictGet, entLookup, hl, bind,
          Except.bind, pure, Except.pure, Except.isOk, Except.toBool]
  obtain ⟨nv, hnv⟩ := exists_ok_of_isOk hm
  have hmodels : dictGet s.toVal "models" (.pdict []) =
      .ok (.pdict (s.models.map (fun m => (m.1, m.2.toVal)))) := by
    simp [TSpec.toVal, dictGet, entLookup]
  obtain ⟨str, hstr⟩ := exists_ok_of_isOk (goModelStructsList_isOk s.models)
  simp [generate, hnv, hmodels, hstr, dictKeysE, dictItems, bind,
    Except.bind, pure, Except.pure, Except.isOk, Except.toBool]

end GoGenerator

namespace RailsGenerator

open PyVal DSLParser

/-- The Rails validates loop never fails on tree-shaped fields. -/
theorem railsValidatesList_isOk (fs : List (String × List (String × PyVal))) :
    (railsValidatesList (fs.map (fun f => (f.1, PyVal.pdict f.2)))).isOk
      = true := by
  induction fs with
  | nil => rfl
  | cons f rest ih =>
      obtain ⟨str, hstr⟩ := exists_ok_of_isOk ih
      cases hl : entLookup f.2 "required" with
      | none =>
          simp [railsValidatesList, dictGet, hl, hstr, bind, Except.bind,
            pure, Except.pure, Except.isOk, Except.toBool]
      | some v =>
          simp [railsValidatesList, dictGet, hl, hstr, bind, Except.bind,
            pure, Except.pure, Except.isOk, Except.toBool]

/-- The Rails per-model loop never fails on tree-shaped models. -/
theorem railsModelFilesList_isOk (ms : List (String × TModel)) :
    (railsModelFilesList (ms.map (fun m => (m.1, m.2.toVal)))).isOk
      = true := by
  induction ms with
  | nil => rfl
  | cons m rest ih =>
      obtain ⟨s1, h1⟩ :=
        exists_ok_of_isOk (railsValidatesList_isOk m.2.fields)
      obtain ⟨s2, h2⟩ := exists_ok_of_isOk ih
      simp only [TModel.toVal] at h2
      simp [railsModelFilesList, TModel.toVal, dictGet, entLookup,
        dictItems, h1, h2, bind, Except.bind, pure, Except.pure,
        Except.isOk, Except.toBool]

/-- `RailsGenerator.generate` succeeds on every tree-shaped specification —
no validation, no security gate. -/
theorem rails_generate_isOk (env : PyEnv) (s : TSpec) :
    (generate env s.toVal).isOk = true := by
  have hm : (metaGet s.toVal "name" (.pstr "rails_app")).isOk = true := by
    cases hl : entLookup s.meta "name" with
    | none =>
        simp [metaGet, TSpec.toVal, dictGet, entLookup, hl, bind,
          Except.bind, pure, Except.pure, Except.isOk, Except.toBool]
    | some v =>
        simp [metaGet, TSpec.toVal, dictGet, entLookup, hl, bind,
          Except.bind, pure, Except.pure, Except.isOk, Except.toBool]
  obtain ⟨nv, hnv⟩ := exists_ok_of_isOk hm
  have hmodels : dictGet s.toVal "models" (.pdict []) =
      .ok (.pdict (s.models.map (fun m => (m.1, m.2.toVal)))) := by
    simp [TSpec.toVal, dictGet, entLookup]
  obtain ⟨fl, hfl⟩ := exists_ok_of_isOk (railsModelFilesList_isOk s.models)
  simp [generate, hnv, hmodels, hfl, dictKeysE, dictItems, bind,
    Except.bind, pure, Except.pure, Except.isOk, Except.toBool]

/-- `RailsGenerator.preview` succeeds on every tree-shaped specification. -/
theorem rails_preview_isOk (s : TSpec) :
    (preview s.toVal).isOk = true := by
  have hmodels : dictGet s.toVal "models" (.pdict []) =
      .ok (.pdict (s.models.map (fun m => (m.1, m.2.toVal)))) := by
    simp [TSpec.toVal, dictGet, entLookup]
  simp [preview, hmodels, dictKeysE, bind, Except.bind, pure, Except.pure,
    Except.isOk, Except.toBool]

end RailsGenerator

/-- C1 counterexample: on the specification whose field name `1;DROP`
fails the security gate, the registry's go-fiber and rails generators
nevertheless return complete file maps — they run no validation and no
security checks at all, contradicting the claim that every registry
generator gates its output. -/
theorem C1_counterexample :
    BaseGenerator.performSecurityChecks sqlFieldSpec.toVal = .ok false ∧
    (GoGenerator.generate env0 sqlFieldSpec.toVal).isOk = true ∧
    (RailsGenerator.generate env0 sqlFieldSpec.toVal).isOk = true :=
  ⟨rfl, rfl, rfl⟩

/-- C1 (amended): only the Django generator gates its output: its
`generate` and `preview` raise a `ValueError` naming the failed check
(listing the validation errors, or reporting the failed security scan)
and return no files whenever validation or the security gate fails, while
the go-fiber and rails generators and previews always produce their full
output on tree-shaped specifications, performing no checks. -/
theorem C1_theorem :
    (∀ env spec errs, BaseGenerator.validateDsl spec = .ok errs →
      errs ≠ [] →
      DjangoGenerator.generate env spec = .error (.valueError
        ("Invalid DSL specification: " ++ String.intercalate ", " errs))) ∧
    (∀ env spec, BaseGenerator.validateDsl spec = .ok [] →
      BaseGenerator.performSecurityChecks spec = .ok false →
      DjangoGenerator.generate env spec =
        .error (.valueError "DSL specification failed security checks")) ∧
    (∀ spec errs, BaseGenerator.validateDsl spec = .ok errs →
      errs ≠ [] →
      DjangoGenerator.preview spec = .error (.valueError
        ("Invalid DSL specification: " ++ String.intercalate ", " errs))) ∧
    (∀ spec, BaseGenerator.validateDsl spec = .ok [] →
      BaseGenerator.performSecurityChecks spec = .ok false →
      DjangoGenerator.preview spec =
        .error (.valueError "DSL specification failed security checks")) ∧
    (∀ env (s : TSpec), (GoGenerator.generate env s.toVal).isOk = true) ∧
    (∀ spec, (GoGenerator.preview spec).isOk = true) ∧
    (∀ env (s : TSpec), (RailsGenerator.generate env s.toVal).isOk = true) ∧
    (∀ (s : TSpec), (RailsGenerator.preview s.toVal).isOk = true) := by
  refine ⟨?_, ?_, ?_, ?_, GoGenerator.go_generate_isOk, fun _ => rfl,
    RailsGenerator.rails_generate_isOk, RailsGenerator.rails_preview_isOk⟩
  · intro env spec errs hv hne
    simp [DjangoGenerator.generate, hv, hne, List.isEmpty_iff, throw,
      throwThe, MonadExceptOf.throw]
  · intro env spec hv hs
    simp [DjangoGenerator.generate, hv, hs, throw, throwThe,
      MonadExceptOf.throw, bind, Except.bind, pure, Except.pure]
  · intro spec errs hv hne
    simp [DjangoGenerator.preview, hv, hne, List.isEmpty_iff, throw,
      throwThe, MonadExceptOf.throw]
  · intro spec hv hs
    simp [DjangoGenerator.preview, hv, hs, throw, throwThe,
      MonadExceptOf.throw, bind, Except.bind, pure, Except.pure]

/-- C1 witness: on the concrete spec failing the security gate, Django's
generate raises the structured security error while the go generator still
returns its full output. -/
theorem C1_witness :
    DjangoGenerator.generate env0 sqlFieldSpec.toVal =
      .error (.valueError "DSL specification failed security checks") ∧
    (GoGenerator.generate env1 sqlFieldSpec.toVal).isOk = true :=
  ⟨C1_theorem.2.1 env0 sqlFieldSpec.toVal rfl rfl,
   C1_theorem.2.2.2.2.1 env1 sqlFieldSpec⟩

/-- C8: generation is deterministic — the generators never read the
ambient environment (clock, randomness), so two calls with the same
specification produce byte-identical file maps whatever the environment. -/
theorem C8_theorem :
    (∀ (e1 e2 : PyEnv) (spec : PyVal),
      DjangoGenerator.generate e1 spec = DjangoGenerator.generate e2 spec) ∧
    (∀ (e1 e2 : PyEnv) (spec : PyVal),
      GoGenerator.generate e1 spec = GoGenerator.generate e2 spec) ∧
    (∀ (e1 e2 : PyEnv) (spec : PyVal),
      RailsGenerator.generate e1 spec = RailsGenerator.generate e2 spec) :=
  ⟨fun _ _ _ => rfl, fun _ _ _ => rfl, fun _ _ _ => rfl⟩

/-- The keys of the base Django file map are the twenty-two fixed paths. -/
theorem filesBase_keys (spec : PyVal) (files : List (String × String))
    (h : DjangoGenerator.generateFilesBase spec = .ok files) :
    files.map Prod.fst =
      ["manage.py", "app/models.py", "app/views.py", "app/urls.py",
       "app/serializers.py", "app/admin.py", "app/tests.py",
       "app/__init__.py", "app/apps.py", "project/settings.py",
       "project/urls.py", "project/wsgi.py", "project/asgi.py",
       "project/__init__.py", "requirements.txt", "Dockerfile",
       "docker-compose.yml", ".env.example", ".gitignore", "README.md",
       "pytest.ini", ".dockerignore"] := by
  simp only [DjangoGenerator.generateFilesBase, bind, Except.bind] at h
  repeat' split at h
  all_goals
    first
      | (simp only [pure, Except.pure, Except.ok.injEq] at h
         subst h
         rfl)
      | exact absurd h (by simp [pure, Except.pure])

/-- Appending an `integrity.json` entry after distinct keys makes it the
one `lookup` finds. -/
theorem lookup_append_integrity {α : Type} (files : List (String × α))
    (v : α) (h : ∀ p ∈ files, p.1 ≠ "integrity.json") :
    (files ++ [("integrity.json", v)]).lookup "integrity.json" = some v := by
  induction files with
  | nil => simp [List.lookup]
  | cons f rest ih =>
      obtain ⟨k, w⟩ := f
      have hf := h (k, w) (List.mem_cons_self _ _)
      have hne : ("integrity.json" == k) = false :=
        beq_eq_false_iff_ne.mpr (fun e => hf e.symm)
      simp only [List.cons_append, List.lookup, hne]
      exact ih (fun p hp => h p (List.mem_cons_of_mem _ hp))

/-- C9: `compute_hash` is the standard SHA-256 hex digest over the UTF-8
bytes of its input (checked against the FIPS 180-4 test vectors), and
every successful Django generation carries an `integrity.json` entry
mapping each other generated file path to the SHA-256 digest of that
file's content; on the concrete scenario specification generation indeed
succeeds. -/
theorem C9_theorem :
    BaseGenerator.computeHash "" =
      "e3b0c44298fc1c149afbf4c8996fb92427ae41e4649b934ca495991b7852b855" ∧
    BaseGenerator.computeHash "abc" =
      "ba7816bf8f01cfea414140de5dae2223b00361a396177a9cb410ff61f20015ad" ∧
    BaseGenerator.computeHash
        "abcdbcdecdefdefgefghfghighijhijkijkljklmklmnlmnomnopnopq" =
      "248d6a61d20638b8e5c026930c3e6039a33ce45964ff2167f6ecedd419db06c1" ∧
    (∀ env spec,
      DjangoGenerator.integrityOk (DjangoGenerator.generate env spec)) ∧
    (DjangoGenerator.generate env0 scenarioBSpec).isOk = true := by
  refine ⟨rfl, rfl, rfl, ?_, rfl⟩
  intro env spec
  simp only [DjangoGenerator.generate]
  cases hv : BaseGenerator.validateDsl spec with
  | error e =>
      simp [DjangoGenerator.integrityOk, throw, throwThe,
        MonadExceptOf.throw]
  | ok errs =>
      cases herrs : errs.isEmpty with
      | false =>
          simp [herrs, DjangoGenerator.integrityOk, throw, throwThe,
            MonadExceptOf.throw]
      | true =>
          cases hs : BaseGenerator.performSecurityChecks spec with
          | error e =>
              simp [herrs, DjangoGenerator.integrityOk, throw, throwThe,
                MonadExceptOf.throw]
          | ok passed =>
              cases passed with
              | false =>
                  simp [herrs, DjangoGenerator.integrityOk, throw, throwThe,
                    MonadExceptOf.throw]
              | true =>
                  cases hf : DjangoGenerator.generateFilesBase spec with
                  | error e =>
                      simp [herrs, hf, DjangoGenerator.integrityOk, throw,
                        throwThe, MonadExceptOf.throw]
                  | ok files =>
                      have hk := filesBase_keys spec files hf
                      have hnot : ∀ p ∈ files, p.1 ≠ "integrity.json" := by
                        intro p hp hcontra
                        have hmem : p.1 ∈ files.map Prod.fst :=
                          List.mem_map_of_mem _ hp
                        rw [hk] at hmem
                        rw [hcontra] at hmem
                        simp at hmem
                      have hfilter : files.filter
                          (fun p => p.1 ≠ "integrity.json") = files :=
                        List.filter_eq_self.mpr
                          (fun p hp => by simpa using hnot p hp)
                      simp only [herrs, hf, Bool.not_true, Bool.not_false,
                        if_false, DjangoGenerator.integrityOk, pure,
                        Except.pure, Bool.false_eq_true, ite_false]
                      rw [List.filter_append, hfilter]
                      rw [lookup_append_integrity files _ hnot]
                      have hfilter2 : List.filter
                          (fun p => !decide (p.1 = "integrity.json")) files
                          = files := by
                        simpa [decide_not] using hfilter
                      simp [DjangoGenerator.integrityManifest, hfilter,
                        hfilter2]

namespace PyVal

/-- `d.get(k, default)` on a mapping, as a total lookup. -/
theorem dictGet_pdict (xs : List (String × PyVal)) (k : String)
    (d : PyVal) : dictGet (.pdict xs) k d = .ok ((entLookup xs k).getD d) := by
  cases h : entLookup xs k <;> simp [dictGet, h]

end PyVal

namespace DjangoGenerator

open PyVal

/-- Left fold of string append over a list, peeled at an appended start. -/
theorem foldl_append_start (l : List String) :
    ∀ a b : String, List.foldl (fun r s => r ++ s) (a ++ b) l =
      a ++ List.foldl (fun r s => r ++ s) b l := by
  induction l with
  | nil => intro a b; rfl
  | cons s rest ih =>
      intro a b
      simp only [List.foldl_cons, String.append_assoc]
      exact ih a (b ++ s)

/-- `String.join` peels its head. -/
theorem join_cons (s : String) (l : List String) :
    String.join (s :: l) = s ++ String.join l := by
  have h := foldl_append_start l s ""
  simp only [String.join, List.foldl_cons]
  simpa using h

set_option maxHeartbeats 1000000 in
/-- The field-line chain on a mapping field definition computes the pure
`claimFieldLine`. -/
theorem fieldLine_toVal (fn : String) (fd : List (String × PyVal)) :
    fieldLine fn (.pdict fd) = .ok (claimFieldLine fn fd) := by
  simp only [fieldLine, claimFieldLine, dictGet_pdict, bind, Except.bind,
    pure, Except.pure]
  split_ifs <;> rfl

/-- The field loop on mapping field definitions joins the pure lines. -/
theorem fieldLinesList_toVal (fs : List (String × List (String × PyVal))) :
    fieldLinesList (fs.map (fun f => (f.1, PyVal.pdict f.2))) =
      .ok (String.join (fs.map (fun f => claimFieldLine f.1 f.2))) := by
  induction fs with
  | nil => rfl
  | cons f rest ih =>
      simp [fieldLinesList, fieldLine_toVal, ih, bind, Except.bind, pure,
        Except.pure, join_cons]

/-- The per-model block of `app/models.py` on a tree-shaped model computes
`claimModelBlock`: the hard-coded `id` UUID primary-key line, then the
user field lines, then the bookkeeping columns. -/
theorem modelBlock_toVal (mn : String) (m : TModel) :
    modelBlock mn m.toVal = .ok (claimModelBlock mn m) := by
  obtain ⟨attrs, fields⟩ := m
  cases fields with
  | nil =>
      simp [modelBlock, claimModelBlock, TModel.toVal, dictGet_pdict,
        dictItems, entLookup, bind, Except.bind, pure, Except.pure,
        fieldLinesList, String.join]
  | cons f rest =>
      have hfl := fieldLinesList_toVal (f :: rest)
      simp only [List.map_cons] at hfl
      simp [modelBlock, claimModelBlock, TModel.toVal, dictGet_pdict,
        dictItems, entLookup, bind, Except.bind, pure, Except.pure, hfl]

end DjangoGenerator

namespace DjangoGenerator

open PyVal

/-- The model loop of `app/models.py` on tree-shaped models. -/
theorem modelBlocksList_toVal (ms : List (String × TModel)) :
    modelBlocksList (ms.map (fun m => (m.1, m.2.toVal))) =
      .ok (String.join (ms.map (fun m => claimModelBlock m.1 m.2))) := by
  induction ms with
  | nil => rfl
  | cons m rest ih =>
      simp [modelBlocksList, modelBlock_toVal, ih, bind, Except.bind, pure,
        Except.pure, join_cons]

/-- `_generate_models_complete` on a tree-shaped specification: the fixed
header, then per model the claim-level block. -/
theorem generateModelsComplete_toVal (s : TSpec) :
    generateModelsComplete s.toVal =
      .ok (modelsHeader (projectNameOfT s) ++
        String.join (s.models.map (fun m => claimModelBlock m.1 m.2))) := by
  have hmg : metaGet s.toVal "name" (.pstr "project") =
      .ok ((entLookup s.meta "name").getD (.pstr "project")) := by
    simp [metaGet, TSpec.toVal, dictGet_pdict, entLookup, bind, Except.bind,
      pure, Except.pure]
  have hms : dictGet s.toVal "models" (.pdict []) =
      .ok (.pdict (s.models.map (fun m => (m.1, m.2.toVal)))) := by
    simp [TSpec.toVal, dictGet_pdict, entLookup]
  simp [generateModelsComplete, hmg, hms, dictItems, bind, Except.bind,
    pure, Except.pure, modelBlocksList_toVal, projectNameOfT]

/-- The serializer block on a tree-shaped model computes
`claimSerializerBlock`: its `fields` literal is always
`['id'] + <user field names> + ['created_at', 'updated_at']`. -/
theorem serializerBlock_toVal (mn : String) (m : TModel) :
    serializerBlock mn m.toVal = .ok (claimSerializerBlock mn m) := by
  simp [serializerBlock, claimSerializerBlock, TModel.toVal, dictGet_pdict,
    dictKeysE, entLookup, bind, Except.bind, pure, Except.pure,
    List.map_map, Function.comp_def]

/-- The serializer loop on tree-shaped models. -/
theorem serializerBlocksList_toVal (ms : List (String × TModel)) :
    serializerBlocksList (ms.map (fun m => (m.1, m.2.toVal))) =
      .ok (String.join (ms.map (fun m => claimSerializerBlock m.1 m.2))) := by
  induction ms with
  | nil => rfl
  | cons m rest ih =>
      simp [serializerBlocksList, serializerBlock_toVal, ih, bind,
        Except.bind, pure, Except.pure, join_cons]

/-- `_generate_serializers_complete` on a tree-shaped specification. -/
theorem generateSerializersComplete_toVal (s : TSpec) :
    generateSerializersComplete s.toVal =
      .ok ("\"\"\"\nDjango Serializers for " ++ projectNameOfT s ++
        "\nGenerated by InfraNest\n\"\"\"\nfrom rest_framework import serializers\nfrom .models import *\n\n\n" ++
        String.join (s.models.map (fun m => claimSerializerBlock m.1 m.2))) := by
  have hmg : metaGet s.toVal "name" (.pstr "project") =
      .ok ((entLookup s.meta "name").getD (.pstr "project")) := by
    simp [metaGet, TSpec.toVal, dictGet_pdict, entLookup, bind, Except.bind,
      pure, Except.pure]
  have hms : dictGet s.toVal "models" (.pdict []) =
      .ok (.pdict (s.models.map (fun m => (m.1, m.2.toVal)))) := by
    simp [TSpec.toVal, dictGet_pdict, entLookup]
  simp [generateSerializersComplete, hmg, hms, dictItems, bind, Except.bind,
    pure, Except.pure, serializerBlocksList_toVal, projectNameOfT]

end DjangoGenerator

namespace DjangoGenerator

open PyVal

/-- Removing `primary_key` entries leaves every other lookup unchanged. -/
theorem entLookup_filter_pk (fd : List (String × PyVal)) (k : String)
    (hk : k ≠ "primary_key") :
    entLookup (fd.filter (fun e => e.1 ≠ "primary_key")) k =
      entLookup fd k := by
  induction fd with
  | nil => rfl
  | cons e rest ih =>
      simp only [decide_not] at ih
      by_cases he : e.1 = "primary_key"
      · have hpk : ¬ ("primary_key" = k) := fun h => hk h.symm
        simp [List.filter_cons, he, entLookup, hpk, ih]
      · by_cases hek : e.1 = k
        · simp [List.filter_cons, he, entLookup, hek, hk]
        · simp [List.filter_cons, he, entLookup, hek, ih]

/-- A key-preserving guarded map leaves lookups at other keys unchanged. -/
theorem entLookup_map_guard (xs : List (String × PyVal)) (k0 k : String)
    (g : PyVal → PyVal) (hk : k ≠ k0) :
    entLookup (xs.map (fun e =>
      if e.1 = k0 then (e.1, g e.2) else e)) k = entLookup xs k := by
  induction xs with
  | nil => rfl
  | cons e rest ih =>
      simp only [List.map_cons]
      by_cases he : e.1 = k0
      · have hpk : e.1 ≠ k := fun h => hk (h.symm.trans he)
        rw [if_pos he]
        simp only [entLookup]
        rw [if_neg hpk, if_neg hpk]
        exact ih
      · rw [if_neg he]
        simp only [entLookup]
        by_cases hek : e.1 = k
        · rw [if_pos hek, if_pos hek]
        · rw [if_neg hek, if_neg hek]
          exact ih

/-- A field line never depends on the field's `primary_key` entries. -/
theorem claimFieldLine_erase (fn : String) (fd : List (String × PyVal)) :
    claimFieldLine fn (fd.filter (fun e => e.1 ≠ "primary_key")) =
      claimFieldLine fn fd := by
  simp only [claimFieldLine,
    entLookup_filter_pk fd "type" (by decide),
    entLookup_filter_pk fd "required" (by decide),
    entLookup_filter_pk fd "max_length" (by decide)]

/-- A model block never depends on `primary_key` flags. -/
theorem claimModelBlock_erase (mn : String) (m : TModel) :
    claimModelBlock mn
      ⟨m.attrs.map (fun e =>
         if e.1 = "fields" then (e.1, erasePkFields e.2) else e),
       m.fields.map (fun f =>
         (f.1, f.2.filter (fun e => e.1 ≠ "primary_key")))⟩ =
      claimModelBlock mn m := by
  cases hf : m.fields with
  | nil =>
      simp [claimModelBlock, hf,
        entLookup_map_guard m.attrs "fields" "description" erasePkFields
          (by decide)]
  | cons f rest =>
      have hcf : ∀ (fn : String) (fd : List (String × PyVal)),
          claimFieldLine fn
            (fd.filter (fun e => !decide (e.1 = "primary_key"))) =
            claimFieldLine fn fd := by
        intro fn fd
        simpa [decide_not] using claimFieldLine_erase fn fd
      simp [claimModelBlock, hf, List.map_map, Function.comp_def, hcf,
        entLookup_map_guard m.attrs "fields" "description" erasePkFields
          (by decide)]

/-- A serializer block never depends on `primary_key` flags. -/
theorem claimSerializerBlock_erase (mn : String) (m : TModel) :
    claimSerializerBlock mn
      ⟨m.attrs.map (fun e =>
         if e.1 = "fields" then (e.1, erasePkFields e.2) else e),
       m.fields.map (fun f =>
         (f.1, f.2.filter (fun e => e.1 ≠ "primary_key")))⟩ =
      claimSerializerBlock mn m := by
  simp [claimSerializerBlock, List.map_map, Function.comp_def]

/-- `erasePkModel` acts on tree-shaped models as the tree eraser. -/
theorem erasePkModel_toVal (m : TModel) :
    erasePkModel m.toVal = (TModel.mk
      (m.attrs.map (fun e =>
        if e.1 = "fields" then (e.1, erasePkFields e.2) else e))
      (m.fields.map (fun f =>
        (f.1, f.2.filter (fun e => e.1 ≠ "primary_key"))))).toVal := by
  simp [TModel.toVal, erasePkModel, erasePkFields, erasePkFieldDef,
    List.map_map, Function.comp_def]

/-- `erasePk` acts on tree-shaped specifications as the tree eraser. -/
theorem erasePk_toVal (s : TSpec) :
    erasePk s.toVal = (erasePkT s).toVal := by
  simp [TSpec.toVal, erasePk, erasePkT, erasePkModel_toVal, List.map_map,
    Function.comp_def]

end DjangoGenerator

/-- C10: for every tree-shaped specification, the Django generator's
`app/models.py` gives every model the hard-coded `id` UUID primary-key
column (`idLine`) emitted before all user-declared field lines (the
structure made explicit by `claimModelBlock`), each serializer's `fields`
literal is always `['id'] + <user field names> + ['created_at',
'updated_at']` (`claimSerializerBlock`), and erasing every user
`primary_key` flag from the specification changes neither the emitted
models file nor the serializers file. -/
theorem C10_theorem :
    (∀ s : TSpec, DjangoGenerator.generateModelsComplete s.toVal =
        .ok (DjangoGenerator.modelsHeader (DjangoGenerator.projectNameOfT s) ++
          String.join (s.models.map
            (fun m => DjangoGenerator.claimModelBlock m.1 m.2)))) ∧
    (∀ s : TSpec, DjangoGenerator.generateSerializersComplete s.toVal =
        .ok ("\"\"\"\nDjango Serializers for " ++
          DjangoGenerator.projectNameOfT s ++
          "\nGenerated by InfraNest\n\"\"\"\nfrom rest_framework import serializers\nfrom .models import *\n\n\n" ++
          String.join (s.models.map
            (fun m => DjangoGenerator.claimSerializerBlock m.1 m.2)))) ∧
    (∀ s : TSpec,
      DjangoGenerator.generateModelsComplete
          (DjangoGenerator.erasePk s.toVal) =
        DjangoGenerator.generateModelsComplete s.toVal ∧
      DjangoGenerator.generateSerializersComplete
          (DjangoGenerator.erasePk s.toVal) =
        DjangoGenerator.generateSerializersComplete s.toVal) := by
  refine ⟨DjangoGenerator.generateModelsComplete_toVal,
    DjangoGenerator.generateSerializersComplete_toVal, ?_⟩
  intro s
  have hmb : ∀ (mn : String) (m : TModel),
      DjangoGenerator.claimModelBlock mn
        ⟨m.attrs.map (fun e =>
           if e.1 = "fields" then (e.1, DjangoGenerator.erasePkFields e.2)
           else e),
         m.fields.map (fun f =>
           (f.1, f.2.filter (fun e => !decide (e.1 = "primary_key"))))⟩ =
        DjangoGenerator.claimModelBlock mn m := by
    intro mn m
    simpa [decide_not] using DjangoGenerator.claimModelBlock_erase mn m
  have hsb : ∀ (mn : String) (m : TModel),
      DjangoGenerator.claimSerializerBlock mn
        ⟨m.attrs.map (fun e =>
           if e.1 = "fields" then (e.1, DjangoGenerator.erasePkFields e.2)
           else e),
         m.fields.map (fun f =>
           (f.1, f.2.filter (fun e => !decide (e.1 = "primary_key"))))⟩ =
        DjangoGenerator.claimSerializerBlock mn m := by
    intro mn m
    simpa [decide_not] using DjangoGenerator.claimSerializerBlock_erase mn m
  constructor
  · rw [DjangoGenerator.erasePk_toVal,
      DjangoGenerator.generateModelsComplete_toVal,
      DjangoGenerator.generateModelsComplete_toVal]
    simp [DjangoGenerator.erasePkT, DjangoGenerator.projectNameOfT,
      List.map_map, Function.comp_def, hmb]
  · rw [DjangoGenerator.erasePk_toVal,
      DjangoGenerator.generateSerializersComplete_toVal,
      DjangoGenerator.generateSerializersComplete_toVal]
    simp [DjangoGenerator.erasePkT, DjangoGenerator.projectNameOfT,
      List.map_map, Function.comp_def, hsb]

namespace PyHeap

open PyVal

/-- `getD` through a left append, inside the left part. -/
theorem getD_append_left {α : Type} (l₁ l₂ : List α) (d : α) (i : Nat)
    (h : i < l₁.length) : (l₁ ++ l₂).getD i d = l₁.getD i d := by
  induction l₁ generalizing i with
  | nil => simp at h
  | cons a rest ih =>
      cases i with
      | zero => rfl
      | succ j =>
          exact ih j (by simp at h; omega)

/-- `getD` through a left append, past the left part. -/
theorem getD_append_right {α : Type} (l₁ l₂ : List α) (d : α) (i : Nat) :
    (l₁ ++ l₂).getD (l₁.length + i) d = l₂.getD i d := by
  induction l₁ with
  | nil => simp
  | cons a rest ih =>
      have : rest.length + 1 + i = (rest.length + i) + 1 := by omega
      simp only [List.cons_append, List.length_cons, this, List.getD]
      exact ih

/-- `set` through a left append, past the left part. -/
theorem set_append_right {α : Type} (l₁ l₂ : List α) (i : Nat) (x : α) :
    (l₁ ++ l₂).set (l₁.length + i) x = l₁ ++ l₂.set i x := by
  induction l₁ with
  | nil => simp
  | cons a rest ih =>
      have : rest.length + 1 + i = (rest.length + i) + 1 := by omega
      simp only [List.cons_append, List.length_cons, this, List.set]
      rw [ih]

/-- `getD` of a mapped list. -/
theorem getD_map_primEntsH (fs : List (String × List (String × PyVal)))
    (i : Nat) (h : i < fs.length) :
    (fs.map (fun f => primEntsH f.2)).getD i [] =
      primEntsH ((fs.getD i ("", [])).2) := by
  induction fs generalizing i with
  | nil => simp at h
  | cons f rest ih =>
      cases i with
      | zero => rfl
      | succ j => exact ih j (by simp at h; omega)

/-- `getD` of a replicated list. -/
theorem getD_replicate {α : Type} (n : Nat) (x d : α) (i : Nat)
    (h : i < n) : (List.replicate n x).getD i d = x := by
  induction n generalizing i with
  | zero => omega
  | succ m ih =>
      cases i with
      | zero => rfl
      | succ j => exact ih j (by omega)

/-- Loading a primitive value allocates nothing. -/
theorem load_prim (v : PyVal) (h : Heap) (hp : primVal v = true) :
    load v h = (h, primHVal v) := by
  cases v <;> simp [primVal] at hp <;> rfl

/-- Loading a primitive-valued entry list allocates nothing. -/
theorem loadEnts_prim (es : List (String × PyVal)) (hp : primEnts es = true) :
    ∀ h : Heap, loadEnts es h = (h, primEntsH es) := by
  induction es with
  | nil => intro h; rfl
  | cons e rest ih =>
      intro h
      have hp' : primVal e.2 = true ∧ primEnts rest = true := by
        rw [show primEnts (e :: rest) = (primVal e.2 && primEnts rest) from
          rfl, Bool.and_eq_true] at hp
        exact hp
      obtain ⟨k, v⟩ := e
      simp [loadEnts, load_prim v h hp'.1, ih hp'.2 h, primEntsH]

/-- Reading a primitive back. -/
theorem deepRead_prim (h : Heap) (fuel : Nat) (v : PyVal)
    (hp : primVal v = true) :
    deepRead h (fuel + 1) (primHVal v) = some v := by
  cases v <;> simp [primVal] at hp <;> rfl

/-- Reading primitive entries back. -/
theorem optMapEnts_prim (h : Heap) (fuel : Nat)
    (es : List (String × PyVal)) (hp : primEnts es = true) :
    optMapEnts (deepRead h (fuel + 1)) (primEntsH es) = some es := by
  induction es with
  | nil => rfl
  | cons e rest ih =>
      have hp' : primVal e.2 = true ∧ primEnts rest = true := by
        rw [show primEnts (e :: rest) = (primVal e.2 && primEnts rest) from
          rfl, Bool.and_eq_true] at hp
        exact hp
      obtain ⟨k, v⟩ := e
      simp [primEntsH, optMapEnts, deepRead_prim h fuel v hp'.1]
      have := ih hp'.2
      simp [primEntsH] at this
      simp [this]

end PyHeap

namespace PyHeap

open PyVal

/-- Length of one model's object block. -/
theorem modelObjs_length (base : Nat)
    (fs : List (String × List (String × PyVal))) :
    (modelObjs base fs).length = fs.length + 2 := by
  simp [modelObjs]

/-- Length of the model region. -/
theorem modelsObjs_length (ms : List (String × TModel)) :
    ∀ base : Nat, (modelsObjs base ms).length = sizeModels ms := by
  induction ms with
  | nil => intro base; rfl
  | cons m rest ih =>
      intro base
      simp [modelsObjs, sizeModels, modelObjs_length, ih]

/-- Length of the final model region. -/
theorem updObjs_length (ms : List (String × TModel)) :
    ∀ base idAddr : Nat, (updObjs base idAddr ms).length = sizeModels ms := by
  induction ms with
  | nil => intro base idAddr; rfl
  | cons m rest ih =>
      intro base idAddr
      by_cases h : DSLParser.fieldsHavePk m.2.fields ||
          DSLParser.fieldsHaveId m.2.fields
      · simp [updObjs, h, sizeModels, modelObjs_length, ih]
      · simp [updObjs, h, sizeModels, ih]
        omega

/-- Loading the field definitions of a flat model. -/
theorem loadEnts_fields (fs : List (String × List (String × PyVal)))
    (hflat : fs.all (fun f => primEnts f.2) = true) :
    ∀ h : Heap,
      loadEnts (fs.map (fun f => (f.1, PyVal.pdict f.2))) h =
        (⟨h.objs ++ fs.map (fun f => primEntsH f.2)⟩,
         fieldsObjEnts h.objs.length fs) := by
  induction fs with
  | nil => intro h; simp [loadEnts, fieldsObjEnts]
  | cons f rest ih =>
      intro h
      have hflat' : primEnts f.2 = true ∧
          rest.all (fun f => primEnts f.2) = true := by
        rw [List.all_cons, Bool.and_eq_true] at hflat
        exact hflat
      have hr := ih hflat'.2 ⟨h.objs ++ [primEntsH f.2]⟩
      simp only [List.map_cons, loadEnts, load,
        loadEnts_prim f.2 hflat'.1 h, Heap.alloc] at hr ⊢
      simp [hr, fieldsObjEnts]

end PyHeap

namespace PyHeap

open PyVal

/-- Loading one flat model allocates its block and returns the model
reference. -/
theorem load_model (m : TModel) (hm : flatModel m = true) (h : Heap) :
    load m.toVal h =
      (⟨h.objs ++ modelObjs h.objs.length m.fields⟩,
       .href (h.objs.length + m.fields.length + 1)) := by
  obtain ⟨attrs, fields⟩ := m
  have hm' : attrs.isEmpty = true ∧
      fields.all (fun f => primEnts f.2) = true := by
    rw [show flatModel ⟨attrs, fields⟩ =
      (attrs.isEmpty && fields.all (fun f => primEnts f.2)) from rfl,
      Bool.and_eq_true] at hm
    exact hm
  have hae : attrs = [] := by
    cases attrs with
    | nil => rfl
    | cons a r => simp [List.isEmpty] at hm'
  subst hae
  have hle := loadEnts_fields fields hm'.2 h
  simp only [TModel.toVal, load, loadEnts, hle, Heap.alloc, modelObjs]
  simp
  omega

/-- Loading a flat model list allocates the model region and returns the
`models` dict entries. -/
theorem loadEnts_models (ms : List (String × TModel))
    (hflat : ms.all (fun m => flatModel m.2) = true) :
    ∀ h : Heap,
      loadEnts (ms.map (fun m => (m.1, m.2.toVal))) h =
        (⟨h.objs ++ modelsObjs h.objs.length ms⟩,
         modelsDictEnts h.objs.length ms) := by
  induction ms with
  | nil => intro h; simp [loadEnts, modelsObjs, modelsDictEnts]
  | cons m rest ih =>
      intro h
      have hflat' : flatModel m.2 = true ∧
          rest.all (fun m => flatModel m.2) = true := by
        rw [List.all_cons, Bool.and_eq_true] at hflat
        exact hflat
      have hr := ih hflat'.2 ⟨h.objs ++ modelObjs h.objs.length m.2.fields⟩
      simp only [List.map_cons, loadEnts, load_model m.2 hflat'.1 h] at hr ⊢
      simp only [hr, modelsObjs, modelsDictEnts]
      simp [modelObjs_length]
      exact ⟨by rw [Nat.add_assoc], by rw [Nat.add_assoc]⟩

end PyHeap

namespace PyHeap

open PyVal

/-- Loading a flat specification builds exactly the layout `specObjs`. -/
theorem load_spec (s : TSpec) (hs : flatSpec s = true) :
    load s.toVal ⟨[]⟩ =
      (⟨specObjs s⟩, .href (2 + sizeModels s.models)) := by
  obtain ⟨meta, models, extra⟩ := s
  have hs' : primEnts meta = true ∧ extra.isEmpty = true ∧
      models.all (fun m => flatModel m.2) = true := by
    rw [show flatSpec ⟨meta, models, extra⟩ =
      (primEnts meta && (extra.isEmpty &&
        models.all (fun m => flatModel m.2))) from by
          rw [flatSpec, Bool.and_assoc],
      Bool.and_eq_true, Bool.and_eq_true] at hs
    exact ⟨hs.1, hs.2.1, hs.2.2⟩
  have hee : extra = [] := by
    cases extra with
    | nil => rfl
    | cons a r => simp [List.isEmpty] at hs'
  subst hee
  have hm := loadEnts_prim meta hs'.1 ⟨[]⟩
  have hmods := loadEnts_models models hs'.2.2 ⟨[primEntsH meta]⟩
  simp only [TSpec.toVal, load, loadEnts, hm, Heap.alloc, List.nil_append,
    hmods]
  simp only [specObjs, rootEnts, List.length_cons, List.length_append,
    modelsObjs_length, List.length_nil]
  simp [modelsObjs_length]
  omega

end PyHeap

namespace PyHeap

open PyVal

/-- Reading inside the middle region of a three-part store. -/
theorem get_region (pre mid post : List (List (String × HVal))) (i : Nat)
    (h : i < mid.length) :
    Heap.get ⟨pre ++ mid ++ post⟩ (pre.length + i) = mid.getD i [] := by
  simp only [Heap.get]
  rw [List.append_assoc, getD_append_right, getD_append_left _ _ _ _ h]

/-- Heap lookup in a primitive-valued object. -/
theorem hEntLookup_prim (es : List (String × PyVal)) (k : String) :
    hEntLookup (primEntsH es) k = (entLookup es k).map primHVal := by
  induction es with
  | nil => rfl
  | cons e rest ih =>
      by_cases he : e.1 = k
      · simp [primEntsH, hEntLookup, entLookup, he]
      · simp only [primEntsH, List.map_cons, hEntLookup, entLookup, he,
          if_false]
        simpa [primEntsH] using ih

/-- Heap truthiness of a primitive agrees with document truthiness. -/
theorem hTruthy_prim (h : Heap) (v : PyVal) (hp : primVal v = true) :
    hTruthy h (primHVal v) = pyTruthy v := by
  cases v <;> simp [primVal] at hp <;> rfl

/-- Values found in a primitive-valued object are primitive. -/
theorem entLookup_prim_val (es : List (String × PyVal)) (k : String)
    (v : PyVal) (hp : primEnts es = true) (hl : entLookup es k = some v) :
    primVal v = true := by
  induction es with
  | nil => simp [entLookup] at hl
  | cons e rest ih =>
      have hp' : primVal e.2 = true ∧ primEnts rest = true := by
        rw [show primEnts (e :: rest) = (primVal e.2 && primEnts rest) from
          rfl, Bool.and_eq_true] at hp
        exact hp
      by_cases he : e.1 = k
      · simp [entLookup, he] at hl
        exact hl ▸ hp'.1
      · simp [entLookup, he] at hl
        exact ih hp'.2 hl

/-- The keys of a loaded `fields` object are the field names. -/
theorem fieldsObjEnts_keys (fs : List (String × List (String × PyVal))) :
    ∀ base : Nat,
      (fieldsObjEnts base fs).map Prod.fst = fs.map Prod.fst := by
  induction fs with
  | nil => intro base; rfl
  | cons f rest ih =>
      intro base
      simp [fieldsObjEnts, ih]

/-- The `id`-membership test on a loaded `fields` object is the pure
`fieldsHaveId`. -/
theorem fieldsObjEnts_hasId (fs : List (String × List (String × PyVal))) :
    ∀ base : Nat,
      (fieldsObjEnts base fs).any (fun p => p.1 == "id") =
        DSLParser.fieldsHaveId fs := by
  induction fs with
  | nil => intro base; rfl
  | cons f rest ih =>
      intro base
      simp only [fieldsObjEnts, List.any_cons, ih,
        DSLParser.fieldsHaveId]

end PyHeap

namespace PyHeap

open PyVal

/-- The primary-key scan over the loaded field-definition references is
the pure `fieldsHavePk`. -/
theorem hAnyPK_layout (h : Heap) :
    ∀ (fs : List (String × List (String × PyVal))) (base : Nat),
      (∀ i, i < fs.length →
        h.get (base + i) = primEntsH ((fs.getD i ("", [])).2)) →
      fs.all (fun f => primEnts f.2) = true →
      hAnyPrimaryKey h ((fieldsObjEnts base fs).map Prod.snd) =
        .ok (DSLParser.fieldsHavePk fs) := by
  intro fs
  induction fs with
  | nil => intro base hg hp; rfl
  | cons f rest ih =>
      intro base hg hp
      have hp' : primEnts f.2 = true ∧
          rest.all (fun f => primEnts f.2) = true := by
        rw [List.all_cons, Bool.and_eq_true] at hp
        exact hp
      have hg0 : h.get base = primEntsH f.2 := by
        have := hg 0 (by simp)
        simpa using this
      have hgr : ∀ i, i < rest.length →
          h.get (base + 1 + i) = primEntsH ((rest.getD i ("", [])).2) := by
        intro i hi
        have := hg (i + 1) (by simp; omega)
        have harith : base + (i + 1) = base + 1 + i := by omega
        rw [harith] at this
        simpa using this
      have hrec := ih (base + 1) hgr hp'.2
      simp only [fieldsObjEnts, List.map_cons, hAnyPrimaryKey, hDictGet,
        hg0, hEntLookup_prim]
      cases hl : entLookup f.2 "primary_key" with
      | none =>
          simp only [Option.map_none, hTruthy, bind, Except.bind, pure,
            Except.pure, DSLParser.fieldsHavePk, List.any_cons, hl]
          simp [hrec, DSLParser.fieldsHavePk, pyTruthy]
      | some v =>
          have hpv := entLookup_prim_val f.2 "primary_key" v hp'.1 hl
          simp only [Option.map_some, bind, Except.bind,
            hTruthy_prim h v hpv]
          cases ht : pyTruthy v with
          | true =>
              simp [DSLParser.fieldsHavePk, List.any_cons, hl, ht, pure,
                Except.pure, hTruthy_prim h v hpv]
          | false =>
              simp [DSLParser.fieldsHavePk, List.any_cons, hl, ht, hrec,
                DSLParser.fieldsHavePk, hTruthy_prim h v hpv]

/-- Dict assignment with an absent key appends. -/
theorem hEntSet_absent (xs : List (String × HVal)) (k : String) (v : HVal)
    (h : xs.any (fun p => p.1 == k) = false) :
    hEntSet xs k v = xs ++ [(k, v)] := by
  induction xs with
  | nil => rfl
  | cons e rest ih =>
      simp only [List.any_cons, Bool.or_eq_false_iff] at h
      have he : ¬ (e.1 = k) := by
        intro hc
        simp [hc] at h
      simp [hEntSet, he, ih h.2]

end PyHeap

namespace PyHeap

open PyVal

/-- `set` inside the left part of an append. -/
theorem set_append_left {α : Type} (l₁ l₂ : List α) (i : Nat) (x : α)
    (h : i < l₁.length) :
    (l₁ ++ l₂).set i x = l₁.set i x ++ l₂ := by
  induction l₁ generalizing i with
  | nil => simp at h
  | cons a rest ih =>
      cases i with
      | zero => rfl
      | succ j =>
          simp only [List.cons_append, List.set, List.append_eq]
          rw [ih j (by simp at h; omega)]

/-- Reading inside the middle region (right-associated store). -/
theorem get_region2 (pre mid post : List (List (String × HVal)))
    (i : Nat) (h : i < mid.length) :
    Heap.get ⟨pre ++ (mid ++ post)⟩ (pre.length + i) = mid.getD i [] := by
  simp only [Heap.get]
  rw [getD_append_right, getD_append_left _ _ _ _ h]

/-- A field-definition object inside one model block. -/
theorem modelObjs_getD_fdef (base : Nat)
    (fs : List (String × List (String × PyVal))) (i : Nat)
    (h : i < fs.length) :
    (modelObjs base fs).getD i [] = primEntsH ((fs.getD i ("", [])).2) := by
  simp only [modelObjs]
  rw [getD_append_left _ _ _ _ (by simpa using h)]
  exact getD_map_primEntsH fs i h

/-- The `fields` object inside one model block. -/
theorem modelObjs_getD_fields (base : Nat)
    (fs : List (String × List (String × PyVal))) :
    (modelObjs base fs).getD fs.length [] = fieldsObjEnts base fs := by
  simp only [modelObjs]
  have h0 : fs.length = (fs.map (fun f => primEntsH f.2)).length + 0 := by
    simp
  rw [h0, getD_append_right]
  rfl

/-- The model object inside one model block. -/
theorem modelObjs_getD_model (base : Nat)
    (fs : List (String × List (String × PyVal))) :
    (modelObjs base fs).getD (fs.length + 1) [] =
      [("fields", .href (base + fs.length))] := by
  simp only [modelObjs]
  have h0 : fs.length + 1 = (fs.map (fun f => primEntsH f.2)).length + 1 := by
    simp
  rw [h0, getD_append_right]
  rfl

end PyHeap

namespace PyHeap

open PyVal

set_option maxHeartbeats 1000000 in
/-- One pass of the normalizer's loop body on a model block of the
layout: nothing happens when the model has a truthy primary-key flag or a
field named `id`; otherwise the fresh `id` object is appended to the
store and assigned (in place) into the shared `fields` object. -/
theorem normOne_layout
    (pre : List (List (String × HVal)))
    (fs : List (String × List (String × PyVal)))
    (suf : List (List (String × HVal)))
    (hflat : fs.all (fun f => primEnts f.2) = true) :
    normalizeOneModel ⟨pre ++ (modelObjs pre.length fs ++ suf)⟩
        (.href (pre.length + fs.length + 1)) =
      .ok (if DSLParser.fieldsHavePk fs || DSLParser.fieldsHaveId fs then
        ⟨pre ++ (modelObjs pre.length fs ++ suf)⟩
      else
        ⟨pre ++ ((fs.map (fun f => primEntsH f.2) ++
          [fieldsObjEnts pre.length fs ++
             [("id", .href (pre.length + fs.length + 2 + suf.length))],
           [("fields", .href (pre.length + fs.length))]]) ++
          (suf ++ [idObjH]))⟩) := by
  have ha1 : pre.length + fs.length + 1 = pre.length + (fs.length + 1) := by
    omega
  have hgM : Heap.get ⟨pre ++ (modelObjs pre.length fs ++ suf)⟩
      (pre.length + fs.length + 1) =
      [("fields", .href (pre.length + fs.length))] := by
    rw [ha1, get_region2 pre (modelObjs pre.length fs) suf (fs.length + 1)
      (by simp [modelObjs_length]), modelObjs_getD_model]
  have hgF : Heap.get ⟨pre ++ (modelObjs pre.length fs ++ suf)⟩
      (pre.length + fs.length) = fieldsObjEnts pre.length fs := by
    rw [get_region2 pre (modelObjs pre.length fs) suf fs.length
      (by simp [modelObjs_length]), modelObjs_getD_fields]
  have hgD : ∀ i, i < fs.length →
      Heap.get ⟨pre ++ (modelObjs pre.length fs ++ suf)⟩ (pre.length + i) =
        primEntsH ((fs.getD i ("", [])).2) := by
    intro i hi
    rw [get_region2 pre (modelObjs pre.length fs) suf i
      (by simp [modelObjs_length]; omega), modelObjs_getD_fdef _ _ _ hi]
  have hPK := hAnyPK_layout ⟨pre ++ (modelObjs pre.length fs ++ suf)⟩ fs
    pre.length hgD hflat
  simp only [normalizeOneModel, hIn, hgM, hGetItem, hEntLookup, hValues,
    hgF, hPK, fieldsObjEnts_hasId, bind, Except.bind, pure, Except.pure,
    List.any_cons, List.any_nil, if_true, if_false, Bool.not_true,
    Bool.not_false, Bool.false_eq_true, Bool.or_false, Bool.false_or]
  cases hpk : DSLParser.fieldsHavePk fs with
  | true => simp [hpk]
  | false =>
      simp only [hpk, Bool.false_eq_true, if_false, ite_false]
      cases hid : DSLParser.fieldsHaveId fs with
      | true => simp [hid]
      | false =>
          simp only [hid, Bool.false_eq_true, if_false, ite_false]
          rw [show [("type", HVal.hstr "uuid"),
            ("primary_key", HVal.hbool true),
            ("auto_generated", HVal.hbool true)] = idObjH from rfl]
          simp only [Heap.alloc]
          have hlen : (pre ++ (modelObjs pre.length fs ++ suf)).length =
              pre.length + fs.length + 2 + suf.length := by
            simp [modelObjs_length]; omega
          have hassoc : (pre ++ (modelObjs pre.length fs ++ suf)) ++
              [idObjH] =
              pre ++ (modelObjs pre.length fs ++ (suf ++ [idObjH])) := by
            simp [List.append_assoc]
          have hg2 : Heap.get ⟨(pre ++ (modelObjs pre.length fs ++ suf)) ++
              [idObjH]⟩ (pre.length + fs.length) =
              fieldsObjEnts pre.length fs := by
            rw [hassoc, get_region2 pre (modelObjs pre.length fs)
              (suf ++ [idObjH]) fs.length (by simp [modelObjs_length]),
              modelObjs_getD_fields]
          have hnotid : (fieldsObjEnts pre.length fs).any
              (fun p => p.1 == "id") = false := by
            rw [fieldsObjEnts_hasId]; exact hid
          have hg2' : Heap.get ⟨pre ++ (modelObjs pre.length fs ++
              (suf ++ [idObjH]))⟩ (pre.length + fs.length) =
              fieldsObjEnts pre.length fs := by
            rw [get_region2 pre (modelObjs pre.length fs) (suf ++ [idObjH])
              fs.length (by simp [modelObjs_length]), modelObjs_getD_fields]
          simp only [Heap.setObj, hlen, hassoc, hg2',
            hEntSet_absent (fieldsObjEnts pre.length fs) "id" _ hnotid]
          have hsetgoal : (pre ++ (modelObjs pre.length fs ++
              (suf ++ [idObjH]))).set (pre.length + fs.length)
              (fieldsObjEnts pre.length fs ++
                [("id", .href (pre.length + fs.length + 2 + suf.length))]) =
              pre ++ ((fs.map (fun f => primEntsH f.2) ++
                [fieldsObjEnts pre.length fs ++
                   [("id", .href (pre.length + fs.length + 2 + suf.length))],
                 [("fields", .href (pre.length + fs.length))]]) ++
                (suf ++ [idObjH])) := by
            rw [set_append_right pre _ fs.length]
            rw [set_append_left (modelObjs pre.length fs) (suf ++ [idObjH])
              fs.length _ (by simp [modelObjs_length])]
            simp only [modelObjs]
            have h0 : fs.length =
                (fs.map (fun f => primEntsH f.2)).length + 0 := by simp
            rw [h0, set_append_right]
            simp
          rw [hsetgoal]
          simp

end PyHeap

namespace PyHeap

open PyVal

/-- The normalizer's model loop on the layout: processed left to right,
each model either is left alone or has the fresh `id` object assigned
into its shared `fields` object; `normFinal` is the resulting store. -/
theorem normLoop :
    ∀ (ms : List (String × TModel)),
      ms.all (fun m => flatModel m.2) = true →
      ∀ (pre post : List (List (String × HVal))),
        normalizeModelsHeap ⟨pre ++ (modelsObjs pre.length ms ++ post)⟩
          (modelsDictEnts pre.length ms) = .ok ⟨normFinal pre ms post⟩ := by
  intro ms
  induction ms with
  | nil =>
      intro _ pre post
      simp [modelsObjs, modelsDictEnts, normalizeModelsHeap, normFinal]
  | cons m rest ih =>
      intro hms pre post
      have hm' : flatModel m.2 = true ∧
          rest.all (fun m => flatModel m.2) = true := by
        rw [List.all_cons, Bool.and_eq_true] at hms
        exact hms
      have hfs : m.2.fields.all (fun f => primEnts f.2) = true := by
        have := hm'.1
        rw [show flatModel m.2 = (m.2.attrs.isEmpty &&
          m.2.fields.all (fun f => primEnts f.2)) from rfl,
          Bool.and_eq_true] at this
        exact this.2
      have hone := normOne_layout pre m.2.fields
        (modelsObjs (pre.length + m.2.fields.length + 2) rest ++ post) hfs
      simp only [modelsObjs, modelsDictEnts, normalizeModelsHeap, bind,
        Except.bind]
      rw [show pre ++ (modelObjs pre.length m.2.fields ++
          modelsObjs (pre.length + m.2.fields.length + 2) rest ++ post) =
        pre ++ (modelObjs pre.length m.2.fields ++
          (modelsObjs (pre.length + m.2.fields.length + 2) rest ++ post))
        from by simp [List.append_assoc]]
      rw [hone]
      cases hcond : (DSLParser.fieldsHavePk m.2.fields ||
          DSLParser.fieldsHaveId m.2.fields) with
      | true =>
          simp only [hcond, if_true, ite_true]
          have hpre := ih hm'.2 (pre ++ modelObjs pre.length m.2.fields)
            post
          have hl1 : (pre ++ modelObjs pre.length m.2.fields).length =
              pre.length + m.2.fields.length + 2 := by
            simp [modelObjs_length]; omega
          rw [hl1] at hpre
          simp only [List.append_assoc] at hpre ⊢
          rw [hpre]
          simp only [normFinal, hcond, if_true, ite_true]
      | false =>
          simp only [hcond, Bool.false_eq_true, if_false, ite_false]
          have hpre := ih hm'.2
            (pre ++ (m.2.fields.map (fun f => primEntsH f.2) ++
              [fieldsObjEnts pre.length m.2.fields ++
                 [("id", HVal.href (pre.length + m.2.fields.length + 2 +
                   (modelsObjs (pre.length + m.2.fields.length + 2) rest ++
                     post).length))],
               [("fields", HVal.href (pre.length + m.2.fields.length))]]))
            (post ++ [idObjH])
          have hl1 : (pre ++ (m.2.fields.map (fun f => primEntsH f.2) ++
              [fieldsObjEnts pre.length m.2.fields ++
                 [("id", HVal.href (pre.length + m.2.fields.length + 2 +
                   (modelsObjs (pre.length + m.2.fields.length + 2) rest ++
                     post).length))],
               [("fields", HVal.href (pre.length +
                 m.2.fields.length))]])).length =
              pre.length + m.2.fields.length + 2 := by
            simp
            omega
          rw [hl1] at hpre
          simp only [List.append_assoc] at hpre ⊢
          rw [hpre]
          simp only [normFinal, hcond, Bool.false_eq_true, if_false,
            ite_false]
          simp [modelsObjs_length]
          rw [show pre.length + m.2.fields.length + 2 +
              (sizeModels rest + post.length) =
            pre.length + m.2.fields.length + 2 + sizeModels rest +
              post.length from by omega]

end PyHeap

namespace PyHeap

open PyVal

/-- The final store in closed form: the updated model region in place,
then the untouched suffix, then the fresh `id` objects. -/
theorem normFinal_eq :
    ∀ (ms : List (String × TModel)) (pre post : List (List (String × HVal))),
      normFinal pre ms post =
        pre ++ updObjs pre.length
          (pre.length + sizeModels ms + post.length) ms ++ post ++
          List.replicate (injCount ms) idObjH := by
  intro ms
  induction ms with
  | nil =>
      intro pre post
      simp [normFinal, updObjs, injCount, sizeModels]
  | cons m rest ih =>
      intro pre post
      cases hcond : (DSLParser.fieldsHavePk m.2.fields ||
          DSLParser.fieldsHaveId m.2.fields) with
      | true =>
          simp only [normFinal, hcond, if_true, ite_true]
          rw [ih (pre ++ modelObjs pre.length m.2.fields) post]
          simp only [updObjs, hcond, if_true, ite_true, injCount,
            sizeModels, List.length_append, modelObjs_length]
          rw [show pre.length + (m.2.fields.length + 2) =
            pre.length + m.2.fields.length + 2 from by omega]
          rw [show pre.length + m.2.fields.length + 2 + sizeModels rest +
              post.length =
            pre.length + (m.2.fields.length + 2 + sizeModels rest) +
              post.length from by omega]
          simp [List.append_assoc]
      | false =>
          simp only [normFinal, hcond, Bool.false_eq_true, if_false,
            ite_false]
          rw [ih _ (post ++ [idObjH])]
          simp only [updObjs, hcond, Bool.false_eq_true, if_false,
            ite_false, injCount, sizeModels, List.length_append,
            List.length_cons, List.length_map, List.length_nil]
          rw [show pre.length + (m.2.fields.length + (0 + 1 + 1)) =
            pre.length + m.2.fields.length + 2 from by omega]
          rw [show pre.length + m.2.fields.length + 2 + sizeModels rest +
              (post.length + 1) =
            pre.length + (m.2.fields.length + 2 + sizeModels rest) +
              post.length + 1 from by omega]
          rw [show (1 + injCount rest) = injCount rest + 1 from by omega]
          simp [List.append_assoc, List.replicate_succ]
          omega

end PyHeap

namespace PyHeap

open PyVal

/-- One step of `deepRead` on a reference. -/
theorem deepRead_href (h : Heap) (fuel : Nat) (a : Nat) :
    deepRead h (fuel + 1) (.href a) =
      (optMapEnts (deepRead h fuel) (h.get a)).map .pdict := rfl

/-- Partial readers distribute over appended entry lists. -/
theorem optMapEnts_append (f : HVal → Option PyVal)
    (a b : List (String × HVal)) (x y : List (String × PyVal))
    (ha : optMapEnts f a = some x) (hb : optMapEnts f b = some y) :
    optMapEnts f (a ++ b) = some (x ++ y) := by
  induction a generalizing x with
  | nil =>
      simp only [optMapEnts, Option.some.injEq] at ha
      subst ha
      simpa using hb
  | cons e rest ih =>
      obtain ⟨k, v⟩ := e
      simp only [optMapEnts] at ha
      cases hfv : f v with
      | none => rw [hfv] at ha; simp at ha
      | some w =>
          rw [hfv] at ha
          cases hrest : optMapEnts f rest with
          | none => rw [hrest] at ha; simp at ha
          | some ws =>
              rw [hrest] at ha
              simp only [Option.some.injEq] at ha
              subst ha
              simp only [List.cons_append, List.append_eq, optMapEnts,
                hfv, ih ws hrest]

/-- Reading an untouched `fields` object back. -/
theorem readFields (h : Heap) :
    ∀ (fs : List (String × List (String × PyVal))) (base : Nat),
      (∀ i, i < fs.length →
        h.get (base + i) = primEntsH ((fs.getD i ("", [])).2)) →
      fs.all (fun f => primEnts f.2) = true →
      ∀ fuel, optMapEnts (deepRead h (fuel + 2)) (fieldsObjEnts base fs) =
        some (fs.map (fun f => (f.1, PyVal.pdict f.2))) := by
  intro fs
  induction fs with
  | nil => intro base _ _ fuel; rfl
  | cons f rest ih =>
      intro base hg hp fuel
      have hp' : primEnts f.2 = true ∧
          rest.all (fun f => primEnts f.2) = true := by
        rw [List.all_cons, Bool.and_eq_true] at hp
        exact hp
      have hg0 : h.get base = primEntsH f.2 := by
        have := hg 0 (by simp)
        simpa using this
      have hgr : ∀ i, i < rest.length →
          h.get (base + 1 + i) = primEntsH ((rest.getD i ("", [])).2) := by
        intro i hi
        have := hg (i + 1) (by simp; omega)
        rw [show base + (i + 1) = base + 1 + i from by omega] at this
        simpa using this
      have hrec := ih (base + 1) hgr hp'.2 fuel
      have hhead : deepRead h (fuel + 2) (.href base) =
          some (.pdict f.2) := by
        rw [show fuel + 2 = fuel + 1 + 1 from rfl, deepRead_href,
          hg0, optMapEnts_prim h fuel f.2 hp'.1]
        rfl
      simp only [fieldsObjEnts, optMapEnts, hhead, hrec, List.map_cons]

end PyHeap

namespace PyHeap

open PyVal

/-- getD facts for the injected model block: field definitions. -/
theorem injBlock_getD_fdef (base idAddr : Nat)
    (fs : List (String × List (String × PyVal))) (i : Nat)
    (h : i < fs.length) :
    ((fs.map (fun f => primEntsH f.2) ++
      [fieldsObjEnts base fs ++ [("id", HVal.href idAddr)],
       [("fields", HVal.href (base + fs.length))]])).getD i [] =
      primEntsH ((fs.getD i ("", [])).2) := by
  rw [getD_append_left _ _ _ _ (by simpa using h)]
  exact getD_map_primEntsH fs i h

/-- getD facts for the injected model block: the mutated `fields`. -/
theorem injBlock_getD_fields (base idAddr : Nat)
    (fs : List (String × List (String × PyVal))) :
    ((fs.map (fun f => primEntsH f.2) ++
      [fieldsObjEnts base fs ++ [("id", HVal.href idAddr)],
       [("fields", HVal.href (base + fs.length))]])).getD fs.length [] =
      fieldsObjEnts base fs ++ [("id", HVal.href idAddr)] := by
  have h0 : fs.length = (fs.map (fun f => primEntsH f.2)).length + 0 := by
    simp
  rw [h0, getD_append_right]
  rfl

/-- getD facts for the injected model block: the model object. -/
theorem injBlock_getD_model (base idAddr : Nat)
    (fs : List (String × List (String × PyVal))) :
    ((fs.map (fun f => primEntsH f.2) ++
      [fieldsObjEnts base fs ++ [("id", HVal.href idAddr)],
       [("fields", HVal.href (base + fs.length))]])).getD
        (fs.length + 1) [] =
      [("fields", HVal.href (base + fs.length))] := by
  have h0 : fs.length + 1 = (fs.map (fun f => primEntsH f.2)).length + 1 := by
    simp
  rw [h0, getD_append_right]
  rfl

/-- Reading one untouched model back. -/
theorem readOneModel_noinj (h : Heap)
    (fs : List (String × List (String × PyVal))) (base : Nat)
    (hgM : h.get (base + fs.length + 1) =
      [("fields", HVal.href (base + fs.length))])
    (hgF : h.get (base + fs.length) = fieldsObjEnts base fs)
    (hgD : ∀ i, i < fs.length →
      h.get (base + i) = primEntsH ((fs.getD i ("", [])).2))
    (hp : fs.all (fun f => primEnts f.2) = true) :
    deepRead h 4 (.href (base + fs.length + 1)) =
      some (.pdict [("fields",
        .pdict (fs.map (fun f => (f.1, PyVal.pdict f.2))))]) := by
  have hfld : deepRead h 3 (.href (base + fs.length)) =
      some (.pdict (fs.map (fun f => (f.1, PyVal.pdict f.2)))) := by
    rw [show (3 : Nat) = 2 + 1 from rfl, deepRead_href, hgF,
      show (2 : Nat) = 0 + 2 from rfl, readFields h fs base hgD hp 0]
    rfl
  rw [show (4 : Nat) = 3 + 1 from rfl, deepRead_href, hgM]
  simp only [optMapEnts, hfld]
  rfl

/-- Reading one injected model back: the caller sees the synthetic `id`
field appended to the shared `fields` mapping. -/
theorem readOneModel_inj (h : Heap)
    (fs : List (String × List (String × PyVal))) (base idAddr : Nat)
    (hgM : h.get (base + fs.length + 1) =
      [("fields", HVal.href (base + fs.length))])
    (hgF : h.get (base + fs.length) =
      fieldsObjEnts base fs ++ [("id", HVal.href idAddr)])
    (hgD : ∀ i, i < fs.length →
      h.get (base + i) = primEntsH ((fs.getD i ("", [])).2))
    (hgId : h.get idAddr = idObjH)
    (hp : fs.all (fun f => primEnts f.2) = true) :
    deepRead h 4 (.href (base + fs.length + 1)) =
      some (.pdict [("fields",
        .pdict (fs.map (fun f => (f.1, PyVal.pdict f.2)) ++
          [("id", PyVal.pdict DSLParser.idFieldEntries)]))]) := by
  have hidrd : optMapEnts (deepRead h 2) [("id", HVal.href idAddr)] =
      some [("id", PyVal.pdict DSLParser.idFieldEntries)] := by
    have hread : deepRead h 2 (.href idAddr) =
        some (.pdict DSLParser.idFieldEntries) := by
      rw [show (2 : Nat) = 1 + 1 from rfl, deepRead_href, hgId,
        show idObjH = primEntsH DSLParser.idFieldEntries from rfl,
        optMapEnts_prim h 0 DSLParser.idFieldEntries rfl]
      rfl
    simp [optMapEnts, hread]
  have hfld : deepRead h 3 (.href (base + fs.length)) =
      some (.pdict (fs.map (fun f => (f.1, PyVal.pdict f.2)) ++
        [("id", PyVal.pdict DSLParser.idFieldEntries)])) := by
    rw [show (3 : Nat) = 2 + 1 from rfl, deepRead_href, hgF]
    rw [optMapEnts_append (deepRead h 2) _ _ _ _
      (by rw [show (2 : Nat) = 0 + 2 from rfl]
          exact readFields h fs base hgD hp 0)
      hidrd]
    rfl
  rw [show (4 : Nat) = 3 + 1 from rfl, deepRead_href, hgM]
  simp only [optMapEnts, hfld]
  rfl

end PyHeap

namespace PyHeap

open PyVal

/-- Reading the whole model region of the final store back: every model
shows the injected `id` definition exactly when it had no primary-key
flag and no `id` field. -/
theorem readModels (h : Heap) :
    ∀ (ms : List (String × TModel)) (base idAddr : Nat),
      (∀ i, i < sizeModels ms →
        h.get (base + i) = (updObjs base idAddr ms).getD i []) →
      (∀ k, k < injCount ms → h.get (idAddr + k) = idObjH) →
      ms.all (fun m => flatModel m.2) = true →
      optMapEnts (deepRead h 4) (modelsDictEnts base ms) =
        some (ms.map (fun m =>
          (m.1, (DSLParser.injectModel m.2).toVal))) := by
  intro ms
  induction ms with
  | nil => intro base idAddr _ _ _; rfl
  | cons m rest ih =>
      intro base idAddr hg hid hflat
      have hm' : flatModel m.2 = true ∧
          rest.all (fun m => flatModel m.2) = true := by
        rw [List.all_cons, Bool.and_eq_true] at hflat
        exact hflat
      have hattrs : m.2.attrs = [] := by
        have := hm'.1
        rw [show flatModel m.2 = (m.2.attrs.isEmpty &&
          m.2.fields.all (fun f => primEnts f.2)) from rfl,
          Bool.and_eq_true] at this
        cases hh : m.2.attrs with
        | nil => rfl
        | cons a r => rw [hh] at this; simp [List.isEmpty] at this
      have hfsp : m.2.fields.all (fun f => primEnts f.2) = true := by
        have := hm'.1
        rw [show flatModel m.2 = (m.2.attrs.isEmpty &&
          m.2.fields.all (fun f => primEnts f.2)) from rfl,
          Bool.and_eq_true] at this
        exact this.2
      cases hcond : (DSLParser.fieldsHavePk m.2.fields ||
          DSLParser.fieldsHaveId m.2.fields) with
      | true =>
          have hup : updObjs base idAddr (m :: rest) =
              modelObjs base m.2.fields ++
                updObjs (base + m.2.fields.length + 2) idAddr rest := by
            simp [updObjs, hcond]
          have hgB : ∀ i, i < m.2.fields.length + 2 →
              h.get (base + i) = (modelObjs base m.2.fields).getD i [] := by
            intro i hi
            rw [hg i (by simp [sizeModels]; omega), hup,
              getD_append_left _ _ _ _ (by simp [modelObjs_length]; omega)]
          have hgtail : ∀ i, i < sizeModels rest →
              h.get (base + m.2.fields.length + 2 + i) =
                (updObjs (base + m.2.fields.length + 2) idAddr rest).getD
                  i [] := by
            intro i hi
            have := hg (m.2.fields.length + 2 + i)
              (by simp [sizeModels]; omega)
            rw [hup, show base + (m.2.fields.length + 2 + i) =
              base + m.2.fields.length + 2 + i from by omega] at this
            rw [this]
            rw [show m.2.fields.length + 2 + i =
              (modelObjs base m.2.fields).length + i from by
                simp [modelObjs_length]]
            rw [getD_append_right]
          have hidtail : ∀ k, k < injCount rest →
              h.get (idAddr + k) = idObjH := by
            intro k hk
            exact hid k (by simp [injCount, hcond]; omega)
          have hrec := ih (base + m.2.fields.length + 2) idAddr hgtail
            hidtail hm'.2
          have hone := readOneModel_noinj h m.2.fields base
            (by rw [show base + m.2.fields.length + 1 =
                base + (m.2.fields.length + 1) from by omega,
              hgB (m.2.fields.length + 1) (by omega),
              modelObjs_getD_model])
            (by rw [show base + m.2.fields.length =
                base + (m.2.fields.length) from rfl,
              hgB m.2.fields.length (by omega),
              modelObjs_getD_fields])
            (fun i hi => by rw [hgB i (by omega),
              modelObjs_getD_fdef base m.2.fields i hi])
            hfsp
          simp only [modelsDictEnts, optMapEnts, List.map_cons]
          simp only [hone, hrec]
          have hinj : DSLParser.injectModel m.2 = m.2 := by
            simp [DSLParser.injectModel, hcond]
          rw [hinj]
          have htv : m.2.toVal = PyVal.pdict [("fields",
              PyVal.pdict (m.2.fields.map
                (fun f => (f.1, PyVal.pdict f.2))))] := by
            rw [TModel.toVal, hattrs]
          rw [htv]
      | false =>
          have hup : updObjs base idAddr (m :: rest) =
              (m.2.fields.map (fun f => primEntsH f.2) ++
               [fieldsObjEnts base m.2.fields ++
                  [("id", HVal.href idAddr)],
                [("fields", HVal.href (base + m.2.fields.length))]]) ++
                updObjs (base + m.2.fields.length + 2) (idAddr + 1) rest := by
            simp [updObjs, hcond]
          have hblen : (m.2.fields.map (fun f => primEntsH f.2) ++
              [fieldsObjEnts base m.2.fields ++
                 [("id", HVal.href idAddr)],
               [("fields", HVal.href (base + m.2.fields.length))]]).length =
              m.2.fields.length + 2 := by
            simp
          have hgB : ∀ i, i < m.2.fields.length + 2 →
              h.get (base + i) =
                (m.2.fields.map (fun f => primEntsH f.2) ++
                 [fieldsObjEnts base m.2.fields ++
                    [("id", HVal.href idAddr)],
                  [("fields", HVal.href (base + m.2.fields.length))]]).getD
                  i [] := by
            intro i hi
            rw [hg i (by simp [sizeModels]; omega), hup,
              getD_append_left _ _ _ _ (by rw [hblen]; omega)]
          have hgtail : ∀ i, i < sizeModels rest →
              h.get (base + m.2.fields.length + 2 + i) =
                (updObjs (base + m.2.fields.length + 2) (idAddr + 1)
                  rest).getD i [] := by
            intro i hi
            have := hg (m.2.fields.length + 2 + i)
              (by simp [sizeModels]; omega)
            rw [hup, show base + (m.2.fields.length + 2 + i) =
              base + m.2.fields.length + 2 + i from by omega] at this
            rw [this]
            rw [show m.2.fields.length + 2 + i =
              (m.2.fields.map (fun f => primEntsH f.2) ++
               [fieldsObjEnts base m.2.fields ++
                  [("id", HVal.href idAddr)],
                [("fields", HVal.href (base + m.2.fields.length))]]).length
                + i from by rw [hblen]]
            rw [getD_append_right]
          have hidtail : ∀ k, k < injCount rest →
              h.get (idAddr + 1 + k) = idObjH := by
            intro k hk
            have := hid (1 + k) (by simp [injCount, hcond]; omega)
            rw [show idAddr + (1 + k) = idAddr + 1 + k from by omega] at this
            exact this
          have hrec := ih (base + m.2.fields.length + 2) (idAddr + 1)
            hgtail hidtail hm'.2
          have hone := readOneModel_inj h m.2.fields base idAddr
            (by rw [show base + m.2.fields.length + 1 =
                base + (m.2.fields.length + 1) from by omega,
              hgB (m.2.fields.length + 1) (by omega),
              injBlock_getD_model])
            (by rw [show base + m.2.fields.length =
                base + (m.2.fields.length) from rfl,
              hgB m.2.fields.length (by omega),
              injBlock_getD_fields])
            (fun i hi => by rw [hgB i (by omega),
              injBlock_getD_fdef base idAddr m.2.fields i hi])
            (by have := hid 0 (by simp [injCount, hcond])
                simpa using this)
            hfsp
          simp only [modelsDictEnts, optMapEnts, List.map_cons]
          simp only [hone, hrec]
          have hinj : DSLParser.injectModel m.2 =
              ⟨m.2.attrs, m.2.fields ++
                [("id", DSLParser.idFieldEntries)]⟩ := by
            simp [DSLParser.injectModel, hcond]
          rw [hinj]
          have htv : (TModel.mk m.2.attrs (m.2.fields ++
              [("id", DSLParser.idFieldEntries)])).toVal =
              PyVal.pdict [("fields",
              PyVal.pdict (m.2.fields.map (fun f => (f.1, PyVal.pdict f.2)) ++
                [("id", PyVal.pdict DSLParser.idFieldEntries)]))] := by
            rw [TModel.toVal, hattrs]
            simp
          rw [htv]

end PyHeap

namespace PyHeap

open PyVal

/-- `Heap.get` skips the head object. -/
theorem get_cons_succ (x : List (String × HVal))
    (t : List (List (String × HVal))) (i : Nat) :
    Heap.get ⟨x :: t⟩ (i + 1) = Heap.get ⟨t⟩ i := by
  simp [Heap.get]

/-- `Heap.get` at the head object. -/
theorem get_cons_zero (x : List (String × HVal))
    (t : List (List (String × HVal))) :
    Heap.get ⟨x :: t⟩ 0 = x := rfl

/-- Reading the model region of the untouched layout back. -/
theorem readModelsOrig (h : Heap) :
    ∀ (ms : List (String × TModel)) (base : Nat),
      (∀ i, i < sizeModels ms →
        h.get (base + i) = (modelsObjs base ms).getD i []) →
      ms.all (fun m => flatModel m.2) = true →
      optMapEnts (deepRead h 4) (modelsDictEnts base ms) =
        some (ms.map (fun m => (m.1, m.2.toVal))) := by
  intro ms
  induction ms with
  | nil => intro base _ _; rfl
  | cons m rest ih =>
      intro base hg hflat
      have hm' : flatModel m.2 = true ∧
          rest.all (fun m => flatModel m.2) = true := by
        rw [List.all_cons, Bool.and_eq_true] at hflat
        exact hflat
      have hattrs : m.2.attrs = [] := by
        have := hm'.1
        rw [show flatModel m.2 = (m.2.attrs.isEmpty &&
          m.2.fields.all (fun f => primEnts f.2)) from rfl,
          Bool.and_eq_true] at this
        cases hh : m.2.attrs with
        | nil => rfl
        | cons a r => rw [hh] at this; simp [List.isEmpty] at this
      have hfsp : m.2.fields.all (fun f => primEnts f.2) = true := by
        have := hm'.1
        rw [show flatModel m.2 = (m.2.attrs.isEmpty &&
          m.2.fields.all (fun f => primEnts f.2)) from rfl,
          Bool.and_eq_true] at this
        exact this.2
      have hup : modelsObjs base (m :: rest) =
          modelObjs base m.2.fields ++
            modelsObjs (base + m.2.fields.length + 2) rest := by
        simp [modelsObjs]
      have hgB : ∀ i, i < m.2.fields.length + 2 →
          h.get (base + i) = (modelObjs base m.2.fields).getD i [] := by
        intro i hi
        rw [hg i (by simp [sizeModels]; omega), hup,
          getD_append_left _ _ _ _ (by simp [modelObjs_length]; omega)]
      have hgtail : ∀ i, i < sizeModels rest →
          h.get (base + m.2.fields.length + 2 + i) =
            (modelsObjs (base + m.2.fields.length + 2) rest).getD i [] := by
        intro i hi
        have := hg (m.2.fields.length + 2 + i)
          (by simp [sizeModels]; omega)
        rw [hup, show base + (m.2.fields.length + 2 + i) =
          base + m.2.fields.length + 2 + i from by omega] at this
        rw [this]
        rw [show m.2.fields.length + 2 + i =
          (modelObjs base m.2.fields).length + i from by
            simp [modelObjs_length]]
        rw [getD_append_right]
      have hrec := ih (base + m.2.fields.length + 2) hgtail hm'.2
      have hone := readOneModel_noinj h m.2.fields base
        (by rw [show base + m.2.fields.length + 1 =
            base + (m.2.fields.length + 1) from by omega,
          hgB (m.2.fields.length + 1) (by omega),
          modelObjs_getD_model])
        (by rw [show base + m.2.fields.length =
            base + (m.2.fields.length) from rfl,
          hgB m.2.fields.length (by omega),
          modelObjs_getD_fields])
        (fun i hi => by rw [hgB i (by omega),
          modelObjs_getD_fdef base m.2.fields i hi])
        hfsp
      simp only [modelsDictEnts, optMapEnts, List.map_cons]
      simp only [hone, hrec]
      have htv : m.2.toVal = PyVal.pdict [("fields",
          PyVal.pdict (m.2.fields.map
            (fun f => (f.1, PyVal.pdict f.2))))] := by
        rw [TModel.toVal, hattrs]
      rw [htv]

end PyHeap

namespace PyHeap

open PyVal

/-- Before the normalizer runs, the caller's reference denotes the
original document. -/
theorem readSpecOrig (s : TSpec) (hs : flatSpec s = true) :
    deepRead ⟨specObjs s⟩ 6 (.href (2 + sizeModels s.models)) =
      some s.toVal := by
  have hs' : primEnts s.meta = true ∧ s.extra.isEmpty = true ∧
      s.models.all (fun m => flatModel m.2) = true := by
    rw [show flatSpec s = (primEnts s.meta && (s.extra.isEmpty &&
      s.models.all (fun m => flatModel m.2))) from by
        rw [flatSpec, Bool.and_assoc], Bool.and_eq_true,
      Bool.and_eq_true] at hs
    exact ⟨hs.1, hs.2.1, hs.2.2⟩
  have hextra : s.extra = [] := by
    cases hh : s.extra with
    | nil => rfl
    | cons a r =>
        rw [hh] at hs'
        simp [List.isEmpty] at hs'
  have hform : specObjs s = primEntsH s.meta ::
      (modelsObjs 1 s.models ++
        [modelsDictEnts 1 s.models, rootEnts s]) := rfl
  have hgmeta : Heap.get ⟨specObjs s⟩ 0 = primEntsH s.meta := rfl
  have hgroot : Heap.get ⟨specObjs s⟩ (2 + sizeModels s.models) =
      rootEnts s := by
    rw [show 2 + sizeModels s.models =
      (1 + sizeModels s.models) + 1 from by omega, hform, get_cons_succ]
    simp only [Heap.get]
    rw [show 1 + sizeModels s.models =
      (modelsObjs 1 s.models).length + 1 from by
        rw [modelsObjs_length]; omega, getD_append_right]
    rfl
  have hgdict : Heap.get ⟨specObjs s⟩ (1 + sizeModels s.models) =
      modelsDictEnts 1 s.models := by
    rw [show 1 + sizeModels s.models = sizeModels s.models + 1 from by
      omega, hform, get_cons_succ]
    simp only [Heap.get]
    rw [show sizeModels s.models =
      (modelsObjs 1 s.models).length + 0 from by
        rw [modelsObjs_length]; omega, getD_append_right]
    rfl
  have hgmodels : ∀ i, i < sizeModels s.models →
      Heap.get ⟨specObjs s⟩ (1 + i) = (modelsObjs 1 s.models).getD i [] := by
    intro i hi
    rw [show 1 + i = i + 1 from by omega, hform, get_cons_succ]
    simp only [Heap.get]
    rw [getD_append_left _ _ _ _ (by rw [modelsObjs_length]; omega)]
  have hmetaRead : deepRead ⟨specObjs s⟩ 5 (.href 0) =
      some (.pdict s.meta) := by
    rw [show (5 : Nat) = 4 + 1 from rfl, deepRead_href, hgmeta,
      show (4 : Nat) = 3 + 1 from rfl,
      optMapEnts_prim _ 3 _ hs'.1]
    rfl
  have hmodelsRead : deepRead ⟨specObjs s⟩ 5
      (.href (1 + sizeModels s.models)) =
      some (.pdict (s.models.map (fun m => (m.1, m.2.toVal)))) := by
    rw [show (5 : Nat) = 4 + 1 from rfl, deepRead_href, hgdict,
      readModelsOrig ⟨specObjs s⟩ s.models 1 hgmodels hs'.2.2]
    rfl
  rw [show (6 : Nat) = 5 + 1 from rfl, deepRead_href, hgroot]
  simp only [rootEnts, optMapEnts, hmetaRead, hmodelsRead]
  rw [TSpec.toVal, hextra]
  rfl

end PyHeap

namespace PyHeap

open PyVal

set_option maxHeartbeats 1000000 in
/-- After the normalizer runs, the caller's ORIGINAL reference denotes
the injected document: the mutation of the shared nested `fields` dicts
is visible to the caller. -/
theorem deepRead_final (s : TSpec) (hs : flatSpec s = true) :
    deepRead ⟨normFinal [primEntsH s.meta] s.models
        [modelsDictEnts 1 s.models, rootEnts s, rootEnts s]⟩ 6
      (.href (2 + sizeModels s.models)) =
      some ((DSLParser.injectSpec s).toVal) := by
  have hs' : primEnts s.meta = true ∧ s.extra.isEmpty = true ∧
      s.models.all (fun m => flatModel m.2) = true := by
    rw [show flatSpec s = (primEnts s.meta && (s.extra.isEmpty &&
      s.models.all (fun m => flatModel m.2))) from by
        rw [flatSpec, Bool.and_assoc], Bool.and_eq_true,
      Bool.and_eq_true] at hs
    exact ⟨hs.1, hs.2.1, hs.2.2⟩
  have hextra : s.extra = [] := by
    cases hh : s.extra with
    | nil => rfl
    | cons a r =>
        rw [hh] at hs'
        simp [List.isEmpty] at hs'
  have hform : normFinal [primEntsH s.meta] s.models
      [modelsDictEnts 1 s.models, rootEnts s, rootEnts s] =
      primEntsH s.meta ::
        (updObjs 1 (sizeModels s.models + 4) s.models ++
          ([modelsDictEnts 1 s.models, rootEnts s, rootEnts s] ++
            List.replicate (injCount s.models) idObjH)) := by
    rw [normFinal_eq]
    simp [List.append_assoc]
    rw [show 1 + sizeModels s.models + 3 =
      sizeModels s.models + 4 from by omega]
  set F : Heap := ⟨normFinal [primEntsH s.meta] s.models
    [modelsDictEnts 1 s.models, rootEnts s, rootEnts s]⟩ with hF
  have hUlen : (updObjs 1 (sizeModels s.models + 4) s.models).length =
      sizeModels s.models := updObjs_length _ _ _
  have hgmeta : F.get 0 = primEntsH s.meta := by
    rw [hF]
    simp only [hform]
    rfl
  have hgroot : F.get (2 + sizeModels s.models) = rootEnts s := by
    rw [hF]
    simp only [hform]
    rw [show 2 + sizeModels s.models =
      (1 + sizeModels s.models) + 1 from by omega, get_cons_succ]
    simp only [Heap.get]
    have h1 := getD_append_right
      (updObjs 1 (sizeModels s.models + 4) s.models)
      ([modelsDictEnts 1 s.models, rootEnts s, rootEnts s] ++
        List.replicate (injCount s.models) idObjH)
      ([] : List (String × HVal)) 1
    rw [hUlen] at h1
    rw [show sizeModels s.models + 1 = 1 + sizeModels s.models from by
      omega] at h1
    rw [h1]
    rfl
  have hgdict : F.get (1 + sizeModels s.models) =
      modelsDictEnts 1 s.models := by
    rw [hF]
    simp only [hform]
    rw [show 1 + sizeModels s.models = sizeModels s.models + 1 from by
      omega, get_cons_succ]
    simp only [Heap.get]
    have h1 := getD_append_right
      (updObjs 1 (sizeModels s.models + 4) s.models)
      ([modelsDictEnts 1 s.models, rootEnts s, rootEnts s] ++
        List.replicate (injCount s.models) idObjH)
      ([] : List (String × HVal)) 0
    simp only [hUlen, Nat.add_zero] at h1
    rw [h1]
    rfl
  have hgmodels : ∀ i, i < sizeModels s.models →
      F.get (1 + i) =
        (updObjs 1 (sizeModels s.models + 4) s.models).getD i [] := by
    intro i hi
    rw [hF]
    simp only [hform]
    rw [show 1 + i = i + 1 from by omega, get_cons_succ]
    simp only [Heap.get]
    rw [getD_append_left _ _ _ _ (by rw [hUlen]; omega)]
  have hgid : ∀ k, k < injCount s.models →
      F.get (sizeModels s.models + 4 + k) = idObjH := by
    intro k hk
    rw [hF]
    simp only [hform]
    rw [show sizeModels s.models + 4 + k =
      (sizeModels s.models + 3 + k) + 1 from by omega, get_cons_succ]
    simp only [Heap.get]
    have h1 := getD_append_right
      (updObjs 1 (sizeModels s.models + 4) s.models)
      ([modelsDictEnts 1 s.models, rootEnts s, rootEnts s] ++
        List.replicate (injCount s.models) idObjH)
      ([] : List (String × HVal)) (3 + k)
    rw [hUlen] at h1
    rw [show sizeModels s.models + (3 + k) =
      sizeModels s.models + 3 + k from by omega] at h1
    rw [h1]
    have h2 := getD_append_right
      ([modelsDictEnts 1 s.models, rootEnts s, rootEnts s] :
        List (List (String × HVal)))
      (List.replicate (injCount s.models) idObjH)
      ([] : List (String × HVal)) k
    simp only [List.length_cons, List.length_nil] at h2
    rw [show (3 : Nat) + k = 0 + 1 + 1 + 1 + k from by omega, h2]
    exact getD_replicate _ _ _ _ hk
  have hmetaRead : deepRead F 5 (.href 0) = some (.pdict s.meta) := by
    rw [show (5 : Nat) = 4 + 1 from rfl, deepRead_href, hgmeta,
      show (4 : Nat) = 3 + 1 from rfl,
      optMapEnts_prim _ 3 _ hs'.1]
    rfl
  have hmodelsRead : deepRead F 5 (.href (1 + sizeModels s.models)) =
      some (.pdict (s.models.map (fun m =>
        (m.1, (DSLParser.injectModel m.2).toVal)))) := by
    rw [show (5 : Nat) = 4 + 1 from rfl, deepRead_href, hgdict,
      readModels F s.models 1 (sizeModels s.models + 4) hgmodels
        hgid hs'.2.2]
    rfl
  rw [show (6 : Nat) = 5 + 1 from rfl, deepRead_href, hgroot]
  simp only [rootEnts, optMapEnts, hmetaRead, hmodelsRead]
  rw [show DSLParser.injectSpec s =
    ⟨s.meta, s.models.map (fun m => (m.1, DSLParser.injectModel m.2)),
      s.extra⟩ from rfl, TSpec.toVal, hextra]
  simp [List.map_map, Function.comp_def]

end PyHeap

namespace PyHeap

open PyVal

/-- Length of the loaded layout. -/
theorem specObjs_length (s : TSpec) :
    (specObjs s).length = sizeModels s.models + 3 := by
  simp [specObjs, modelsObjs_length]

set_option maxHeartbeats 1000000 in
/-- `_normalize_spec` on the loaded layout: the top-level dict is copied,
`meta` is present so no default is written, and the model loop mutates
the shared nested objects, yielding exactly `normFinal`'s store; the
returned reference is the copy, while the caller still holds the
original root. -/
theorem normalizeSpec_layout (s : TSpec) (hs : flatSpec s = true) :
    normalizeSpecHeap ⟨specObjs s⟩ (.href (2 + sizeModels s.models)) =
      .ok (⟨normFinal [primEntsH s.meta] s.models
        [modelsDictEnts 1 s.models, rootEnts s, rootEnts s]⟩,
        .href ((specObjs s).length)) := by
  have hs' : primEnts s.meta = true ∧ s.extra.isEmpty = true ∧
      s.models.all (fun m => flatModel m.2) = true := by
    rw [show flatSpec s = (primEnts s.meta && (s.extra.isEmpty &&
      s.models.all (fun m => flatModel m.2))) from by
        rw [flatSpec, Bool.and_assoc], Bool.and_eq_true,
      Bool.and_eq_true] at hs
    exact ⟨hs.1, hs.2.1, hs.2.2⟩
  have hform : specObjs s = primEntsH s.meta ::
      (modelsObjs 1 s.models ++
        [modelsDictEnts 1 s.models, rootEnts s]) := rfl
  have hgroot0 : Heap.get ⟨specObjs s⟩ (2 + sizeModels s.models) =
      rootEnts s := by
    rw [show 2 + sizeModels s.models =
      (1 + sizeModels s.models) + 1 from by omega, hform, get_cons_succ]
    simp only [Heap.get]
    rw [show 1 + sizeModels s.models =
      (modelsObjs 1 s.models).length + 1 from by
        rw [modelsObjs_length]; omega, getD_append_right]
    rfl
  have hext : specObjs s ++ [rootEnts s] =
      primEntsH s.meta :: (modelsObjs 1 s.models ++
        [modelsDictEnts 1 s.models, rootEnts s, rootEnts s]) := by
    rw [hform]
    simp [List.append_assoc]
  have hgL : Heap.get ⟨specObjs s ++ [rootEnts s]⟩ ((specObjs s).length) =
      rootEnts s := by
    have h1 := getD_append_right (specObjs s) [rootEnts s]
      ([] : List (String × HVal)) 0
    simp only [Nat.add_zero] at h1
    simp only [Heap.get]
    rw [h1]
    rfl
  have hgdict1 : Heap.get ⟨specObjs s ++ [rootEnts s]⟩
      (1 + sizeModels s.models) = modelsDictEnts 1 s.models := by
    rw [hext]
    rw [show 1 + sizeModels s.models = sizeModels s.models + 1 from by
      omega, get_cons_succ]
    simp only [Heap.get]
    have h1 := getD_append_right (modelsObjs 1 s.models)
      ([modelsDictEnts 1 s.models, rootEnts s, rootEnts s])
      ([] : List (String × HVal)) 0
    simp only [Nat.add_zero, modelsObjs_length] at h1
    rw [h1]
    rfl
  have hlook : hEntLookup (rootEnts s) "models" =
      some (.href (1 + sizeModels s.models)) := by
    simp [rootEnts, hEntLookup]
  have hloop := normLoop s.models hs'.2.2 [primEntsH s.meta]
    [modelsDictEnts 1 s.models, rootEnts s, rootEnts s]
  simp only [List.length_cons, List.length_nil, List.singleton_append,
    Nat.zero_add] at hloop
  rw [← hext] at hloop
  simp only [normalizeSpecHeap, Heap.alloc, bind, Except.bind, pure,
    Except.pure, hIn, hgroot0]
  simp only [hgL, hlook, hItems, hgdict1, hloop]
  simp [rootEnts]

end PyHeap

/-- C4: contrary to the specification, `_normalize_spec` performs only a
shallow `dict(dsl_spec)` copy of the top level and then mutates the nested
model and field dictionaries in place. In the heap model: for every flat
specification, the caller's original root reference reads back the input
before the call, and after a successful `_normalize_spec` the same
original reference reads back the NORMALIZED specification (with the
synthetic `id` fields injected) — the caller's nested state has been
mutated whenever injection occurs. -/
theorem C4_theorem (s : TSpec) (hs : PyHeap.flatSpec s = true) :
    PyHeap.deepRead (PyHeap.load s.toVal (PyHeap.Heap.mk [])).1 6
        (PyHeap.load s.toVal (PyHeap.Heap.mk [])).2 = some s.toVal ∧
    ∃ h2 r2,
      PyHeap.normalizeSpecHeap (PyHeap.load s.toVal (PyHeap.Heap.mk [])).1
          (PyHeap.load s.toVal (PyHeap.Heap.mk [])).2 =
        Except.ok (h2, r2) ∧
      PyHeap.deepRead h2 6 (PyHeap.load s.toVal (PyHeap.Heap.mk [])).2 =
        some ((DSLParser.injectSpec s).toVal) := by
  rw [PyHeap.load_spec s hs]
  exact ⟨PyHeap.readSpecOrig s hs,
    _, _, PyHeap.normalizeSpec_layout s hs, PyHeap.deepRead_final s hs⟩

/-- C4 counterexample: scenario B (model `Task`, one `title` field, no
primary key). Loading the spec and running `_normalize_spec` succeeds,
yet re-reading the CALLER's original root reference afterwards yields the
injected spec, which differs from the input — the claimed "does not
mutate caller state" is violated. -/
theorem C4_counterexample :
    PyHeap.normalizeSpecHeap
        (PyHeap.load scenarioBSpec (PyHeap.Heap.mk [])).1
        (PyHeap.load scenarioBSpec (PyHeap.Heap.mk [])).2 =
      Except.ok (PyHeap.Heap.mk (PyHeap.finalObjs scenarioBT),
        .href 6) ∧
    PyHeap.deepRead (PyHeap.load scenarioBSpec (PyHeap.Heap.mk [])).1
        6 (PyHeap.load scenarioBSpec (PyHeap.Heap.mk [])).2 =
      some scenarioBSpec ∧
    PyHeap.deepRead (PyHeap.Heap.mk (PyHeap.finalObjs scenarioBT))
        6 (PyHeap.load scenarioBSpec (PyHeap.Heap.mk [])).2 =
      some ((DSLParser.injectSpec scenarioBT).toVal) ∧
    PyVal.beqVal ((DSLParser.injectSpec scenarioBT).toVal)
      scenarioBSpec = false :=
  ⟨by rfl, by rfl, by rfl, by rfl⟩

/-- Witness for C4 at scenario B. -/
theorem C4_witness :
    PyHeap.flatSpec scenarioBT = true ∧
    (PyHeap.deepRead
        (PyHeap.load scenarioBT.toVal (PyHeap.Heap.mk [])).1 6
        (PyHeap.load scenarioBT.toVal (PyHeap.Heap.mk [])).2 =
      some scenarioBT.toVal ∧
    ∃ h2 r2,
      PyHeap.normalizeSpecHeap
          (PyHeap.load scenarioBT.toVal (PyHeap.Heap.mk [])).1
          (PyHeap.load scenarioBT.toVal (PyHeap.Heap.mk [])).2 =
        Except.ok (h2, r2) ∧
      PyHeap.deepRead h2 6
          (PyHeap.load scenarioBT.toVal (PyHeap.Heap.mk [])).2 =
        some ((DSLParser.injectSpec scenarioBT).toVal)) :=
  ⟨by rfl, C4_theorem scenarioBT (by rfl)⟩
